import Mathlib

/-!
# EOS fusex client: the filesystem operations of `fusex/eosfuse.cc`

A shallow embedding of the FUSE low-level handlers of `EosFuse`
(`write`, `flush`, `create`, `mkdir`, `symlink`, `unlink`, `rmdir`, `rename`),
followed by the properties proved about them.

Conventions of the embedding

* Metadata records (`metad::shared_md`) are shared pointers; they are modelled as
  handles into a `Store`, so that two pointers to one record alias.
* Calls into the components that `eosfuse.cc` only uses (`Instance().mds`,
  `Instance().caps`, `Instance().datas`, the I/O context, the kernel cache and the
  inode tracker) are recorded, in program order, in a trace of `Event`s; the values
  they return are read from an `Env`.  The store of a result holds the writes the
  handler itself performs on the records.
* C integers are `Nat`/`Int`; conversions between widths are explicit
  (`toU64`, `toI64`, `toI32`).
* `std::stol` may throw; a handler that lets the exception escape returns `none`.
-/

namespace EosFuse

/-! ## errno values (Linux) -/

def EPERM : Int := 1
def ENOENT : Int := 2
def EIO : Int := 5
def EBADF : Int := 9
def ENXIO : Int := 6
def EEXIST : Int := 17
def ENOTDIR : Int := 20
def EISDIR : Int := 21
def EINVAL : Int := 22
def EFBIG : Int := 27
def ENAMETOOLONG : Int := 36
def ENOTEMPTY : Int := 39
def ERANGE : Int := 34
def EOPNOTSUPP : Int := 95
def EDQUOT : Int := 122

/-! ## File mode bits, access bits and open flags (Linux x86-64) -/

def S_IFMT : Nat := 0o170000
def S_IFIFO : Nat := 0o010000
def S_IFDIR : Nat := 0o040000
def S_IFREG : Nat := 0o100000
def S_IFLNK : Nat := 0o120000
def S_IRWXU : Nat := 0o700
def S_IRWXG : Nat := 0o070
def S_IRWXO : Nat := 0o007
def R_OK : Nat := 4
def W_OK : Nat := 2
def X_OK : Nat := 1
def O_EXCL : Nat := 0o200
def O_DIRECT : Nat := 0o40000
def O_SYNC : Nat := 0o4010000

def FUSE_SET_ATTR_MODE : Nat := 1
def FUSE_SET_ATTR_UID : Nat := 2
def FUSE_SET_ATTR_GID : Nat := 4
def FUSE_SET_ATTR_SIZE : Nat := 8
def FUSE_SET_ATTR_ATIME : Nat := 16
def FUSE_SET_ATTR_MTIME : Nat := 32
def FUSE_SET_ATTR_ATIME_NOW : Nat := 128
def FUSE_SET_ATTR_MTIME_NOW : Nat := 256

/-- The macro `S_ISDIR(mode)`. -/
def S_ISDIR (mode : Nat) : Bool := mode &&& S_IFMT == S_IFDIR

/-- The macro `S_ISFIFO(mode)`. -/
def S_ISFIFO (mode : Nat) : Bool := mode &&& S_IFMT == S_IFIFO

/-! ## Machine integers -/

/-- Conversion to `uint64_t` / `size_t`. -/
def toU64 (x : Int) : Nat := (x % 2 ^ 64).toNat

/-- Conversion to `int64_t` / `ssize_t` / `long`. -/
def toI64 (x : Int) : Int := (x + 2 ^ 63) % 2 ^ 64 - 2 ^ 63

/-- Conversion to `int`. -/
def toI32 (x : Int) : Int := (x + 2 ^ 31) % 2 ^ 32 - 2 ^ 31

/-! ## `std::stol`, `std::to_string`, `snprintf` -/

/-- The C function `isspace` in the "C" locale. -/
def isspace (c : Char) : Bool := c.toNat == 32 || (9 ≤ c.toNat && c.toNat ≤ 13)

/-- Value of a run of decimal digits. -/
def digitsValue (ds : List Char) : Nat :=
  ds.foldl (fun acc c => 10 * acc + (c.toNat - 48)) 0

/-- The number `strtol(s, _, 10)` reads before range checking: leading white space,
an optional sign, then the longest run of digits; `none` when there is no digit. -/
def strtolValue (s : String) : Option Int :=
  let cs := s.toList.dropWhile isspace
  let neg : Bool := cs.head? == some '-'
  let rest := if cs.head? == some '-' || cs.head? == some '+' then cs.tail else cs
  let ds := rest.takeWhile Char.isDigit
  if ds.isEmpty then none
  else some (if neg then - (digitsValue ds : Int) else (digitsValue ds : Int))

/-- The function `std::stol`: throws `std::invalid_argument` when no conversion can be
done and `std::out_of_range` when the value does not fit a `long` (both `none`). -/
def stol (s : String) : Option Int :=
  match strtolValue s with
  | none => none
  | some v => if -(2 ^ 63) ≤ v ∧ v < 2 ^ 63 then some v else none

/-- The function `std::stoll` (`long long` and `long` are both 64 bit wide). -/
def stoll (s : String) : Option Int := stol s

/-- The function `strtoull(s, 0, 10)`: 0 when there is no digit, `ULLONG_MAX` on
overflow, a negated value wraps. -/
def strtoull (s : String) : Nat :=
  let cs := s.toList.dropWhile isspace
  let neg : Bool := cs.head? == some '-'
  let rest := if cs.head? == some '-' || cs.head? == some '+' then cs.tail else cs
  let v := digitsValue (rest.takeWhile Char.isDigit)
  if v ≥ 2 ^ 64 then 2 ^ 64 - 1 else if neg then toU64 (- (v : Int)) else v

/-- The function `std::to_string(int)`. -/
def to_string (n : Int) : String := toString n

/-- What `snprintf(nameBuf, sizeof(nameBuf), ...)` leaves in a buffer of 256 bytes:
at most 255 bytes of the formatted text. -/
def snprintf256 (formatted : String) : String := String.mk (formatted.toList.take 255)

/-- The conversion `%lx`. -/
def hex (n : Nat) : String := String.mk (Nat.toDigits 16 n)

/-- The shadow name `unlink` gives to a hard-link target that is still referenced:
`snprintf(nameBuf, sizeof(nameBuf), "...eos.ino...%lx", md->md_ino())`. -/
def shadowName (md_ino : Nat) : String := snprintf256 ("...eos.ino..." ++ hex md_ino)

/-! ## Extended attributes (`google::protobuf::Map<string, string>`) -/

abbrev AttrMap := List (String × String)

def k_mdino : String := "sys.eos.mdino"
def k_nlink : String := "sys.eos.nlink"
def k_fifo : String := "sys.eos.fifo"

/-- The method `attr().count(key)`. -/
def attrCount (m : AttrMap) (key : String) : Nat :=
  if (m.lookup key).isSome then 1 else 0

/-- The read `attrMap[key]` (the empty string for an absent key). -/
def attrGet (m : AttrMap) (key : String) : String := (m.lookup key).getD ""

/-- The write `(*mutable_attr())[key] = value`. -/
def attrSet : AttrMap → String → String → AttrMap
  | [], key, value => [(key, value)]
  | (k, v) :: rest, key, value =>
    if k == key then (key, value) :: rest else (k, v) :: attrSet rest key value

/-! ## Records, capabilities, file handles -/

structure Timespec where
  tv_sec : Int
  tv_nsec : Int
  deriving DecidableEq

/-- The synchronisation type of a record (`md->MD`, `md->MDLS`, `md->EXCL`). -/
inductive MdType where
  | MD
  | MDLS
  | EXCL
  deriving DecidableEq

/-- The fields of a metadata record (behind `metad::shared_md`) that the handlers read
or write.
`nlink` holds the value handed to `set_nlink`; `lookup_cnt` and `cap_cnt` are the
counters behind `lookup_inc()` and `cap_inc()`; `local_children` is the size of the map
`local_children()` and `local_children_map` lists its entries (name and inode) in the
order of the names. -/
structure Md where
  id : Nat := 0
  md_ino : Nat := 0
  md_pino : Nat := 0
  pid : Nat := 0
  deleted : Bool := false
  err : Int := 0
  mode : Nat := 0
  name : String := ""
  target : String := ""
  size : Nat := 0
  nlink : Int := 0
  uid : Nat := 0
  gid : Nat := 0
  atime : Int := 0
  atime_ns : Int := 0
  mtime : Int := 0
  mtime_ns : Int := 0
  ctime : Int := 0
  ctime_ns : Int := 0
  btime : Int := 0
  btime_ns : Int := 0
  pmtime : Int := 0
  pmtime_ns : Int := 0
  creator : Bool := false
  inlinesize : Nat := 0
  implied_authid : String := ""
  type : MdType := MdType.MD
  attr : AttrMap := []
  todelete : List (String × Nat) := []
  local_children : Nat := 0
  nchildren : Nat := 0
  lookup_cnt : Nat := 0
  cap_cnt : Nat := 0
  local_children_map : List (String × Nat) := []
  deriving DecidableEq

/-- A pointer to a record. -/
abbrev Handle := Nat

/-- The records behind the pointers. -/
abbrev Store := Handle → Md

/-- Write through a pointer. -/
def Store.set (st : Store) (h : Handle) (m : Md) : Store :=
  fun k => if k = h then m else st k

/-- The lookup `pmd->get_todelete().find(name)`: the inode when the entry is present
and non-zero, else 0. -/
def todeleteIno (m : Md) (name : String) : Nat := (m.todelete.lookup name).getD 0

/-- A capability (`cap::shared_cap`). -/
structure Cap where
  errc : Int := 0
  authid : String := ""
  uid : Nat := 0
  gid : Nat := 0
  max_file_size : Nat := 0
  deriving DecidableEq

/-- An open file handle (`data::data_fh`); `md` is the record behind both `io->md` and
`io->mdctx()`. -/
structure DataFh where
  md : Handle
  rw : Bool := false
  update : Bool := false
  opensize : Nat := 0
  maxfilesize : Nat := 0
  authid : String := ""
  cap : Cap := {}
  deriving DecidableEq

/-- The structure `fuse_file_info`. -/
structure FileInfo where
  flags : Nat := 0
  fh : Option DataFh := none
  keep_cache : Bool := false
  direct_io : Bool := false
  lock_owner : Nat := 0
  deriving DecidableEq

/-- A C `double`, given by its 64 bits.  The handlers only copy such values and test
them against zero. -/
structure Double where
  bits : Nat := 0
  deriving DecidableEq

/-- The test `if (x)` on a `double`: false exactly for `+0.0` and `-0.0`, the two
patterns whose 63 low bits are all zero. -/
def Double.nonzero (x : Double) : Bool := x.bits % 2 ^ 63 != 0

/-- The structure `fuse_entry_param`, as far as the handlers fill it. -/
structure EntryParam where
  ino : Nat := 0
  attr_timeout : Double := {}
  entry_timeout : Double := {}
  deriving DecidableEq

/-- The fields of `struct stat` that `setattr` reads; `st_size` is an `off_t`. -/
structure Stat where
  st_mode : Nat := 0
  st_uid : Nat := 0
  st_gid : Nat := 0
  st_size : Int := 0
  st_atim : Timespec := ⟨0, 0⟩
  st_mtim : Timespec := ⟨0, 0⟩
  deriving DecidableEq

/-! ## Replies and traces -/

/-- An entry that `fuse_add_direntry` writes into the buffer of `readdir`: the name,
`stbuf.st_ino`, `stbuf.st_mode` and the offset of the next entry. -/
structure Dirent where
  name : String
  st_ino : Nat := 0
  st_mode : Nat := 0
  off : Int := 0
  deriving DecidableEq

/-- The reply a handler sends to the kernel. -/
inductive Reply where
  | err (rc : Int)
  | write (count : Nat)
  | entry (e : EntryParam)
  | create (e : EntryParam)
  | attr (e : EntryParam)
  | readlink (target : String)
  | xattr (count : Nat)
  | buf (data : String)
  | dirbuf (entries : List Dirent) (size : Nat)
  deriving DecidableEq

/-- Calls into the components used by the handlers.  `monitor ino exclusive same` is the
construction `Track::Monitor(__func__, Instance().Tracker(), ino, exclusive, same)`; the
last two arguments are `false` when the source omits them. -/
inductive Event where
  | monitor (ino : Nat) (exclusive : Bool) (same : Bool)
  | caps_acquire (ino : Nat) (mode : Nat)
  | caps_has_quota (c : Cap) (size : Nat)
  | caps_book_volume (c : Cap) (size : Int)
  | caps_free_volume (c : Cap) (size : Int)
  | caps_book_inode (c : Cap)
  | caps_free_inode (c : Cap)
  | caps_imply (c : Cap) (authid : String) (mode : Nat) (ino : Nat)
  | caps_forget (cid : String)
  | mds_lookup (parent : Nat) (name : String)
  | mds_get (ino : Nat) (authid : String)
  | mds_insert (md : Handle) (authid : String)
  | mds_add (pmd : Handle) (md : Handle) (authid : String)
  | mds_add_sync (pmd : Handle) (md : Handle) (authid : String)
  | mds_remove (pmd : Handle) (md : Handle) (authid : String) (upstream : Option Bool)
  | mds_mv (p1md : Handle) (p2md : Handle) (md : Handle) (newname : String)
      (authid1 : String) (authid2 : String)
  | mds_update (md : Handle) (authid : String)
  | mds_wait_deleted (ino : Nat)
  | mds_wait_flush (md : Handle)
  | mds_setlk (md : Handle) (l_pid : Int)
  | mds_calculateDepth (md : Handle)
  | vmaps_forward (ino : Nat)
  | datas_unlink (ino : Nat)
  | datas_get (ino : Nat) (md : Handle)
  | ioctx_pwrite (size : Nat) (off : Int)
  | ioctx_flush
  | ioctx_inline_file
  | ioctx_store_cookie (cookie : String)
  | ioctx_set_remote (name : String) (md_ino : Nat) (md_pino : Nat)
  | ioctx_attach (cookie : String) (flags : Nat)
  | inval_inode (ino : Nat)
  | mds_get_ino (ino : Nat)
  | mds_setlk_sleep (md : Handle) (sleep : Int)
  | mds_calculateLocalPath (md : Handle)
  | datas_update_cookie (ino : Nat) (cookie : String)
  | datas_release (ino : Nat)
  | ioctx_truncate (size : Int)
  | ioctx_inline_file_size (size : Int)
  | ioctx_detach (cookie : String) (rw : Bool)
  | sleep_for (ms : Nat)
  | mounter_mount (target : String) (localpath : String)
  | mounter_squashfuse (target : String) (localpath : String)
  | mds_get_listing (ino : Nat) (authid : String)
  | mds_get_parent (ino : Nat)
  | mds_get_child (ino : Nat)
  deriving DecidableEq

/-- What a handler leaves behind. -/
structure Result where
  reply : Reply
  trace : List Event
  store : Store
  fi : Option FileInfo := none

/-- The options of `Instance().Config().options` read by the handlers. -/
structure Options where
  create_is_sync : Bool := false
  mkdir_is_sync : Bool := false
  symlink_is_sync : Bool := false
  rmdir_is_sync : Bool := false
  rename_is_sync : Bool := false
  md_kernelcache : Bool := false
  data_kernelcache : Bool := false
  rm_rf_protect_levels : Int := 0
  md_kernelcache_enoent_timeout : Double := {}
  global_locking : Bool := false

/-- The values returned by the components outside `eosfuse.cc`, the configuration and
the clock.  `D_OK`, `M_OK`, `C_OK`, `SU_OK` and `SA_OK` are the access bits of those
names, `direntry_size name` is the size `fuse_add_direntry` returns for an entry of that
name, `errno` is the value of `errno` when a handler reads it, `lookup_is` the method of that
name of a record, `mds_setlk_sleep k` the result of the call number `k` of `mds.setlk`
made by `setlk`, and the fields `data_*` are the results of the calls on the object
`datas.get` returns.  The defaults serve to write down examples. -/
structure Env where
  options : Options := {}
  D_OK : Nat := 0
  now : Timespec := ⟨0, 0⟩
  caps_acquire : Nat → Nat → Cap := fun _ _ => {}
  caps_has_quota : Cap → Nat → Bool := fun _ _ => true
  caps_imply : Cap → String → Nat → Nat → String := fun _ _ _ _ => ""
  random_uuidstring : String := ""
  mds_lookup : Nat → String → Handle := fun _ _ => 0
  mds_get : Nat → String → Handle := fun _ _ => 0
  mds_insert : Handle → String → Nat := fun _ _ => 0
  mds_add_sync : Handle → Handle → String → Int := fun _ _ _ => 0
  mds_setlk : Handle → Int → Int := fun _ _ => 0
  mds_calculateDepth : Handle → Int := fun _ => 0
  vmaps_forward : Nat → Nat := fun n => n
  isRecursiveRm : Bool := false
  convert : Md → EntryParam := fun m => { ino := m.id }
  Cookie : Md → String := fun _ => ""
  data_fh_Instance : Handle → Bool → DataFh := fun h rw => { md := h, rw := rw }
  ioctx_pwrite : DataFh → Nat → Int → Int := fun _ _ _ => 0
  errno : Int := 0
  ioctx_size : DataFh → Nat := fun _ => 0
  ioctx_flush : DataFh → Int := fun _ => 0
  M_OK : Nat := 0
  C_OK : Nat := 0
  SU_OK : Nat := 0
  mds_get_ino : Nat → Handle := fun _ => 0
  lookup_is : Md → Bool := fun m => m.lookup_cnt != 0
  ioctx_truncate : DataFh → Int → Int := fun _ _ => 0
  data_attach : Int := 0
  data_truncate : Int → Int := fun _ => 0
  data_flush : Int := 0
  data_detach : Int := 0
  mds_setlk_sleep : Nat → Int := fun _ => 0
  localpath : Handle → String := fun _ => ""
  mounter_mount : String → String → Int := fun _ _ => 0
  mounter_squashfuse : String → String → Int := fun _ _ => 0
  SA_OK : Nat := 0
  direntry_size : String → Nat := fun name => 24 + (name.utf8ByteSize + 7) / 8 * 8

/-! ## `EosFuse::write` -/

/-- The handler `EosFuse::write(req, ino, buf, size, off, fi)`.  `size` is a `size_t`,
`off` an `off_t`; the sum `off + size` is computed in `size_t`. -/
def write (env : Env) (st : Store) (ino : Nat) (size : Nat) (off : Int) (fi : FileInfo) :
    Result :=
  let mon := [Event.monitor ino true false]
  match fi.fh with
  | none => { reply := Reply.err ENXIO, trace := mon, store := st, fi := some fi }
  | some io =>
    if toU64 (off + (size : Int)) > io.maxfilesize then
      { reply := Reply.err EFBIG, trace := mon, store := st, fi := some fi }
    else if !env.caps_has_quota io.cap size then
      { reply := Reply.err EDQUOT, trace := mon ++ [Event.caps_has_quota io.cap size],
        store := st, fi := some fi }
    else if env.ioctx_pwrite io size off = -1 then
      { reply := Reply.err (if env.errno ≠ 0 then env.errno else EIO),
        trace := mon ++ [Event.caps_has_quota io.cap size, Event.ioctx_pwrite size off],
        store := st, fi := some fi }
    else
      { reply := Reply.write size,
        trace := mon ++ [Event.caps_has_quota io.cap size, Event.ioctx_pwrite size off],
        store := st.set io.md { st io.md with size := env.ioctx_size io },
        fi := some { fi with fh := some { io with update := true } } }

/-! ## `EosFuse::flush` -/

/-- The end of `EosFuse::flush` on an open handle: the locks of the owner are dropped
(`lock.l_pid = fi->lock_owner; rc |= Instance().mds.setlk(...)`, the 64-bit owner being
stored in the `pid_t` field of the lock), the code is replied, and the kernel cache of
the inode is invalidated when `invalidate_inode` is set. -/
def flushReply (env : Env) (ino : Nat) (fi : FileInfo) (io : DataFh) (rc : Int)
    (invalidate_inode : Bool) (tr : List Event) (st : Store) : Result :=
  { reply := Reply.err (Int.lor rc (env.mds_setlk io.md (toI32 fi.lock_owner))),
    trace := [Event.monitor ino true false] ++ tr ++
      [Event.mds_setlk io.md (toI32 fi.lock_owner)] ++
      (if invalidate_inode then [Event.inval_inode ino] else []),
    store := st, fi := some fi }

/-- The part of `EosFuse::flush` run when the handle has an update and the parent
capability carries no error: book the size change, stamp the modification time, flush
the data, push the record or roll its size back, and check the quota. -/
def flushUpdate (env : Env) (st : Store) (ino : Nat) (fi : FileInfo) (io : DataFh)
    (pcap : Cap) : Result :=
  let size_change : Int := toI64 (toI64 (st io.md).size - toI64 io.opensize)
  let book :=
    if size_change > 0 then Event.caps_book_volume pcap size_change
    else Event.caps_free_volume pcap size_change
  let st1 := st.set io.md { st io.md with mtime := env.now.tv_sec, mtime_ns := env.now.tv_nsec }
  let rcFlush := env.ioctx_flush io
  let st2 := if rcFlush ≠ 0 then st1.set io.md { st1 io.md with size := io.opensize } else st1
  let push := if rcFlush ≠ 0 then [] else [Event.mds_update io.md io.authid]
  let rc : Int := if env.caps_has_quota pcap 0 = false then EDQUOT else rcFlush
  flushReply env ino fi io rc (decide (rcFlush ≠ 0))
    ([Event.caps_acquire (st io.md).pid (S_IFDIR ||| W_OK), book, Event.ioctx_inline_file,
      Event.ioctx_flush] ++ push ++
      [Event.ioctx_store_cookie (env.Cookie (st2 io.md)), Event.caps_has_quota pcap 0])
    st2

/-- The handler `EosFuse::flush(req, ino, fi)`.  The reply is sent before the kernel
cache is invalidated. -/
def flush (env : Env) (st : Store) (ino : Nat) (fi : FileInfo) : Result :=
  match fi.fh with
  | none =>
    { reply := Reply.err 0, trace := [Event.monitor ino true false], store := st, fi := some fi }
  | some io =>
    if io.update = true then
      if (env.caps_acquire (st io.md).pid (S_IFDIR ||| W_OK)).errc ≠ 0 then
        flushReply env ino fi io (env.caps_acquire (st io.md).pid (S_IFDIR ||| W_OK)).errc false
          [Event.caps_acquire (st io.md).pid (S_IFDIR ||| W_OK)] st
      else
        flushUpdate env st ino fi io (env.caps_acquire (st io.md).pid (S_IFDIR ||| W_OK))
    else flushReply env ino fi io 0 false [] st

/-! ## `EosFuse::create` -/

/-- The wait that `create` and `mkdir` insert for a name whose deletion is pending:
`if (del_ino) Instance().mds.wait_deleted(req, del_ino)`. -/
def waitDeleted (st : Store) (pmd : Handle) (name : String) : List Event :=
  if todeleteIno (st pmd) name ≠ 0 then [Event.mds_wait_deleted (todeleteIno (st pmd) name)]
  else []

/-- The data handle `create` attaches to `fi` on success. -/
def createFh (env : Env) (md : Handle) (pcap : Cap) : DataFh :=
  { env.data_fh_Instance md true with
    authid := pcap.authid, maxfilesize := pcap.max_file_size, cap := pcap }

/-- The branch of `EosFuse::create` taken when the name does not resolve to a live
record: fill the record, insert it, stamp the parent, add it (synchronously or not)
and, on success, book the inode and open the file. -/
def createNew (env : Env) (st : Store) (name : String) (mode : Nat)
    (fi : Option FileInfo) (pcap : Cap) (md pmd : Handle) (tr : List Event) : Result :=
  let wait := if (st md).deleted then [Event.mds_wait_flush md] else []
  let ts := env.now
  let st1 := st.set md { st md with
    err := 0
    mode := mode ||| (if S_ISFIFO mode then S_IFIFO else S_IFREG)
    attr := if S_ISFIFO mode then attrSet (st md).attr k_fifo "" else (st md).attr
    name := name
    atime := ts.tv_sec, atime_ns := ts.tv_nsec
    mtime := ts.tv_sec, mtime_ns := ts.tv_nsec
    ctime := ts.tv_sec, ctime_ns := ts.tv_nsec
    btime := ts.tv_sec, btime_ns := ts.tv_nsec
    pmtime := ts.tv_sec, pmtime_ns := ts.tv_nsec
    uid := pcap.uid, gid := pcap.gid
    id := env.mds_insert md pcap.authid
    nlink := 1
    creator := true }
  let st2 := st1.set pmd { st1 pmd with mtime := ts.tv_sec, mtime_ns := ts.tv_nsec }
  let st3 :=
    if attrCount (st2 pmd).attr "sys.file.inline.maxsize" ≠ 0 then
      st2.set md { st2 md with
        inlinesize := strtoull (attrGet (st2 pmd).attr "sys.file.inline.maxsize") }
    else st2
  let sync : Bool := env.options.create_is_sync ||
    (match fi with
     | some f => f.flags &&& O_EXCL != 0
     | none => false)
  let rc : Int := if sync then env.mds_add_sync pmd md pcap.authid else 0
  let st4 := if sync then st3.set md { st3 md with type := MdType.MD } else st3
  let add :=
    if sync then [Event.mds_add_sync pmd md pcap.authid]
    else [Event.mds_add pmd md pcap.authid]
  let tr1 := tr ++ wait ++ [Event.mds_insert md pcap.authid] ++ add
  if rc ≠ 0 then
    { reply := Reply.err rc, trace := tr1, store := st4, fi := fi }
  else
    let e := env.convert (st4 md)
    let st5 := st4.set md { st4 md with lookup_cnt := (st4 md).lookup_cnt + 1 }
    match fi with
    | none =>
      { reply := Reply.entry e, trace := tr1 ++ [Event.caps_book_inode pcap],
        store := st5, fi := none }
    | some f =>
      let cookie := env.Cookie (st5 md)
      { reply := Reply.create e,
        trace := tr1 ++ [Event.caps_book_inode pcap, Event.datas_get (st5 md).id md,
          Event.ioctx_set_remote (st5 md).name (st5 md).md_ino (st5 md).md_pino,
          Event.ioctx_attach cookie f.flags],
        store := st5,
        fi := some { f with
          keep_cache := env.options.data_kernelcache
          direct_io := (f.flags &&& O_DIRECT != 0) || (f.flags &&& O_SYNC != 0)
          fh := some (createFh env md pcap) } }

/-- The handler `EosFuse::create(req, parent, name, mode, fi)`; `fi` is absent when
the call comes from `mknod`. -/
def create (env : Env) (st : Store) (parent : Nat) (name : String) (mode : Nat)
    (fi : Option FileInfo) : Result :=
  let pcap := env.caps_acquire parent (S_IFDIR ||| W_OK)
  let tr0 := [Event.monitor parent true false, Event.caps_acquire parent (S_IFDIR ||| W_OK)]
  if pcap.errc ≠ 0 then
    { reply := Reply.err pcap.errc, trace := tr0, store := st, fi := fi }
  else if !env.caps_has_quota pcap (1024 * 1024) then
    { reply := Reply.err EDQUOT, trace := tr0 ++ [Event.caps_has_quota pcap (1024 * 1024)],
      store := st, fi := fi }
  else
    let md := env.mds_lookup parent name
    let pmd := env.mds_get parent pcap.authid
    let tr1 := tr0 ++ [Event.caps_has_quota pcap (1024 * 1024), Event.mds_lookup parent name,
      Event.mds_get parent pcap.authid] ++ waitDeleted st pmd name
    if (st md).id ≠ 0 ∧ (st md).deleted = false then
      { reply := Reply.err EEXIST, trace := tr1, store := st, fi := fi }
    else createNew env st name mode fi pcap md pmd tr1

/-! ## `EosFuse::mkdir` -/

/-- The branch of `EosFuse::mkdir` taken when the name does not resolve to a live
record. -/
def mkdirNew (env : Env) (st : Store) (name : String) (mode : Nat)
    (pcap : Cap) (md pmd : Handle) (tr : List Event) : Result :=
  let ts := env.now
  let st1 := st.set md { st md with
    err := 0
    mode := mode ||| S_IFDIR
    name := name
    atime := ts.tv_sec, atime_ns := ts.tv_nsec
    mtime := ts.tv_sec, mtime_ns := ts.tv_nsec
    ctime := ts.tv_sec, ctime_ns := ts.tv_nsec
    btime := ts.tv_sec, btime_ns := ts.tv_nsec
    pmtime := ts.tv_sec, pmtime_ns := ts.tv_nsec }
  let st2 := st1.set pmd { st1 pmd with mtime := ts.tv_sec, mtime_ns := ts.tv_nsec }
  let st3 := st2.set md { st2 md with
    uid := pcap.uid, gid := pcap.gid
    id := env.mds_insert md pcap.authid
    nlink := 2
    creator := true }
  let imply_authid := env.random_uuidstring
  let implied_cid := env.caps_imply pcap imply_authid mode (st3 md).id
  let st4 := st3.set md { st3 md with
    cap_cnt := (st3 md).cap_cnt + 1, implied_authid := imply_authid }
  let sync := env.options.mkdir_is_sync
  let rc : Int := if sync then env.mds_add_sync pmd md pcap.authid else 0
  let st5 := if sync then st4.set md { st4 md with type := MdType.MD } else st4
  let add :=
    if sync then [Event.mds_add_sync pmd md pcap.authid]
    else [Event.mds_add pmd md pcap.authid]
  let tr1 := tr ++ [Event.mds_insert md pcap.authid,
    Event.caps_imply pcap imply_authid mode (st3 md).id] ++ add
  if rc ≠ 0 then
    { reply := Reply.err rc, trace := tr1 ++ [Event.caps_forget implied_cid], store := st5 }
  else
    { reply := Reply.entry (env.convert (st5 md)), trace := tr1,
      store := st5.set md { st5 md with lookup_cnt := (st5 md).lookup_cnt + 1 } }

/-- The handler `EosFuse::mkdir(req, parent, name, mode)`. -/
def mkdir (env : Env) (st : Store) (parent : Nat) (name : String) (mode : Nat) : Result :=
  let pcap := env.caps_acquire parent (S_IFDIR ||| X_OK ||| W_OK)
  let tr0 := [Event.monitor parent true false,
    Event.caps_acquire parent (S_IFDIR ||| X_OK ||| W_OK)]
  if pcap.errc ≠ 0 then
    { reply := Reply.err pcap.errc, trace := tr0, store := st }
  else
    let md := env.mds_lookup parent name
    let pmd := env.mds_get parent pcap.authid
    let tr1 := tr0 ++ [Event.mds_lookup parent name, Event.mds_get parent pcap.authid] ++
      waitDeleted st pmd name
    if (st md).id ≠ 0 ∧ (st md).deleted = false then
      { reply := Reply.err EEXIST, trace := tr1, store := st }
    else mkdirNew env st name mode pcap md pmd tr1

/-! ## `EosFuse::symlink` -/

/-- The branch of `EosFuse::symlink` taken when the name does not resolve to a live
record.  The lookup count is raised before the add and the entry is filled whatever
the add returns. -/
def symlinkNew (env : Env) (st : Store) (link name : String)
    (pcap : Cap) (md pmd : Handle) (tr : List Event) : Result :=
  let wait := if (st md).deleted then [Event.mds_wait_flush md] else []
  let ts := env.now
  let st1 := st.set md { st md with
    mode := S_IRWXU ||| S_IRWXG ||| S_IRWXO ||| S_IFLNK
    target := link
    err := 0
    name := name
    atime := ts.tv_sec, atime_ns := ts.tv_nsec
    mtime := ts.tv_sec, mtime_ns := ts.tv_nsec
    ctime := ts.tv_sec, ctime_ns := ts.tv_nsec
    btime := ts.tv_sec, btime_ns := ts.tv_nsec
    uid := pcap.uid, gid := pcap.gid
    id := env.mds_insert md pcap.authid
    lookup_cnt := (st md).lookup_cnt + 1 }
  let sync := env.options.symlink_is_sync
  let rc : Int := if sync then env.mds_add_sync pmd md pcap.authid else 0
  let st2 := if sync then st1.set md { st1 md with type := MdType.MD } else st1
  let add :=
    if sync then [Event.mds_add_sync pmd md pcap.authid]
    else [Event.mds_add pmd md pcap.authid]
  { reply := if rc ≠ 0 then Reply.err rc else Reply.entry (env.convert (st2 md)),
    trace := tr ++ wait ++ [Event.mds_insert md pcap.authid] ++ add,
    store := st2 }

/-- The handler `EosFuse::symlink(req, link, parent, name)`. -/
def symlink (env : Env) (st : Store) (link : String) (parent : Nat) (name : String) :
    Result :=
  let pcap := env.caps_acquire parent (S_IFDIR ||| W_OK)
  let tr0 := [Event.monitor parent false false, Event.caps_acquire parent (S_IFDIR ||| W_OK)]
  if pcap.errc ≠ 0 then
    { reply := Reply.err pcap.errc, trace := tr0, store := st }
  else
    let md := env.mds_lookup parent name
    let pmd := env.mds_get parent pcap.authid
    let tr1 := tr0 ++ [Event.mds_lookup parent name, Event.mds_get parent pcap.authid]
    if (st md).id ≠ 0 ∧ (st md).deleted = false then
      { reply := Reply.err EEXIST, trace := tr1, store := st }
    else symlinkNew env st link name pcap md pmd tr1

/-! ## `EosFuse::unlink` -/

/-- The link counting of `EosFuse::unlink`.  `tmd0` is the hard-link target found
through `sys.eos.mdino`, if any.  Returns the local `nlink` (an `int`, read with
`std::stol`), the final `tmd` and the store; `none` when `std::stol` throws. -/
def unlinkCount (st : Store) (md : Handle) (tmd0 : Option Handle) :
    Option (Int × Option Handle × Store) :=
  match tmd0 with
  | some t =>
    if attrCount (st t).attr k_nlink ≠ 0 then
      match stol (attrGet (st t).attr k_nlink) with
      | none => none
      | some v =>
        let nlink := toI32 v
        let st1 :=
          if nlink > 0 then
            st.set t { st t with attr := attrSet (st t).attr k_nlink (to_string (nlink - 1)) }
          else st
        some (nlink, some t, st1.set t { st1 t with nlink := nlink })
    else some (0, some t, st)
  | none =>
    if attrCount (st md).attr k_nlink ≠ 0 then
      match stol (attrGet (st md).attr k_nlink) with
      | none => none
      | some v =>
        let nlink := toI32 v
        let tmd : Option Handle := if nlink ≠ 0 then some md else none
        let st1 :=
          if nlink > 0 then
            st.set md { st md with attr := attrSet (st md).attr k_nlink (to_string (nlink - 1)) }
          else st
        let st2 :=
          match tmd with
          | some t => st1.set t { st1 t with nlink := nlink }
          | none => st1
        some (nlink, tmd, st2)
    else some (0, none, st)

/-- The removal step of `EosFuse::unlink`: remove the entry (and a target without
links), or rename a hard-link target to its shadow name. -/
def unlinkRemove (st : Store) (pcap : Cap) (md pmd : Handle) (tmd : Option Handle) :
    List Event :=
  if some md ≠ tmd then
    [Event.mds_remove pmd md pcap.authid none] ++
      (match tmd with
       | some t =>
         if (st t).nlink = 0 then [Event.mds_remove pmd t pcap.authid (some false)] else []
       | none => [])
  else
    [Event.mds_mv pmd pmd md (shadowName (st md).md_ino) pcap.authid pcap.authid]

/-- The part of `EosFuse::unlink` that runs once the entry is found, is no directory
and is not protected against recursive removal. -/
def unlinkBody (env : Env) (st : Store) (parent : Nat) (pcap : Cap)
    (md : Handle) (tr : List Event) : Option Result :=
  let del_ino := (st md).id
  let pmd := env.mds_get parent pcap.authid
  let link : Option (Option Handle × Nat × List Event) :=
    if attrCount (st md).attr k_mdino ≠ 0 then
      match stoll (attrGet (st md).attr k_mdino) with
      | none => none
      | some v =>
        let local_ino := env.vmaps_forward (toU64 v)
        let t := env.mds_get local_ino pcap.authid
        some (some t, (st t).id,
          [Event.vmaps_forward (toU64 v), Event.mds_get local_ino pcap.authid])
    else some (none, 0, [])
  match link with
  | none => none
  | some (tmd0, hardlink_target_ino, trLink) =>
    match unlinkCount st md tmd0 with
    | none => none
    | some (nlink, tmd, st1) =>
      let freesize : Nat := if nlink ≤ 0 then (st1 md).size else 0
      let sig :=
        if hardlink_target_ino ≠ 0 then [Event.datas_unlink hardlink_target_ino]
        else [Event.datas_unlink (st1 md).id]
      let wait :=
        if hardlink_target_ino ≠ 0 ∨ env.options.rmdir_is_sync = true then
          [Event.mds_wait_deleted del_ino]
        else []
      let inval :=
        if hardlink_target_ino ≠ 0 ∧ env.options.md_kernelcache = true then
          [Event.inval_inode hardlink_target_ino]
        else []
      some { reply := Reply.err 0,
             trace := tr ++ [Event.mds_get parent pcap.authid] ++ trLink ++ sig ++
               unlinkRemove st1 pcap md pmd tmd ++ wait ++
               [Event.caps_free_volume pcap freesize, Event.caps_free_inode pcap] ++ inval,
             store := st1 }

/-- The handler `EosFuse::unlink(req, parent, name)`. -/
def unlink (env : Env) (st : Store) (parent : Nat) (name : String) : Option Result :=
  let pcap := env.caps_acquire parent (S_IFDIR ||| X_OK ||| env.D_OK)
  let tr0 := [Event.monitor parent true false,
    Event.caps_acquire parent (S_IFDIR ||| X_OK ||| env.D_OK)]
  if pcap.errc ≠ 0 then
    some { reply := Reply.err pcap.errc, trace := tr0, store := st }
  else
    let rcName : Int :=
      if name.utf8ByteSize > 1024 then ENAMETOOLONG else if name = "." then EINVAL else 0
    if rcName ≠ 0 then
      some { reply := Reply.err rcName, trace := tr0, store := st }
    else
      let md := env.mds_lookup parent name
      let tr1 := tr0 ++ [Event.mds_lookup parent name]
      if (st md).id = 0 ∨ (st md).deleted = true then
        some { reply := Reply.err ENOENT, trace := tr1, store := st }
      else if (st md).mode &&& S_IFDIR ≠ 0 then
        some { reply := Reply.err EISDIR, trace := tr1, store := st }
      else if env.isRecursiveRm = true ∧ env.options.rm_rf_protect_levels ≠ 0 ∧
          env.mds_calculateDepth md ≤ env.options.rm_rf_protect_levels then
        some { reply := Reply.err EPERM, trace := tr1 ++ [Event.mds_calculateDepth md],
               store := st }
      else
        unlinkBody env st parent pcap md
          (tr1 ++ (if env.isRecursiveRm = true ∧ env.options.rm_rf_protect_levels ≠ 0 then
            [Event.mds_calculateDepth md] else []))

/-! ## `EosFuse::rmdir` -/

/-- The handler `EosFuse::rmdir(req, parent, name)`.  The monitor on the looked-up
record is taken right after the lookup, before the record is examined. -/
def rmdir (env : Env) (st : Store) (parent : Nat) (name : String) : Result :=
  let pcap := env.caps_acquire parent (S_IFDIR ||| X_OK ||| env.D_OK)
  let tr0 := [Event.monitor parent true false,
    Event.caps_acquire parent (S_IFDIR ||| X_OK ||| env.D_OK)]
  if pcap.errc ≠ 0 then
    { reply := Reply.err pcap.errc, trace := tr0, store := st }
  else
    let rcName : Int :=
      if name.utf8ByteSize > 1024 then ENAMETOOLONG else if name = "." then EINVAL else 0
    if rcName ≠ 0 then
      { reply := Reply.err rcName, trace := tr0, store := st }
    else
      let md := env.mds_lookup parent name
      let tr1 := tr0 ++ [Event.mds_lookup parent name, Event.monitor (st md).id true false]
      if (st md).id = 0 ∨ (st md).deleted = true then
        { reply := Reply.err ENOENT, trace := tr1, store := st }
      else if (st md).mode &&& S_IFDIR = 0 then
        { reply := Reply.err ENOTDIR, trace := tr1, store := st }
      else if (st md).local_children ≠ 0 ∨ (st md).nchildren ≠ 0 then
        { reply := Reply.err ENOTEMPTY, trace := tr1, store := st }
      else
        let pmd := env.mds_get parent pcap.authid
        { reply := Reply.err 0,
          trace := tr1 ++ [Event.mds_get parent pcap.authid,
            Event.mds_remove pmd md pcap.authid none] ++
            (if env.options.rmdir_is_sync then [Event.mds_wait_deleted (st md).id] else []),
          store := st }

/-! ## `EosFuse::rename` -/

/-- The handler `EosFuse::rename(req, parent, name, newparent, newname)`.  A record
without id whose error code is 0 leaves `rc` at 0, and the move goes on with
`md_ino = 0`. -/
def rename (env : Env) (st : Store) (parent : Nat) (name : String) (newparent : Nat)
    (newname : String) : Result :=
  let first := min parent newparent
  let second := max parent newparent
  let p1cap := env.caps_acquire parent (S_IFDIR ||| R_OK)
  let p2cap := env.caps_acquire newparent (S_IFDIR ||| W_OK)
  let tr0 := [Event.monitor first true false, Event.monitor second true (first == second),
    Event.caps_acquire parent (S_IFDIR ||| R_OK),
    Event.caps_acquire newparent (S_IFDIR ||| W_OK)]
  let rcCap : Int := if p1cap.errc ≠ 0 then p1cap.errc else p2cap.errc
  if rcCap ≠ 0 then
    { reply := Reply.err rcCap, trace := tr0, store := st }
  else
    let md := env.mds_lookup parent name
    let p1md := env.mds_get parent p1cap.authid
    let p2md := env.mds_get newparent p2cap.authid
    let tr1 := tr0 ++ [Event.mds_lookup parent name, Event.mds_get parent p1cap.authid,
      Event.mds_get newparent p2cap.authid] ++
      (if (st md).deleted then [Event.mds_wait_flush md] else [])
    let rc : Int :=
      if (st md).id = 0 ∨ (st md).deleted = true then
        (if (st md).deleted then ENOENT else (st md).err)
      else 0
    let md_ino : Nat := if (st md).id = 0 ∨ (st md).deleted = true then 0 else (st md).id
    if rc ≠ 0 then
      { reply := Reply.err rc, trace := tr1, store := st }
    else
      { reply := Reply.err 0,
        trace := tr1 ++ [Event.monitor md_ino true false,
          Event.mds_mv p1md p2md md newname p1cap.authid p2cap.authid] ++
          (if env.options.rename_is_sync then [Event.mds_wait_flush md] else []),
        store := st }

/-- The inodes for which a trace constructs a `Track::Monitor`, in program order. -/
def monitored : List Event → List Nat
  | [] => []
  | Event.monitor ino _ _ :: rest => ino :: monitored rest
  | _ :: rest => monitored rest

/-- The calls of `mds.mv` in a trace. -/
def mvCalls (tr : List Event) : List Event :=
  tr.filter (fun e =>
    match e with
    | Event.mds_mv _ _ _ _ _ _ => true
    | _ => false)

/-- The calls of `mds.insert` in a trace. -/
def insertCalls (tr : List Event) : List Event :=
  tr.filter (fun e =>
    match e with
    | Event.mds_insert _ _ => true
    | _ => false)

/-- The calls of `mds.remove` in a trace. -/
def removeCalls (tr : List Event) : List Event :=
  tr.filter (fun e =>
    match e with
    | Event.mds_remove _ _ _ _ => true
    | _ => false)

/-! ## `EosFuse::setattr` -/

/-- The test `!md->id() || (md->deleted() && !md->lookup_is())`. -/
def gone (env : Env) (m : Md) : Bool := m.id == 0 || (m.deleted && !env.lookup_is m)

/-- The inode whose capability `setattr` asks for:
`S_ISDIR(md->mode()) ? ino : md->pid()`, and the parent in every case for a chmod. -/
def setattrCapIno (st : Store) (ino : Nat) (op : Nat) (md : Handle) : Nat :=
  if op &&& FUSE_SET_ATTR_MODE ≠ 0 then (st md).pid
  else if S_ISDIR (st md).mode then ino else (st md).pid

/-- The capability `setattr` works with; the pointer `pcap` stays null (`none`) when
`op` has none of the bits the handler knows. -/
def setattrCap (env : Env) (st : Store) (ino : Nat) (op : Nat) (md : Handle) : Option Cap :=
  if op &&& FUSE_SET_ATTR_MODE ≠ 0 then
    some (env.caps_acquire (setattrCapIno st ino op md) env.M_OK)
  else if op &&& FUSE_SET_ATTR_UID ≠ 0 ∨ op &&& FUSE_SET_ATTR_GID ≠ 0 then
    some (env.caps_acquire (setattrCapIno st ino op md) env.C_OK)
  else if op &&& FUSE_SET_ATTR_SIZE ≠ 0 then
    some (env.caps_acquire (setattrCapIno st ino op md) W_OK)
  else if op &&& FUSE_SET_ATTR_ATIME ≠ 0 ∨ op &&& FUSE_SET_ATTR_MTIME ≠ 0 ∨
      op &&& FUSE_SET_ATTR_ATIME_NOW ≠ 0 ∨ op &&& FUSE_SET_ATTR_MTIME_NOW ≠ 0 then
    (if (env.caps_acquire (setattrCapIno st ino op md) W_OK).errc ≠ 0 then
      some (env.caps_acquire (setattrCapIno st ino op md) env.SU_OK)
    else some (env.caps_acquire (setattrCapIno st ino op md) W_OK))
  else none

/-- The calls of `caps.acquire` behind `setattrCap`. -/
def setattrCapEvents (env : Env) (st : Store) (ino : Nat) (op : Nat) (md : Handle) :
    List Event :=
  if op &&& FUSE_SET_ATTR_MODE ≠ 0 then
    [Event.caps_acquire (setattrCapIno st ino op md) env.M_OK]
  else if op &&& FUSE_SET_ATTR_UID ≠ 0 ∨ op &&& FUSE_SET_ATTR_GID ≠ 0 then
    [Event.caps_acquire (setattrCapIno st ino op md) env.C_OK]
  else if op &&& FUSE_SET_ATTR_SIZE ≠ 0 then
    [Event.caps_acquire (setattrCapIno st ino op md) W_OK]
  else if op &&& FUSE_SET_ATTR_ATIME ≠ 0 ∨ op &&& FUSE_SET_ATTR_MTIME ≠ 0 ∨
      op &&& FUSE_SET_ATTR_ATIME_NOW ≠ 0 ∨ op &&& FUSE_SET_ATTR_MTIME_NOW ≠ 0 then
    (if (env.caps_acquire (setattrCapIno st ino op md) W_OK).errc ≠ 0 then
      [Event.caps_acquire (setattrCapIno st ino op md) W_OK,
       Event.caps_acquire (setattrCapIno st ino op md) env.SU_OK]
    else [Event.caps_acquire (setattrCapIno st ino op md) W_OK])
  else []

/-- Whether `op` asks for a change of the access or modification time. -/
def setattrUtimes (op : Nat) : Bool :=
  op &&& FUSE_SET_ATTR_ATIME != 0 || op &&& FUSE_SET_ATTR_MTIME != 0 ||
    op &&& FUSE_SET_ATTR_ATIME_NOW != 0 || op &&& FUSE_SET_ATTR_MTIME_NOW != 0

/-- A write through the pointer `h` made under the condition `c`:
`if (c) { md->set_…(…); }`. -/
def Store.setIf (st : Store) (c : Bool) (h : Handle) (f : Md → Md) : Store :=
  if c then st.set h (f (st h)) else st

/-- The chmod, chown and utimes blocks of `setattr`, in the order of the source, the
first write innermost. -/
def setattrMeta (env : Env) (st : Store) (attr : Stat) (op : Nat) (md : Handle) : Store :=
  (((((((st.setIf (op &&& FUSE_SET_ATTR_MODE != 0) md
      (fun m => { m with mode := attr.st_mode })).setIf
    (op &&& FUSE_SET_ATTR_UID != 0) md
      (fun m => { m with uid := attr.st_uid })).setIf
    (op &&& FUSE_SET_ATTR_GID != 0) md
      (fun m => { m with gid := attr.st_gid })).setIf
    (op &&& FUSE_SET_ATTR_ATIME != 0) md
      (fun m => { m with
        atime := attr.st_atim.tv_sec, atime_ns := attr.st_atim.tv_nsec
        ctime := env.now.tv_sec, ctime_ns := env.now.tv_nsec })).setIf
    (op &&& FUSE_SET_ATTR_MTIME != 0) md
      (fun m => { m with
        mtime := attr.st_mtim.tv_sec, mtime_ns := attr.st_mtim.tv_nsec
        ctime := env.now.tv_sec, ctime_ns := env.now.tv_nsec })).setIf
    (op &&& FUSE_SET_ATTR_ATIME_NOW != 0) md
      (fun m => { m with
        atime := env.now.tv_sec, atime_ns := env.now.tv_nsec
        ctime := env.now.tv_sec, ctime_ns := env.now.tv_nsec })).setIf
    (op &&& FUSE_SET_ATTR_MTIME_NOW != 0) md
      (fun m => { m with
        mtime := env.now.tv_sec, mtime_ns := env.now.tv_nsec
        ctime := env.now.tv_sec, ctime_ns := env.now.tv_nsec }))

/-- The call the utimes block makes: `datas.update_cookie(md->id(), md->Cookie())`. -/
def setattrMetaEvents (env : Env) (st : Store) (op : Nat) (md : Handle) : List Event :=
  if setattrUtimes op then [Event.datas_update_cookie (st md).id (env.Cookie (st md))] else []

/-- The idiom `rc = rc ? (errno ? errno : rc) : 0`. -/
def errnoOr (env : Env) (rc : Int) : Int :=
  if rc ≠ 0 then (if env.errno ≠ 0 then env.errno else rc) else 0

/-- The value of the variable `rc` that the `FUSE_SET_ATTR_SIZE` block of `setattr`
declares, at the end of the truncate step: `ENOENT` for a record that is gone, `EISDIR`
when the `S_IFDIR` bit of the mode is set, else what truncate and flush return, through
the open handle (ftruncate) or through a data object attached for the purpose. -/
def truncateRc (env : Env) (st : Store) (attr : Stat) (fi : Option FileInfo) (md : Handle) :
    Int :=
  if gone env (st md) then ENOENT
  else if (st md).mode &&& S_IFDIR ≠ 0 then EISDIR
  else
    match fi.bind (fun f => f.fh) with
    | some io =>
      errnoOr env (Int.lor (Int.lor 0 (env.ioctx_truncate io attr.st_size)) (env.ioctx_flush io))
    | none =>
      errnoOr env (Int.lor (Int.lor (Int.lor env.data_attach (env.data_truncate attr.st_size))
        env.data_flush) env.data_detach)

/-- The calls of the truncate step. -/
def truncateEvents (env : Env) (st : Store) (attr : Stat) (fi : Option FileInfo)
    (md : Handle) : List Event :=
  if gone env (st md) then []
  else if (st md).mode &&& S_IFDIR ≠ 0 then []
  else
    match fi.bind (fun f => f.fh) with
    | some _ =>
      [Event.ioctx_truncate attr.st_size, Event.ioctx_inline_file_size attr.st_size,
       Event.ioctx_flush]
    | none =>
      [Event.datas_get (st md).id md, Event.ioctx_attach (env.Cookie (st md)) 1,
       Event.ioctx_truncate attr.st_size, Event.ioctx_inline_file_size attr.st_size,
       Event.ioctx_flush, Event.ioctx_detach (env.Cookie (st md)) true,
       Event.datas_release (st md).id]

/-- The end of `setattr` when the `rc` of the handler is 0: the record is converted,
pushed with `mds.update` and the attributes are replied. -/
def setattrReply (env : Env) (st : Store) (md : Handle) (pcap : Cap) (tr : List Event) :
    Result :=
  { reply := Reply.attr (env.convert (st md)),
    trace := tr ++ [Event.mds_update md pcap.authid],
    store := st }

/-- The part of `setattr` run under a capability without error.  The `rc` declared
inside the `FUSE_SET_ATTR_SIZE` block (`truncateRc`) shadows the `rc` of the handler: it
decides whether the size change is booked and the size set, and is then dropped; the
`rc` of the handler is still 0 when the reply is chosen. -/
def setattrApply (env : Env) (st : Store) (attr : Stat) (op : Nat) (fi : Option FileInfo)
    (md : Handle) (pcap : Cap) (tr : List Event) : Result :=
  if op &&& FUSE_SET_ATTR_SIZE ≠ 0 then
    if truncateRc env (setattrMeta env st attr op md) attr fi md = 0 then
      setattrReply env
        ((setattrMeta env st attr op md).set md
          { setattrMeta env st attr op md md with size := toU64 attr.st_size })
        md pcap
        (tr ++ setattrMetaEvents env (setattrMeta env st attr op md) op md ++
          truncateEvents env (setattrMeta env st attr op md) attr fi md ++
          [if toI64 (toI64 attr.st_size - toI64 (setattrMeta env st attr op md md).size) > 0
           then Event.caps_book_volume pcap
             (toI64 (toI64 attr.st_size - toI64 (setattrMeta env st attr op md md).size))
           else Event.caps_free_volume pcap
             (toI64 (toI64 attr.st_size - toI64 (setattrMeta env st attr op md md).size))])
    else
      setattrReply env (setattrMeta env st attr op md) md pcap
        (tr ++ setattrMetaEvents env (setattrMeta env st attr op md) op md ++
          truncateEvents env (setattrMeta env st attr op md) attr fi md)
  else
    setattrReply env (setattrMeta env st attr op md) md pcap
      (tr ++ setattrMetaEvents env (setattrMeta env st attr op md) op md)

/-- The handler `EosFuse::setattr(req, ino, attr, op, fi)`.  The result is `none` where
the source dereferences the null pointer `pcap`: when `op` has no bit the handler
knows, and when a record without id carries no error code. -/
def setattr (env : Env) (st : Store) (ino : Nat) (attr : Stat) (op : Nat)
    (fi : Option FileInfo) : Option Result :=
  if op = 0 then
    some { reply := Reply.err EINVAL, trace := [Event.mds_get_ino ino], store := st }
  else if gone env (st (env.mds_get_ino ino)) then
    (if (if (st (env.mds_get_ino ino)).deleted then ENOENT
         else (st (env.mds_get_ino ino)).err) ≠ 0 then
      some { reply := Reply.err (if (st (env.mds_get_ino ino)).deleted then ENOENT
               else (st (env.mds_get_ino ino)).err),
             trace := [Event.mds_get_ino ino], store := st }
    else none)
  else
    match setattrCap env st ino op (env.mds_get_ino ino) with
    | none => none
    | some pcap =>
      if pcap.errc ≠ 0 then
        some { reply := Reply.err pcap.errc,
               trace := [Event.mds_get_ino ino] ++
                 setattrCapEvents env st ino op (env.mds_get_ino ino),
               store := st }
      else
        some (setattrApply env st attr op fi (env.mds_get_ino ino) pcap
          ([Event.mds_get_ino ino] ++ setattrCapEvents env st ino op (env.mds_get_ino ino)))

/-- The calls of `caps.book_volume` in a trace. -/
def bookCalls (tr : List Event) : List Event :=
  tr.filter (fun e =>
    match e with
    | Event.caps_book_volume _ _ => true
    | _ => false)

/-- The calls of `caps.free_volume` in a trace. -/
def freeCalls (tr : List Event) : List Event :=
  tr.filter (fun e =>
    match e with
    | Event.caps_free_volume _ _ => true
    | _ => false)

/-! ## `EosFuse::lookup` -/

/-- The handler `EosFuse::lookup(req, parent, name)`.  A live record gets its parent
set, is converted, and its lookup count is raised; any other record gives the negative
entry.  The error code of the record, when there is one, replaces `rc` at the end, in
both cases. -/
def lookup (env : Env) (st : Store) (parent : Nat) (name : String) : Result :=
  if (st (env.mds_lookup parent name)).id ≠ 0 ∧
      (st (env.mds_lookup parent name)).deleted = false then
    { reply :=
        if (st (env.mds_lookup parent name)).err ≠ 0 then
          Reply.err (st (env.mds_lookup parent name)).err
        else
          Reply.entry (env.convert { st (env.mds_lookup parent name) with pid := parent }),
      trace := [Event.mds_lookup parent name, Event.caps_acquire parent R_OK],
      store := st.set (env.mds_lookup parent name)
        { st (env.mds_lookup parent name) with
          pid := parent
          lookup_cnt := (st (env.mds_lookup parent name)).lookup_cnt + 1 } }
  else
    { reply :=
        if (st (env.mds_lookup parent name)).err ≠ 0 then
          Reply.err (st (env.mds_lookup parent name)).err
        else if env.options.md_kernelcache_enoent_timeout.nonzero then
          Reply.entry { ino := 0,
                        attr_timeout := env.options.md_kernelcache_enoent_timeout,
                        entry_timeout := env.options.md_kernelcache_enoent_timeout }
        else if (st (env.mds_lookup parent name)).deleted then Reply.err ENOENT
        else
          Reply.entry { ino := 0,
                        attr_timeout := env.options.md_kernelcache_enoent_timeout,
                        entry_timeout := env.options.md_kernelcache_enoent_timeout },
      trace := [Event.mds_lookup parent name],
      store := st }

/-! ## `EosFuse::readlink` -/

/-- The string `target.substr(0, n)`, for a comparison with a text of `n` ASCII
characters. -/
def substr0 (target : String) (n : Nat) : String := String.mk (target.toList.take n)

/-- The end of `EosFuse::readlink`: the mounts behind targets that start with
`mount:` or `squashfuse:`, then the reply, which in the error case is `errno` and not
`rc`. -/
def readlinkReply (env : Env) (st : Store) (md : Handle) (rc : Int)
    (target : String) (tr : List Event) : Result :=
  if substr0 target 6 = "mount:" then
    { reply :=
        if env.mounter_mount target (env.localpath md) = 0 then Reply.readlink target
        else Reply.err env.errno,
      trace := tr ++ [Event.mds_calculateLocalPath md,
        Event.mounter_mount target (env.localpath md)],
      store := st }
  else if substr0 target 11 = "squashfuse:" then
    { reply :=
        if env.mounter_squashfuse target (env.localpath md) = 0 then Reply.readlink target
        else Reply.err env.errno,
      trace := tr ++ [Event.mds_calculateLocalPath md,
        Event.mounter_squashfuse target (env.localpath md)],
      store := st }
  else
    { reply := if rc = 0 then Reply.readlink target else Reply.err env.errno,
      trace := tr, store := st }

/-- The handler `EosFuse::readlink(req, ino)`.  A record counts as a link when
`md->mode() & S_IFLNK` is non-zero. -/
def readlink (env : Env) (st : Store) (ino : Nat) : Result :=
  if (env.caps_acquire (st (env.mds_get_ino ino)).pid R_OK).errc ≠ 0 then
    readlinkReply env st (env.mds_get_ino ino)
      (env.caps_acquire (st (env.mds_get_ino ino)).pid R_OK).errc ""
      [Event.monitor ino false false, Event.mds_get_ino ino,
       Event.caps_acquire (st (env.mds_get_ino ino)).pid R_OK]
  else if (st (env.mds_get_ino ino)).id = 0 ∨ (st (env.mds_get_ino ino)).deleted = true then
    readlinkReply env st (env.mds_get_ino ino) ENOENT ""
      [Event.monitor ino false false, Event.mds_get_ino ino,
       Event.caps_acquire (st (env.mds_get_ino ino)).pid R_OK]
  else if (st (env.mds_get_ino ino)).mode &&& S_IFLNK = 0 then
    readlinkReply env st (env.mds_get_ino ino) EINVAL ""
      [Event.monitor ino false false, Event.mds_get_ino ino,
       Event.caps_acquire (st (env.mds_get_ino ino)).pid R_OK]
  else
    readlinkReply env st (env.mds_get_ino ino) 0 (st (env.mds_get_ino ino)).target
      [Event.monitor ino false false, Event.mds_get_ino ino,
       Event.caps_acquire (st (env.mds_get_ino ino)).pid R_OK]

/-! ## `EosFuse::setlk` -/

/-- The polling loop of `EosFuse::setlk`, from call number `k` of `mds.setlk` on with
the wait `w_ms`: a failed call of a blocking request is followed by a sleep of `w_ms`
milliseconds, after which `w_ms` is doubled and capped at 1000; any other call ends
the loop and its result is replied.  `none` when the fuel does not suffice. -/
def setlkLoop (env : Env) (st : Store) (fi : FileInfo) (md : Handle) (sleep : Int) :
    Nat → Nat → Nat → List Event → Option Result
  | 0, _, _, _ => none
  | fuel + 1, k, w_ms, tr =>
    if env.mds_setlk_sleep k ≠ 0 ∧ sleep ≠ 0 then
      setlkLoop env st fi md sleep fuel (k + 1) (if w_ms * 2 > 1000 then 1000 else w_ms * 2)
        (tr ++ [Event.mds_setlk_sleep md sleep, Event.sleep_for w_ms])
    else
      some { reply := Reply.err (env.mds_setlk_sleep k),
             trace := tr ++ [Event.mds_setlk_sleep md sleep],
             store := st, fi := some fi }

/-- The handler `EosFuse::setlk(req, ino, fi, lock, sleep)`, with the number of loop
iterations it may take. -/
def setlk (env : Env) (st : Store) (ino : Nat) (fi : FileInfo) (sleep : Int) (fuel : Nat) :
    Option Result :=
  if env.options.global_locking = false then
    some { reply := Reply.err EOPNOTSUPP, trace := [Event.monitor ino true false],
           store := st, fi := some fi }
  else
    match fi.fh with
    | none =>
      some { reply := Reply.err ENXIO, trace := [Event.monitor ino true false],
             store := st, fi := some fi }
    | some io => setlkLoop env st fi io.md sleep fuel 0 10 [Event.monitor ino true false]

/-- The waits in a trace, in milliseconds. -/
def sleeps : List Event → List Nat
  | [] => []
  | Event.sleep_for ms :: rest => ms :: sleeps rest
  | _ :: rest => sleeps rest

/-- The calls of `mds.setlk` a trace makes for `setlk`. -/
def setlkCalls (tr : List Event) : List Event :=
  tr.filter (fun e =>
    match e with
    | Event.mds_setlk_sleep _ _ => true
    | _ => false)

/-! ## Quota calls of `unlink` -/

/-- The calls of `caps.free_inode` in a trace. -/
def freeInodeCalls (tr : List Event) : List Event :=
  tr.filter (fun e =>
    match e with
    | Event.caps_free_inode _ => true
    | _ => false)

/-- The record whose `sys.eos.nlink` attribute `unlink` reads: the target found through
`sys.eos.mdino` for a hard link, else the entry itself; `none` when `std::stoll`
throws. -/
def unlinkCounted (env : Env) (st : Store) (pcap : Cap) (md : Handle) : Option Handle :=
  if attrCount (st md).attr k_mdino ≠ 0 then
    match stoll (attrGet (st md).attr k_mdino) with
    | none => none
    | some v => some (env.mds_get (env.vmaps_forward (toU64 v)) pcap.authid)
  else some md

/-- The value of the variable `int nlink` of `unlink` for the record `t`:
`nlink = 0; if (attrMap.count(k_nlink)) nlink = std::stol(attrMap[k_nlink]);`, `none`
when `std::stol` throws. -/
def nlinkRead (st : Store) (t : Handle) : Option Int :=
  if attrCount (st t).attr k_nlink ≠ 0 then
    match stol (attrGet (st t).attr k_nlink) with
    | none => none
    | some v => some (toI32 v)
  else some 0

/-! ## `EosFuse::link` -/

/-- A write through the pointer `h`: `md->set_…(…)`. -/
def Store.modify (st : Store) (h : Handle) (f : Md → Md) : Store := st.set h (f (st h))

def EXDEV : Int := 18

/-- The value of `size_t nlink` in `link`: `nlink = 1; if (attrMap.count(k_nlink))
nlink += std::stol(attrMap[k_nlink]);`, `none` when `std::stol` throws. -/
def linkNlink (m : Md) : Option Nat :=
  if attrCount m.attr k_nlink ≠ 0 then
    match stol (attrGet m.attr k_nlink) with
    | none => none
    | some v => some (toU64 (1 + v))
  else some 1

/-- The writes of `EosFuse::link` on the new entry `md` and on the link target `tmd`,
in program order, up to `md->set_target("")`; `nlink` is the value of `linkNlink`.  On
the path that reaches them `md` and `tmd` are different records. -/
def linkWrites (env : Env) (st : Store) (newname : String) (pcap : Cap) (md tmd : Handle)
    (nlink : Nat) : Store :=
  ((((((st.modify md (fun m => { m with
      mode := (st tmd).mode
      err := 0
      name := newname
      target := "////hlnk" ++ to_string (toI64 (st tmd).md_ino)
      atime := (st tmd).atime, atime_ns := (st tmd).atime_ns
      mtime := (st tmd).mtime, mtime_ns := (st tmd).mtime_ns
      ctime := (st tmd).ctime, ctime_ns := (st tmd).ctime_ns
      btime := (st tmd).btime, btime_ns := (st tmd).btime_ns
      uid := (st tmd).uid, gid := (st tmd).gid
      size := (st tmd).size })).modify
    tmd (fun m => { m with attr := attrSet m.attr k_nlink (to_string (nlink : Int)) })).modify
    md (fun m => { m with
      attr := attrSet m.attr k_mdino (to_string ((st tmd).md_ino : Int)) })).modify
    tmd (fun m => { m with nlink := toU64 ((nlink : Int) + 1) })).modify
    md (fun m => { m with id := env.mds_insert md pcap.authid })).modify
    md (fun m => { m with target := "" }))

/-- The part of `EosFuse::link` that runs once the new name is free and the link
target `tmd` has been fetched.  The link count of the target is raised before the
synchronous add and is not lowered again when the add fails. -/
def linkTarget (env : Env) (st : Store) (parent : Nat) (newname : String) (pcap : Cap)
    (md pmd tmd : Handle) (tr : List Event) : Option Result :=
  if (st tmd).id = 0 ∨ (st tmd).deleted = true then
    some { reply := Reply.err ENOENT, trace := tr, store := st }
  else if (st tmd).pid ≠ parent then
    some { reply := Reply.err EXDEV, trace := tr, store := st }
  else
    match linkNlink (st tmd) with
    | none => none
    | some nlink =>
      some { reply :=
               if env.mds_add_sync pmd md pcap.authid ≠ 0 then
                 Reply.err (env.mds_add_sync pmd md pcap.authid)
               else Reply.entry (env.convert (linkWrites env st newname pcap md tmd nlink tmd)),
             trace := tr ++ [Event.mds_insert md pcap.authid,
               Event.mds_add_sync pmd md pcap.authid],
             store := linkWrites env st newname pcap md tmd nlink }

/-- The handler `EosFuse::link(req, ino, parent, newname)`; `none` when `std::stol`
throws. -/
def link (env : Env) (st : Store) (ino parent : Nat) (newname : String) : Option Result :=
  if (env.caps_acquire parent (S_IFDIR ||| W_OK)).errc ≠ 0 then
    some { reply := Reply.err (env.caps_acquire parent (S_IFDIR ||| W_OK)).errc,
           trace := [Event.monitor parent false false,
             Event.caps_acquire parent (S_IFDIR ||| W_OK)],
           store := st }
  else if (st (env.mds_lookup parent newname)).id ≠ 0 ∧
      (st (env.mds_lookup parent newname)).deleted = false then
    some { reply := Reply.err EEXIST,
           trace := [Event.monitor parent false false,
             Event.caps_acquire parent (S_IFDIR ||| W_OK), Event.mds_lookup parent newname,
             Event.mds_get parent (env.caps_acquire parent (S_IFDIR ||| W_OK)).authid],
           store := st }
  else
    linkTarget env st parent newname (env.caps_acquire parent (S_IFDIR ||| W_OK))
      (env.mds_lookup parent newname)
      (env.mds_get parent (env.caps_acquire parent (S_IFDIR ||| W_OK)).authid)
      (env.mds_get ino (env.caps_acquire parent (S_IFDIR ||| W_OK)).authid)
      ([Event.monitor parent false false,
        Event.caps_acquire parent (S_IFDIR ||| W_OK), Event.mds_lookup parent newname,
        Event.mds_get parent (env.caps_acquire parent (S_IFDIR ||| W_OK)).authid] ++
        (if (st (env.mds_lookup parent newname)).deleted then
          [Event.mds_wait_flush (env.mds_lookup parent newname)] else []) ++
        [Event.mds_get ino (env.caps_acquire parent (S_IFDIR ||| W_OK)).authid])

/-! ## `EosFuse::listxattr` -/

/-- The text `attrlist` that the loop of `listxattr` builds: every key followed by a
NUL, in the order of iteration over the attribute map. -/
def attrlist (m : AttrMap) : String :=
  m.foldl (fun acc kv => acc ++ kv.1 ++ String.singleton (Char.ofNat 0)) ""

/-- The sum that the same loop keeps in the variable `attrlistsize` declared inside the
block: `attrlistsize += it->first.length() + 1`. -/
def attrlistsizeInner (m : AttrMap) : Nat :=
  m.foldl (fun n kv => n + (kv.1.utf8ByteSize + 1)) 0

/-- The handler `EosFuse::listxattr(req, ino, size)`.  The size probe replies the
variable `attrlistsize` declared at the top of the handler, which stays 0: the loop
adds to a second variable of that name declared inside the block. -/
def listxattr (env : Env) (st : Store) (ino : Nat) (size : Nat) : Result :=
  let md := env.mds_get_ino ino
  let capino := if S_ISDIR (st md).mode then ino else (st md).pid
  let pcap := env.caps_acquire capino env.SA_OK
  let tr := [Event.monitor ino false false, Event.mds_get_ino ino,
    Event.caps_acquire capino env.SA_OK]
  let rc : Int :=
    if pcap.errc ≠ 0 then pcap.errc
    else if (st md).id = 0 ∨ (st md).deleted = true then
      (if (st md).deleted then ENOENT else (st md).err)
    else if size ≠ 0 ∧ (attrlist (st md).attr).utf8ByteSize > size then ERANGE
    else 0
  let list : String :=
    if pcap.errc ≠ 0 then ""
    else if (st md).id = 0 ∨ (st md).deleted = true then ""
    else attrlist (st md).attr
  { reply :=
      if rc ≠ 0 then Reply.err rc
      else if size = 0 then Reply.xattr 0
      else Reply.buf list,
    trace := tr, store := st }

/-! ## `EosFuse::readdir` -/

/-- The handle `opendir_t` behind `fi->fh` of an open directory. -/
structure OpenDir where
  md : Handle
  readdir_items : List String := []
  deriving DecidableEq

/-- What `readdir` leaves behind: the reply, the calls, and the set `readdir_items` of
the handle. -/
structure DirResult where
  reply : Reply
  trace : List Event
  readdir_items : List String

/-- The test `strncmp(bname.c_str(), "...eos.ino...", 13) == 0`. -/
def strncmp13 (bname : String) : Bool :=
  bname.toList.take 13 == "...eos.ino...".toList

/-- The end of `readdir`: `fuse_reply_buf(req, b, b_size)`. -/
def readdirReply (entries : List Dirent) (b_size : Nat) (items : List String)
    (tr : List Event) : DirResult :=
  { reply := Reply.dirbuf entries b_size, trace := tr, readdir_items := items }

/-- The loop "add regular children" of `readdir` over the entries of `pmd_children` not
yet visited.  `b_size ≤ size` holds when it is entered.  The result is `none` when
`std::stoll` throws. -/
def readdirChildren (env : Env) (st : Store) (size : Nat) :
    List (String × Nat) → Int → Int → Nat → List String → List Dirent → List Event →
      Option DirResult
  | [], _, _, b_size, items, entries, tr => some (readdirReply entries b_size items tr)
  | (bname, cino) :: rest, off, i_offset, b_size, items, entries, tr =>
    if off > i_offset then
      readdirChildren env st size rest off (i_offset + 1) b_size items entries tr
    else if items.contains bname then
      readdirChildren env st size rest off (i_offset + 1) b_size items entries tr
    else if strncmp13 bname then
      readdirChildren env st size rest off (i_offset + 1) b_size items entries
        (tr ++ [Event.mds_get_child cino])
    else if (st (env.mds_get cino "")).deleted then
      readdirChildren env st size rest off (i_offset + 1) b_size items entries
        (tr ++ [Event.mds_get_child cino])
    else if attrCount (st (env.mds_get cino "")).attr k_mdino ≠ 0 then
      match stoll (attrGet (st (env.mds_get cino "")).attr k_mdino) with
      | none => none
      | some v =>
        if env.direntry_size bname > size - b_size then
          some (readdirReply entries b_size items
            (tr ++ [Event.mds_get_child cino, Event.vmaps_forward (toU64 v),
              Event.mds_get_child (env.vmaps_forward (toU64 v))]))
        else
          readdirChildren env st size rest (off + 1) (i_offset + 1)
            (b_size + env.direntry_size bname) (items ++ [bname])
            (entries ++ [{ name := bname, st_ino := env.vmaps_forward (toU64 v),
                           st_mode := (st (env.mds_get (env.vmaps_forward (toU64 v)) "")).mode,
                           off := off + 1 }])
            (tr ++ [Event.mds_get_child cino, Event.vmaps_forward (toU64 v),
              Event.mds_get_child (env.vmaps_forward (toU64 v))])
    else if env.direntry_size bname > size - b_size then
      some (readdirReply entries b_size items (tr ++ [Event.mds_get_child cino]))
    else
      readdirChildren env st size rest (off + 1) (i_offset + 1)
        (b_size + env.direntry_size bname) (items ++ [bname])
        (entries ++ [{ name := bname, st_ino := cino,
                       st_mode := (st (env.mds_get cino "")).mode, off := off + 1 }])
        (tr ++ [Event.mds_get_child cino])

/-- The part of `readdir` after the listing has been refreshed: the entries "." and
".." at offset 0, then the children.  `fuse_add_direntry` writes an entry only when it
fits, but `b_size` is advanced for "." and ".." in every case; the result is `none`
where `b_size` then exceeds `size` and the reply would read past the buffer `b`. -/
def readdirList (env : Env) (st : Store) (size : Nat) (off : Int) (dir : OpenDir)
    (pmd : Handle) (tr : List Event) : Option DirResult :=
  if off = 0 then
    if env.direntry_size "." > size then none
    else if (st pmd).id > 1 ∧ (st (env.mds_get (st pmd).pid "")).id = (st pmd).pid then
      if env.direntry_size "." + env.direntry_size ".." > size then none
      else
        readdirChildren env st size (st pmd).local_children_map 2 2
          (env.direntry_size "." + env.direntry_size "..") dir.readdir_items
          [{ name := ".", st_ino := (st pmd).id, st_mode := (st pmd).mode, off := 1 },
           { name := "..", st_ino := (st (env.mds_get (st pmd).pid "")).id,
             st_mode := (st (env.mds_get (st pmd).pid "")).mode, off := 2 }]
          (tr ++ [Event.mds_get_parent (st pmd).pid])
    else
      readdirChildren env st size (st pmd).local_children_map 1 2
        (env.direntry_size ".") dir.readdir_items
        [{ name := ".", st_ino := (st pmd).id, st_mode := (st pmd).mode, off := 1 }]
        (tr ++ [Event.mds_get_parent (st pmd).pid])
  else
    readdirChildren env st size (st pmd).local_children_map off 2 0 dir.readdir_items [] tr

/-- The loop of `readdir` that refreshes the listing: `do { if (pmd->type() ==
pmd->MDLS) break; rc = listdir(req, ino, pmd); } while ((!rc) && (pmd->type() !=
pmd->MDLS))`, followed by the rest of the handler.  `listdir` asks for the capability
and, when that carries no error, replaces `pmd` by `mds.get(req, ino, authid, true)`. -/
def readdirRefresh (env : Env) (st : Store) (ino : Nat) (size : Nat) (off : Int)
    (dir : OpenDir) : Nat → Handle → List Event → Option DirResult
  | 0, _, _ => none
  | fuel + 1, pmd, tr =>
    if (st pmd).type = MdType.MDLS then readdirList env st size off dir pmd tr
    else if (env.caps_acquire ino (S_IFDIR ||| X_OK ||| R_OK)).errc ≠ 0 then
      readdirList env st size off dir pmd
        (tr ++ [Event.caps_acquire ino (S_IFDIR ||| X_OK ||| R_OK)])
    else
      readdirRefresh env st ino size off dir fuel
        (env.mds_get ino (env.caps_acquire ino (S_IFDIR ||| X_OK ||| R_OK)).authid)
        (tr ++ [Event.caps_acquire ino (S_IFDIR ||| X_OK ||| R_OK),
          Event.mds_get_listing ino (env.caps_acquire ino (S_IFDIR ||| X_OK ||| R_OK)).authid])

/-- The handler `EosFuse::readdir(req, ino, size, off, fi)`; `fh` is `fi->fh` and `fuel`
bounds the number of refreshes of the listing. -/
def readdir (env : Env) (st : Store) (ino : Nat) (size : Nat) (off : Int)
    (fh : Option OpenDir) (fuel : Nat) : Option DirResult :=
  match fh with
  | none => some { reply := Reply.err EBADF, trace := [], readdir_items := [] }
  | some dir => readdirRefresh env st ino size off dir fuel dir.md []

/-- The entries of a reply of `readdir`. -/
def dirents (r : DirResult) : List Dirent :=
  match r.reply with
  | Reply.dirbuf entries _ => entries
  | _ => []

/-- An entry `e` as `readdir` may emit it, `all` being the children of the directory:
its name does not start with the prefix of the shadow names, and it is "." or ".." or
a child whose record is not marked deleted. -/
def listed (env : Env) (st : Store) (all : List (String × Nat)) (e : Dirent) : Prop :=
  strncmp13 e.name = false ∧
    (e.name = "." ∨ e.name = ".." ∨
      ∃ cino, (e.name, cino) ∈ all ∧ (st (env.mds_get cino "")).deleted = false)

end EosFuse

/-! # `common/StringTokenizer.cc` -/

namespace StringTokenizer

/-- The method `std::string::find_first_not_of(set)`: the position of the first character
that is not in `set`, `none` for `std::string::npos`. -/
def find_first_not_of (str set : String) : Option Nat :=
  str.toList.findIdx? (fun c => !set.toList.contains c)

/-- The function `StringTokenizer::IsUnsignedNumber(str)`:
`!str.empty() && str.find_first_not_of("0123456789") == std::string::npos &&
(str.front() != '0' || str.size() == 1)`. -/
def IsUnsignedNumber (str : String) : Bool :=
  !(str.utf8ByteSize == 0) &&
    (find_first_not_of str "0123456789" == none) &&
    (str.toList.head? != some '0' || str.utf8ByteSize == 1)

end StringTokenizer

/-! # `common/Mapping.cc` -/

namespace Mapping

/-- The function `strtoul(s, 0, 10)`; `unsigned long` is 64 bit wide, as
`unsigned long long` is. -/
def strtoul (s : String) : Nat := EosFuse.strtoull s

/-- The function `Mapping::IsUid(idstring, id)`: the returned flag and the value left
in `id`, a `uid_t` of 32 bits.
`id = strtoul(idstring.c_str(), 0, 10); sprintf(revid, "%lu", (unsigned long) id);
return idstring == revid`. -/
def IsUid (idstring : String) : Bool × Nat :=
  (idstring == toString (strtoul idstring % 2 ^ 32), strtoul idstring % 2 ^ 32)

/-- The function `Mapping::IsGid(idstring, id)`, the same text as `IsUid` with `gid_t`
for `uid_t`. -/
def IsGid (idstring : String) : Bool × Nat :=
  (idstring == toString (strtoul idstring % 2 ^ 32), strtoul idstring % 2 ^ 32)

end Mapping

namespace Mapping

/-- Modelled from the spec: the class `XrdOucString` of XRootD (not under `src/`), as far
as `VidToString` and `VidFromString` use it.  `str` is the pointer that `c_str()`
returns: NULL (`none`) as long as nothing has been assigned to the text, else the C
string held. -/
structure XrdOucString where
  str : Option String := none
  deriving DecidableEq

/-- Modelled from the spec: the assignment `x = s` of a C string to an `XrdOucString`,
after which `c_str()` points to a copy of `s`. -/
def XrdOucString.assign (s : String) : XrdOucString := { str := some s }

/-- The members of `Mapping::VirtualIdentity` used below; `uid` and `gid` are a `uid_t`
and a `gid_t` of 32 bits.  `tident`, `name` and `prot` are of class `XrdOucString`
(`vid.tident` is handed to `ReduceTident(XrdOucString&, ...)`), the other texts are
`std::string`s.  The defaults are those of a freshly constructed identity. -/
structure VirtualIdentity where
  uid : Nat := 99
  gid : Nat := 99
  uid_string : String := ""
  gid_string : String := ""
  uid_list : List Nat := []
  gid_list : List Nat := []
  tident : XrdOucString := {}
  name : XrdOucString := {}
  prot : XrdOucString := {}
  geolocation : String := ""
  sudoer : Bool := false
  deriving DecidableEq

/-- The function `Mapping::HasUid(uid, vector)`: a linear search. -/
def HasUid (uid : Nat) : List Nat → Bool
  | [] => false
  | x :: rest => if x = uid then true else HasUid uid rest

/-- The function `Mapping::HasGid(gid, vector)`. -/
def HasGid (gid : Nat) : List Nat → Bool
  | [] => false
  | x :: rest => if x = gid then true else HasGid gid rest

/-- The global maps `IdMap` reads when it selects the roles, and the two name lookups
it calls: `UserNameToUid(name, errc)` and `GroupNameToGid(name, errc)` give the id and
the value left in `errc`. -/
structure Maps where
  gVirtualUidMap : List (String × Nat) := []
  gVirtualGidMap : List (String × Nat) := []
  gSudoerMap : List (Nat × Int) := []
  UserNameToUid : String → Nat × Int := fun _ => (99, 22)
  GroupNameToGid : String → Nat × Int := fun _ => (99, 22)

/-- The alias conversion of `IdMap` for a requested role that is no number:
`sel = map.count(r) ? map[r] : 99; if (sel == 99) sel = NameToId(r, errc);
if (errc) sel = 99;`. -/
def aliasId (map : List (String × Nat)) (nameToId : String → Nat × Int) (r : String) : Nat :=
  if (map.lookup r).getD 99 = 99 then
    (if (nameToId r).2 ≠ 0 then 99 else (nameToId r).1)
  else (map.lookup r).getD 99

/-- The variable `sel_uid` of `IdMap` after the block "Environment selected roles":
the mapped uid when `eos.ruid` is empty, the number `eos.ruid` denotes when `IsUid`
accepts it, else the result of the alias conversion. -/
def sel_uid (m : Maps) (ruid : String) (vid : VirtualIdentity) : Nat :=
  if ruid.utf8ByteSize ≠ 0 then
    (if (IsUid ruid).1 then (IsUid ruid).2 else aliasId m.gVirtualUidMap m.UserNameToUid ruid)
  else vid.uid

/-- The variable `sel_gid` of `IdMap`, likewise. -/
def sel_gid (m : Maps) (rgid : String) (vid : VirtualIdentity) : Nat :=
  if rgid.utf8ByteSize ≠ 0 then
    (if (IsGid rgid).1 then (IsGid rgid).2 else aliasId m.gVirtualGidMap m.GroupNameToGid rgid)
  else vid.gid

/-- The part of `Mapping::IdMap` from "Environment selected roles" to the end of "Check
if we are allowed to take sel_uid & sel_gid", applied to the identity as the mapping
steps before it have left it; `ruid` and `rgid` are `eos.ruid` and `eos.rgid` of the
environment. -/
def IdMapRoles (m : Maps) (ruid rgid : String) (vid : VirtualIdentity) : VirtualIdentity :=
  if (vid.sudoer || (m.gSudoerMap.lookup vid.uid).isSome) = false then
    { vid with
      uid := if HasUid (sel_uid m ruid vid) vid.uid_list then sel_uid m ruid vid else 99
      gid := if HasGid (sel_gid m rgid vid) vid.gid_list then sel_gid m rgid vid else 99 }
  else
    { vid with
      sudoer := true
      uid := sel_uid m ruid vid
      gid := sel_gid m rgid vid
      gid_list :=
        if (ruid.utf8ByteSize ≠ 0 ∨ rgid.utf8ByteSize ≠ 0) ∧
            HasGid (sel_gid m rgid vid) vid.gid_list = false then
          vid.gid_list ++ [sel_gid m rgid vid]
        else vid.gid_list
      uid_list :=
        if (ruid.utf8ByteSize ≠ 0 ∨ rgid.utf8ByteSize ≠ 0) ∧
            HasUid (sel_uid m ruid vid) vid.uid_list = false then
          vid.uid_list ++ [sel_uid m ruid vid]
        else vid.uid_list }

/-- The test `sipstring.compare(0, key.length(), key) == 0`: `key` is a prefix of
`sipstring`. -/
def compare0 (sipstring key : String) : Bool := key.toList.isPrefixOf sipstring.toList

/-- The loop of `IdMap` over `gGeoMap`: `longuestmatch` is the key matched last
(`none` for `gGeoMap.end()`), `geolocation` the value of `vid.geolocation`. -/
def geoLoop (sipstring : String) :
    List (String × String) → Option String → String → String
  | [], _, geolocation => geolocation
  | (key, value) :: rest, longuestmatch, geolocation =>
    if (match longuestmatch with
        | some k => decide (key.utf8ByteSize ≤ k.utf8ByteSize)
        | none => false) then
      geoLoop sipstring rest longuestmatch geolocation
    else if compare0 sipstring key then geoLoop sipstring rest (some key) value
    else geoLoop sipstring rest longuestmatch geolocation

/-- The block "Check the Geo Location" of `Mapping::IdMap`: the value of
`vid.geolocation` after it.  `gGeoMap` is listed in the order of iteration and
`ipstring` is what `gIpCache.GetIp(host)` returns. -/
def IdMapGeo (gGeoMap : List (String × String)) (ipstring : String) (geolocation : String) :
    String :=
  if geolocation.utf8ByteSize = 0 ∧ gGeoMap.length ≠ 0 then
    (if ipstring.utf8ByteSize ≠ 0 then
      geoLoop ipstring gGeoMap none
        (if (gGeoMap.lookup "default").isSome then (gGeoMap.lookup "default").getD ""
         else geolocation)
    else
      (if (gGeoMap.lookup "default").isSome then (gGeoMap.lookup "default").getD ""
       else geolocation))
  else geolocation

/-- What the loop over `gGeoMap` has established when it has gone through the entries
`pre`: without a match so far no key of `pre` is a prefix of the address; with the
match `k`, the key `k` is a prefix, the location is its value, and no key of `pre` that
is a prefix is longer. -/
def geoInv (ip : String) (pre : List (String × String)) (best : Option String)
    (g : String) : Prop :=
  match best with
  | none => ∀ kv ∈ pre, compare0 ip kv.1 = false
  | some k => compare0 ip k = true ∧ pre.lookup k = some g ∧
      ∀ kv ∈ pre, compare0 ip kv.1 = true → kv.1.utf8ByteSize ≤ k.utf8ByteSize

end Mapping

namespace Mapping

/-- What a C function sees of `s.c_str()`: the characters before the first NUL. -/
def c_str (s : String) : String :=
  String.mk (s.toList.takeWhile (fun c => c != Char.ofNat 0))

/-- The longest run of whole characters at the head of a text that fits `n` bytes. -/
def takeBytes : Nat → List Char → List Char
  | _, [] => []
  | n, c :: cs => if c.utf8Size ≤ n then c :: takeBytes (n - c.utf8Size) cs else []

/-- What `snprintf(vids, sizeof(vids), ...)` leaves in the buffer of 4096 bytes: the
formatted text when it is shorter than 4096 bytes, else its first 4095 bytes (a
character that the limit would cut in the middle is left out whole). -/
def snprintf4096 (formatted : String) : String :=
  if formatted.utf8ByteSize < 4096 then formatted
  else String.mk (takeBytes 4095 formatted.toList)

/-- What `snprintf` writes for a conversion `%s` whose argument is `x.c_str()` of an
`XrdOucString`: the C string held, and for the NULL pointer of a text never assigned,
where the C standard leaves the behaviour undefined, the "(null)" of the GNU C
library. -/
def percent_s (x : XrdOucString) : String :=
  match x.str with
  | none => "(null)"
  | some s => c_str s

/-- The text that the format `"%u:%u:%s:%s:%s:%s:%s"` of `VidToString` produces.  -/
def formatVid (vid : VirtualIdentity) : String :=
  toString (vid.uid % 2 ^ 32) ++ ":" ++ toString (vid.gid % 2 ^ 32) ++ ":" ++
    c_str vid.uid_string ++ ":" ++ c_str vid.gid_string ++ ":" ++ percent_s vid.name ++
    ":" ++ percent_s vid.prot ++ ":" ++ percent_s vid.tident

/-- The function `Mapping::VidToString(vid)`. -/
def VidToString (vid : VirtualIdentity) : String := snprintf4096 (formatVid vid)

/-- The function `Mapping::VidFromString(vid, vidstring)`: the returned flag and the
identity afterwards.  `EmptyTokenize str delimiters` stands for the tokens that
`StringConversion::EmptyTokenize(str, tokens, delimiters)` appends to the empty vector
`tokens`. -/
def VidFromString (EmptyTokenize : String → String → List String) (vid : VirtualIdentity)
    (vidstring : String) : Bool × VirtualIdentity :=
  match EmptyTokenize vidstring ":" with
  | [t0, t1, t2, t3, t4, t5, t6] =>
    (true, { vid with
      uid := strtoul (c_str t0) % 2 ^ 32
      gid := strtoul (c_str t1) % 2 ^ 32
      uid_string := c_str t2
      gid_string := c_str t3
      name := XrdOucString.assign (c_str t4)
      prot := XrdOucString.assign (c_str t5)
      tident := XrdOucString.assign (c_str t6) })
  | _ => (false, vid)

/-- The function `Mapping::Nobody(vid)`. -/
def Nobody (vid : VirtualIdentity) : VirtualIdentity :=
  { vid with
    uid := 99
    gid := 99
    uid_list := [99]
    gid_list := [99]
    name := XrdOucString.assign "nobody"
    sudoer := false
    tident := XrdOucString.assign "nobody@unknown" }

/-- Modelled from the spec: `StringConversion::EmptyTokenize` (its source file is not
under `src/`).  The tokens are the pieces that the delimiter separates, empty pieces
included: the text is cut at every character of `delimiters`, and a text without such a
character is one token. -/
def EmptyTokenize (str delimiters : String) : List String :=
  (str.toList.splitOnP (fun c => delimiters.toList.contains c)).map String.mk

end Mapping

/-! # `mgm/TableFormatter/TableCell.cc` -/

/-- The alternatives of `TypeContainingValue`. -/
inductive TypeContainingValue where
  | UINT
  | INT
  | DOUBLE
  | STRING
  deriving DecidableEq

/-- The members of a `TableCell` read by `Str()` and `Length()`. -/
structure TableCell where
  mFormat : String := ""
  mUnit : String := ""
  mSelectedValue : TypeContainingValue := TypeContainingValue.DOUBLE
  m_ullValue : Nat := 0
  m_llValue : Int := 0
  mDoubleValue : EosFuse.Double := {}
  mStrValue : String := ""
  deriving DecidableEq

namespace TableCell

/-- The test `s.find(pat) != std::string::npos`. -/
def find (s pat : String) : Bool :=
  s.toList.tails.any (fun t => pat.toList.isPrefixOf t)

/-- The loop `while (temp != 0) { ++ret; temp /= 10; }` on an
`unsigned long long int`. -/
def lengthLoopU (temp ret : Nat) : Nat :=
  if h : temp = 0 then ret else lengthLoopU (temp / 10) (ret + 1)
termination_by temp
decreasing_by omega

/-- The loop `while (temp != 0) { ++ret; temp /= 10; }` on a `long long int`; the
division truncates towards zero. -/
def lengthLoopI (temp : Int) (ret : Nat) : Nat :=
  if h : temp = 0 then ret else lengthLoopI (temp.tdiv 10) (ret + 1)
termination_by temp.natAbs
decreasing_by
  rw [Int.natAbs_tdiv]
  have : 0 < temp.natAbs := Int.natAbs_pos.2 h
  exact Nat.div_lt_self this (by decide)

/-- The method `TableCell::Str()`.  `fixed2` is the text that
`ostream << std::setprecision(2) << std::fixed` writes for a `double`. -/
def Str (fixed2 : EosFuse.Double → String) (c : TableCell) : String :=
  match c.mSelectedValue with
  | TypeContainingValue.UINT => toString c.m_ullValue
  | TypeContainingValue.INT => toString c.m_llValue
  | TypeContainingValue.DOUBLE => fixed2 c.mDoubleValue
  | TypeContainingValue.STRING => c.mStrValue

/-- The value length computed by the first part of `TableCell::Length()`. -/
def valueLength (fixed2 : EosFuse.Double → String) (c : TableCell) : Nat :=
  match c.mSelectedValue with
  | TypeContainingValue.UINT =>
    lengthLoopU c.m_ullValue (if c.m_ullValue = 0 then 1 else 0)
  | TypeContainingValue.INT =>
    lengthLoopI c.m_llValue (if c.m_llValue ≤ 0 then 1 else 0)
  | TypeContainingValue.DOUBLE => (fixed2 c.mDoubleValue).utf8ByteSize
  | TypeContainingValue.STRING => c.mStrValue.utf8ByteSize

/-- The method `TableCell::Length()`. -/
def Length (fixed2 : EosFuse.Double → String) (c : TableCell) : Nat :=
  valueLength fixed2 c +
    (if find c.mFormat "±" then 2 else 0) +
    (if find c.mFormat "." then 1 else 0) +
    (if c.mUnit.utf8ByteSize ≠ 0 then c.mUnit.utf8ByteSize + 1 else 0)

end TableCell

/-! # Theorems -/

namespace EosFuse

/-! ## Arithmetic of the conversions -/

/-- A non-negative integer below `2^64` is unchanged by the conversion to `uint64_t`. -/
theorem toU64_of_fits (x : Int) (h0 : 0 ≤ x) (h1 : x < 2 ^ 64) : (toU64 x : Int) = x := by
  unfold toU64
  rw [Int.emod_eq_of_lt h0 h1]
  exact Int.toNat_of_nonneg h0

/-- The conversion to `uint64_t` never enlarges a non-negative integer. -/
theorem toU64_le_self (x : Int) (h0 : 0 ≤ x) : (toU64 x : Int) ≤ x := by
  unfold toU64
  have h1 : 0 ≤ x % 2 ^ 64 := Int.emod_nonneg x (by norm_num)
  rw [Int.toNat_of_nonneg h1]
  omega

/-- A bitwise or with a non-zero natural number is non-zero. -/
theorem nat_lor_ne_zero (m n : Nat) (h : m ≠ 0) : m ||| n ≠ 0 := by
  intro h0
  apply h
  apply Nat.eq_of_testBit_eq
  intro i
  have hbit := congrArg (fun x => Nat.testBit x i) h0
  simp only [Nat.testBit_or, Nat.zero_testBit, Bool.or_eq_false_iff] at hbit
  simp [hbit.1]

/-- The statement `rc |= x` keeps a non-zero `rc` non-zero. -/
theorem int_lor_ne_zero (a b : Int) (h : a ≠ 0) : Int.lor a b ≠ 0 := by
  cases a with
  | ofNat m =>
    cases b with
    | ofNat n =>
      have hm : m ≠ 0 := by rintro rfl; exact h rfl
      have hor := nat_lor_ne_zero m n hm
      simp only [Int.lor]
      exact_mod_cast hor
    | negSucc n => simp [Int.lor]
  | negSucc m =>
    cases b <;> simp [Int.lor]

/-! ## `write` -/

/-- C1 (counterexample): for `off = 1`, `size = 2^64 - 1` and a maximum file size of
100 the sum `off + size` exceeds the maximum as a mathematical integer, but `write`
does not reply `EFBIG`: the `size_t` sum wraps to 0, the size check passes and
`pwrite` is called. -/
theorem write_size_limit_wraps :
    (0 : Int) ≤ 1 ∧
    (1 : Int) + ((18446744073709551615 : Nat) : Int) > ((100 : Nat) : Int) ∧
    (write {} (fun _ => {}) 7 18446744073709551615 1
      { fh := some { md := 0, maxfilesize := 100 } }).reply ≠ Reply.err EFBIG ∧
    Event.ioctx_pwrite 18446744073709551615 1 ∈
      (write {} (fun _ => {}) 7 18446744073709551615 1
        { fh := some { md := 0, maxfilesize := 100 } }).trace := by
  decide

/-- C1 (amended): a write request on an open handle with non-negative offset whose
`off + size` exceeds the handle's maximum file size and fits 64 bits (so that the sum
the code computes is the mathematical one) is answered with `EFBIG`; `pwrite` is not
called, no record is written and the size of the handle's record is unchanged. -/
theorem write_size_limit (env : Env) (st : Store) (ino size : Nat) (off : Int)
    (fi : FileInfo) (io : DataFh) (hfh : fi.fh = some io) (hoff : 0 ≤ off)
    (hbig : off + (size : Int) > (io.maxfilesize : Int))
    (hfit : off + (size : Int) < 2 ^ 64) :
    (write env st ino size off fi).reply = Reply.err EFBIG ∧
    (∀ s o, Event.ioctx_pwrite s o ∉ (write env st ino size off fi).trace) ∧
    (write env st ino size off fi).store = st ∧
    ((write env st ino size off fi).store io.md).size = (st io.md).size := by
  have h := toU64_of_fits (off + (size : Int)) (by omega) hfit
  have hgt : toU64 (off + (size : Int)) > io.maxfilesize := by omega
  simp [write, hfh, hgt]

/-- C1 (witness): offset 10, size 100, maximum file size 50. -/
theorem write_size_limit_witness :
    (0 : Int) ≤ 10 ∧ (10 : Int) + ((100 : Nat) : Int) > ((50 : Nat) : Int) ∧
    (write {} (fun _ => {}) 7 100 10 { fh := some { md := 0, maxfilesize := 50 } }).reply =
      Reply.err EFBIG :=
  ⟨by decide, by decide,
    (write_size_limit {} (fun _ => {}) 7 100 10 { fh := some { md := 0, maxfilesize := 50 } }
      { md := 0, maxfilesize := 50 } rfl (by decide) (by decide) (by decide)).1⟩

/-- C2 (counterexample): for `off = -20`, `size = 10` and a maximum file size of 50 the
sum `off + size = -10` does not exceed the maximum, but `write` replies neither `EDQUOT`
(without quota) nor the number of bytes (with quota and a successful `pwrite`): the
`size_t` sum is `2^64 - 10`, and the reply is `EFBIG` before the quota is looked at. -/
theorem write_quota_negative_offset :
    (-20 : Int) + ((10 : Nat) : Int) ≤ ((50 : Nat) : Int) ∧
    (write { caps_has_quota := fun _ _ => false } (fun _ => {}) 7 10 (-20)
      { fh := some { md := 0, maxfilesize := 50 } }).reply = Reply.err EFBIG ∧
    (write { ioctx_size := fun _ => 10 } (fun _ => {}) 7 10 (-20)
      { fh := some { md := 0, maxfilesize := 50 } }).reply = Reply.err EFBIG ∧
    (write { ioctx_size := fun _ => 10 } (fun _ => {}) 7 10 (-20)
      { fh := some { md := 0, maxfilesize := 50 } }).trace = [Event.monitor 7 true false] :=
  ⟨by decide, by decide, by decide, by decide⟩

/-- C2 (amended): a write request whose `off + size` is not negative and does not
exceed the handle's maximum file size is answered with `EDQUOT` when
`has_quota(cap, size)` fails, without a call of `pwrite` and without a change of the
record; when `has_quota` holds and `pwrite` does not return -1 the record's size
becomes the size of the data context, the handle's update flag is set and the reply
is the number of bytes requested. -/
theorem write_quota (env : Env) (st : Store) (ino size : Nat) (off : Int) (fi : FileInfo)
    (io : DataFh) (hfh : fi.fh = some io) (hsum : 0 ≤ off + (size : Int))
    (hfit : off + (size : Int) ≤ (io.maxfilesize : Int)) :
    (env.caps_has_quota io.cap size = false →
      (write env st ino size off fi).reply = Reply.err EDQUOT ∧
      (∀ s o, Event.ioctx_pwrite s o ∉ (write env st ino size off fi).trace) ∧
      (write env st ino size off fi).store = st ∧
      ((write env st ino size off fi).store io.md).size = (st io.md).size) ∧
    (env.caps_has_quota io.cap size = true → env.ioctx_pwrite io size off ≠ -1 →
      ((write env st ino size off fi).store io.md).size = env.ioctx_size io ∧
      (write env st ino size off fi).fi =
        some { fi with fh := some { io with update := true } } ∧
      (write env st ino size off fi).reply = Reply.write size) := by
  have h := toU64_le_self (off + (size : Int)) (by omega)
  have hle : ¬ toU64 (off + (size : Int)) > io.maxfilesize := by omega
  constructor
  · intro hq
    simp [write, hfh, hle, hq]
  · intro hq hw
    simp [write, hfh, hle, hq, hw, Store.set]

/-- C2 (witness): a request of 10 bytes at offset 0 under a maximum file size of 50,
once without quota and once with quota and a successful `pwrite`. -/
theorem write_quota_witness :
    (write { caps_has_quota := fun _ _ => false } (fun _ => {}) 7 10 0
      { fh := some { md := 0, maxfilesize := 50 } }).reply = Reply.err EDQUOT ∧
    (write { ioctx_size := fun _ => 10 } (fun _ => {}) 7 10 0
      { fh := some { md := 0, maxfilesize := 50 } }).reply = Reply.write 10 :=
  ⟨((write_quota { caps_has_quota := fun _ _ => false } (fun _ => {}) 7 10 0
      { fh := some { md := 0, maxfilesize := 50 } } { md := 0, maxfilesize := 50 }
      rfl (by decide) (by decide)).1 rfl).1,
   ((write_quota { ioctx_size := fun _ => 10 } (fun _ => {}) 7 10 0
      { fh := some { md := 0, maxfilesize := 50 } } { md := 0, maxfilesize := 50 }
      rfl (by decide) (by decide)).2 rfl (by decide)).2.2⟩

/-! ## `flush` -/

/-- C3: a flush on a handle with pending updates under a valid parent capability
whose data flush returns a non-zero code replies a non-zero error code, sets the
record's size back to `opensize`, never calls `mds.update` and invalidates the kernel
cache of the inode. -/
theorem flush_error (env : Env) (st : Store) (ino : Nat) (fi : FileInfo) (io : DataFh)
    (hfh : fi.fh = some io) (hupd : io.update = true)
    (hcap : (env.caps_acquire (st io.md).pid (S_IFDIR ||| W_OK)).errc = 0)
    (hflush : env.ioctx_flush io ≠ 0) :
    (∃ rc, (flush env st ino fi).reply = Reply.err rc ∧ rc ≠ 0) ∧
    ((flush env st ino fi).store io.md).size = io.opensize ∧
    (∀ h a, Event.mds_update h a ∉ (flush env st ino fi).trace) ∧
    Event.inval_inode ino ∈ (flush env st ino fi).trace := by
  have hshape : flush env st ino fi =
      flushUpdate env st ino fi io (env.caps_acquire (st io.md).pid (S_IFDIR ||| W_OK)) := by
    unfold flush
    rw [hfh]
    simp only [hupd, hcap, if_true, ne_eq, eq_self_iff_true, not_true_eq_false, if_false]
  rw [hshape]
  unfold flushUpdate flushReply
  simp only [if_pos hflush, decide_eq_true hflush, if_true]
  refine ⟨⟨_, rfl, int_lor_ne_zero _ _ ?_⟩, ?_, ?_, ?_⟩
  · split_ifs
    · decide
    · exact hflush
  · simp [Store.set]
  · intro h a
    simp
    split_ifs <;> simp
  · simp

/-- C3 (witness): a handle opened at size 3 whose record has grown to 9 and whose data
flush fails with code 5. -/
theorem flush_error_witness :
    ((flush { ioctx_flush := fun _ => 5 } (fun _ => { size := 9 }) 7
      { fh := some { md := 0, update := true, opensize := 3 } }).store 0).size = 3 ∧
    Event.inval_inode 7 ∈ (flush { ioctx_flush := fun _ => 5 } (fun _ => { size := 9 }) 7
      { fh := some { md := 0, update := true, opensize := 3 } }).trace :=
  ⟨(flush_error { ioctx_flush := fun _ => 5 } (fun _ => { size := 9 }) 7
      { fh := some { md := 0, update := true, opensize := 3 } }
      { md := 0, update := true, opensize := 3 } rfl rfl rfl (by decide)).2.1,
   (flush_error { ioctx_flush := fun _ => 5 } (fun _ => { size := 9 }) 7
      { fh := some { md := 0, update := true, opensize := 3 } }
      { md := 0, update := true, opensize := 3 } rfl rfl rfl (by decide)).2.2.2⟩

/-! ## `create`, `mkdir`, `symlink` -/

/-- C4: a create whose parent capability was acquired without error and for which
`has_quota(pcap, 1 MiB)` fails replies `EDQUOT`; the only calls are the monitor on the
parent, the acquisition of the capability and the quota check, so there is no metadata
lookup, insert, add or add_sync and no inode is booked, and no record is written. -/
theorem create_no_quota (env : Env) (st : Store) (parent : Nat) (name : String) (mode : Nat)
    (fi : Option FileInfo)
    (hcap : (env.caps_acquire parent (S_IFDIR ||| W_OK)).errc = 0)
    (hquota : env.caps_has_quota (env.caps_acquire parent (S_IFDIR ||| W_OK))
      (1024 * 1024) = false) :
    (create env st parent name mode fi).reply = Reply.err EDQUOT ∧
    (create env st parent name mode fi).trace =
      [Event.monitor parent true false, Event.caps_acquire parent (S_IFDIR ||| W_OK),
       Event.caps_has_quota (env.caps_acquire parent (S_IFDIR ||| W_OK)) (1024 * 1024)] ∧
    (∀ p n, Event.mds_lookup p n ∉ (create env st parent name mode fi).trace) ∧
    (∀ h a, Event.mds_insert h a ∉ (create env st parent name mode fi).trace) ∧
    (∀ p h a, Event.mds_add p h a ∉ (create env st parent name mode fi).trace) ∧
    (∀ p h a, Event.mds_add_sync p h a ∉ (create env st parent name mode fi).trace) ∧
    (∀ c, Event.caps_book_inode c ∉ (create env st parent name mode fi).trace) ∧
    (create env st parent name mode fi).store = st ∧
    (create env st parent name mode fi).fi = fi := by
  have hshape : create env st parent name mode fi =
      { reply := Reply.err EDQUOT,
        trace := [Event.monitor parent true false,
          Event.caps_acquire parent (S_IFDIR ||| W_OK)] ++
          [Event.caps_has_quota (env.caps_acquire parent (S_IFDIR ||| W_OK)) (1024 * 1024)],
        store := st, fi := fi } := by
    unfold create
    simp only [hcap, hquota, ne_eq, eq_self_iff_true, not_true_eq_false, if_false,
      Bool.not_false, if_true]
  rw [hshape]
  simp

/-- C4 (witness): a parent capability without quota. -/
theorem create_no_quota_witness :
    (create { caps_has_quota := fun _ _ => false } (fun _ => {}) 1 "f" 420 none).reply =
      Reply.err EDQUOT :=
  (create_no_quota { caps_has_quota := fun _ _ => false } (fun _ => {}) 1 "f" 420 none
    rfl rfl).1

/-- The only call `waitDeleted` can make is `mds.wait_deleted`. -/
theorem waitDeleted_mem (st : Store) (pmd : Handle) (name : String) (e : Event)
    (h : e ∈ waitDeleted st pmd name) :
    e = Event.mds_wait_deleted (todeleteIno (st pmd) name) := by
  unfold waitDeleted at h
  split_ifs at h
  · simpa using h
  · simp at h

/-- C5: in `create`, `mkdir` and `symlink`, when the handler gets as far as resolving
the name (the parent capability carries no error and, for `create`, there is quota)
and the name resolves to a live record (id non-zero, not deleted), the reply is
`EEXIST`, neither `insert` nor `add` nor `add_sync` is called, and no record is
written: the store, and with it every field of the existing record, is unchanged. -/
theorem exists_is_refused (env : Env) (st : Store) (parent : Nat) (name link : String)
    (mode : Nat) (fi : Option FileInfo)
    (hlive : (st (env.mds_lookup parent name)).id ≠ 0 ∧
      (st (env.mds_lookup parent name)).deleted = false) :
    ((env.caps_acquire parent (S_IFDIR ||| W_OK)).errc = 0 →
      env.caps_has_quota (env.caps_acquire parent (S_IFDIR ||| W_OK)) (1024 * 1024) = true →
      (create env st parent name mode fi).reply = Reply.err EEXIST ∧
      (∀ h a, Event.mds_insert h a ∉ (create env st parent name mode fi).trace) ∧
      (∀ p h a, Event.mds_add p h a ∉ (create env st parent name mode fi).trace) ∧
      (∀ p h a, Event.mds_add_sync p h a ∉ (create env st parent name mode fi).trace) ∧
      (create env st parent name mode fi).store = st) ∧
    ((env.caps_acquire parent (S_IFDIR ||| X_OK ||| W_OK)).errc = 0 →
      (mkdir env st parent name mode).reply = Reply.err EEXIST ∧
      (∀ h a, Event.mds_insert h a ∉ (mkdir env st parent name mode).trace) ∧
      (∀ p h a, Event.mds_add p h a ∉ (mkdir env st parent name mode).trace) ∧
      (∀ p h a, Event.mds_add_sync p h a ∉ (mkdir env st parent name mode).trace) ∧
      (mkdir env st parent name mode).store = st) ∧
    ((env.caps_acquire parent (S_IFDIR ||| W_OK)).errc = 0 →
      (symlink env st link parent name).reply = Reply.err EEXIST ∧
      (∀ h a, Event.mds_insert h a ∉ (symlink env st link parent name).trace) ∧
      (∀ p h a, Event.mds_add p h a ∉ (symlink env st link parent name).trace) ∧
      (∀ p h a, Event.mds_add_sync p h a ∉ (symlink env st link parent name).trace) ∧
      (symlink env st link parent name).store = st) := by
  refine ⟨?_, ?_, ?_⟩
  · intro hcap hquota
    have hshape : create env st parent name mode fi =
        { reply := Reply.err EEXIST,
          trace := [Event.monitor parent true false,
            Event.caps_acquire parent (S_IFDIR ||| W_OK)] ++
            [Event.caps_has_quota (env.caps_acquire parent (S_IFDIR ||| W_OK)) (1024 * 1024),
             Event.mds_lookup parent name,
             Event.mds_get parent (env.caps_acquire parent (S_IFDIR ||| W_OK)).authid] ++
            waitDeleted st
              (env.mds_get parent (env.caps_acquire parent (S_IFDIR ||| W_OK)).authid) name,
          store := st, fi := fi } := by
      unfold create
      simp only [hcap, hquota, ne_eq, eq_self_iff_true, not_true_eq_false, if_false,
        Bool.not_true, Bool.false_eq_true]
      rw [if_pos hlive]
    rw [hshape]
    refine ⟨rfl, ?_, ?_, ?_, rfl⟩
    · intro h a hmem
      simp only [List.mem_append, List.mem_cons, List.mem_singleton, List.not_mem_nil,
        or_false, reduceCtorEq, false_or] at hmem
      have := waitDeleted_mem _ _ _ _ hmem
      simp at this
    · intro p h a hmem
      simp only [List.mem_append, List.mem_cons, List.mem_singleton, List.not_mem_nil,
        or_false, reduceCtorEq, false_or] at hmem
      have := waitDeleted_mem _ _ _ _ hmem
      simp at this
    · intro p h a hmem
      simp only [List.mem_append, List.mem_cons, List.mem_singleton, List.not_mem_nil,
        or_false, reduceCtorEq, false_or] at hmem
      have := waitDeleted_mem _ _ _ _ hmem
      simp at this
  · intro hcap
    have hshape : mkdir env st parent name mode =
        { reply := Reply.err EEXIST,
          trace := [Event.monitor parent true false,
            Event.caps_acquire parent (S_IFDIR ||| X_OK ||| W_OK)] ++
            [Event.mds_lookup parent name,
             Event.mds_get parent
               (env.caps_acquire parent (S_IFDIR ||| X_OK ||| W_OK)).authid] ++
            waitDeleted st
              (env.mds_get parent
                (env.caps_acquire parent (S_IFDIR ||| X_OK ||| W_OK)).authid) name,
          store := st } := by
      unfold mkdir
      simp only [hcap, ne_eq, eq_self_iff_true, not_true_eq_false, if_false]
      rw [if_pos hlive]
    rw [hshape]
    refine ⟨rfl, ?_, ?_, ?_, rfl⟩
    · intro h a hmem
      simp only [List.mem_append, List.mem_cons, List.mem_singleton, List.not_mem_nil,
        or_false, reduceCtorEq, false_or] at hmem
      have := waitDeleted_mem _ _ _ _ hmem
      simp at this
    · intro p h a hmem
      simp only [List.mem_append, List.mem_cons, List.mem_singleton, List.not_mem_nil,
        or_false, reduceCtorEq, false_or] at hmem
      have := waitDeleted_mem _ _ _ _ hmem
      simp at this
    · intro p h a hmem
      simp only [List.mem_append, List.mem_cons, List.mem_singleton, List.not_mem_nil,
        or_false, reduceCtorEq, false_or] at hmem
      have := waitDeleted_mem _ _ _ _ hmem
      simp at this
  · intro hcap
    have hshape : symlink env st link parent name =
        { reply := Reply.err EEXIST,
          trace := [Event.monitor parent false false,
            Event.caps_acquire parent (S_IFDIR ||| W_OK)] ++
            [Event.mds_lookup parent name,
             Event.mds_get parent (env.caps_acquire parent (S_IFDIR ||| W_OK)).authid],
          store := st } := by
      unfold symlink
      simp only [hcap, ne_eq, eq_self_iff_true, not_true_eq_false, if_false]
      rw [if_pos hlive]
    rw [hshape]
    simp

/-- C5 (witness): the name resolves to the live record with id 5. -/
theorem exists_is_refused_witness :
    (create { mds_lookup := fun _ _ => 1 } (fun _ => { id := 5 }) 1 "x" 420 none).reply =
      Reply.err EEXIST ∧
    (mkdir { mds_lookup := fun _ _ => 1 } (fun _ => { id := 5 }) 1 "x" 493).reply =
      Reply.err EEXIST ∧
    (symlink { mds_lookup := fun _ _ => 1 } (fun _ => { id := 5 }) "t" 1 "x").reply =
      Reply.err EEXIST :=
  ⟨((exists_is_refused { mds_lookup := fun _ _ => 1 } (fun _ => { id := 5 }) 1 "x" "t" 420
      none ⟨by decide, rfl⟩).1 rfl rfl).1,
   ((exists_is_refused { mds_lookup := fun _ _ => 1 } (fun _ => { id := 5 }) 1 "x" "t" 493
      none ⟨by decide, rfl⟩).2.1 rfl).1,
   ((exists_is_refused { mds_lookup := fun _ _ => 1 } (fun _ => { id := 5 }) 1 "x" "t" 420
      none ⟨by decide, rfl⟩).2.2 rfl).1⟩

/-! ## `unlink` -/

/-- A key reads back the value just written. -/
theorem lookup_attrSet (m : AttrMap) (key value : String) :
    List.lookup key (attrSet m key value) = some value := by
  induction m with
  | nil => simp [attrSet, List.lookup]
  | cons kv rest ih =>
    obtain ⟨k, v⟩ := kv
    unfold attrSet
    by_cases hk : k = key
    · subst hk
      simp [List.lookup]
    · have hk2 : (key == k) = false := by
        simpa using fun h : key = k => hk h.symm
      simp [hk, List.lookup, hk2, ih]

/-- What `count` and `operator[]` give for a key that is present. -/
theorem attrCount_of_lookup (m : AttrMap) (key s : String)
    (h : List.lookup key m = some s) : attrCount m key = 1 ∧ attrGet m key = s := by
  simp [attrCount, attrGet, h]

/-- Link counting on a record that carries `sys.eos.nlink` with a positive value and
is no hard link: the record becomes its own target, the attribute is decremented and
the `nlink` field receives the value read. -/
theorem unlinkCount_target (st : Store) (md : Handle) (s : String) (v : Int)
    (hattr : List.lookup k_nlink (st md).attr = some s) (hs : stol s = some v)
    (hpos : 0 < toI32 v) :
    unlinkCount st md none = some (toI32 v, some md,
      (st.set md { st md with attr := attrSet (st md).attr k_nlink (to_string (toI32 v - 1)) }).set
        md { (st.set md { st md with
                attr := attrSet (st md).attr k_nlink (to_string (toI32 v - 1)) }) md with
             nlink := toI32 v }) := by
  obtain ⟨hc, hg⟩ := attrCount_of_lookup _ _ _ hattr
  have hne : toI32 v ≠ 0 := by omega
  unfold unlinkCount
  simp only [hc, hg, hs, ne_eq, one_ne_zero, not_false_eq_true, if_true, hne, hpos]

/-- The removal step on a record that is its own target renames it to the shadow
name. -/
theorem unlinkRemove_target (st : Store) (pcap : Cap) (md pmd : Handle) :
    unlinkRemove st pcap md pmd (some md) =
      [Event.mds_mv pmd pmd md (shadowName (st md).md_ino) pcap.authid pcap.authid] := by
  unfold unlinkRemove
  simp only [ne_eq, not_true_eq_false, if_false]

/-- The body of `unlink` on a hard-link target with positive remaining link count. -/
theorem unlinkBody_target (env : Env) (st : Store) (parent : Nat) (pcap : Cap) (md : Handle)
    (tr : List Event) (s : String) (v : Int)
    (hmdino : attrCount (st md).attr k_mdino = 0)
    (hattr : List.lookup k_nlink (st md).attr = some s) (hs : stol s = some v)
    (hpos : 0 < toI32 v) :
    ∃ r, unlinkBody env st parent pcap md tr = some r ∧
      r.reply = Reply.err 0 ∧
      r.trace = tr ++ [Event.mds_get parent pcap.authid, Event.datas_unlink (st md).id,
        Event.mds_mv (env.mds_get parent pcap.authid) (env.mds_get parent pcap.authid) md
          (shadowName (st md).md_ino) pcap.authid pcap.authid] ++
        (if env.options.rmdir_is_sync = true then [Event.mds_wait_deleted (st md).id] else []) ++
        [Event.caps_free_volume pcap 0, Event.caps_free_inode pcap] ∧
      r.store md = { st md with
        attr := attrSet (st md).attr k_nlink (to_string (toI32 v - 1)), nlink := toI32 v } ∧
      (∀ k, k ≠ md → r.store k = st k) := by
  have hnle : ¬ toI32 v ≤ 0 := by omega
  unfold unlinkBody
  simp only [hmdino, ne_eq, not_true_eq_false, if_false, unlinkCount_target st md s v hattr hs hpos,
    unlinkRemove_target, hnle, false_or, false_and, eq_self_iff_true, not_true]
  refine ⟨_, rfl, rfl, ?_, ?_, ?_⟩
  · simp [Store.set]
  · simp [Store.set]
  · intro k hk
    simp [Store.set, hk]

/-- A successful `unlink` has gone through `unlinkBody`: every earlier exit replies a
non-zero code. -/
theorem unlink_success (env : Env) (st : Store) (parent : Nat) (name : String) (r : Result)
    (hres : unlink env st parent name = some r) (hok : r.reply = Reply.err 0) :
    unlinkBody env st parent (env.caps_acquire parent (S_IFDIR ||| X_OK ||| env.D_OK))
      (env.mds_lookup parent name)
      ([Event.monitor parent true false,
        Event.caps_acquire parent (S_IFDIR ||| X_OK ||| env.D_OK)] ++
        [Event.mds_lookup parent name] ++
        (if env.isRecursiveRm = true ∧ env.options.rm_rf_protect_levels ≠ 0 then
          [Event.mds_calculateDepth (env.mds_lookup parent name)] else [])) = some r := by
  simp only [unlink] at hres
  split_ifs at hres with h1 h2 h3 h4 h5 h6 h7 h8
  all_goals first
    | exact absurd (show ENAMETOOLONG ≠ 0 by decide) ‹¬ENAMETOOLONG ≠ 0›
    | exact absurd (show EINVAL ≠ 0 by decide) ‹¬EINVAL ≠ 0›
    | exact absurd rfl ‹(0 : Int) ≠ 0›
    | (rw [if_pos ‹_›]; exact hres)
    | (rw [if_neg ‹_›]; exact hres)
    | (simp only [Option.some.injEq] at hres
       subst hres
       simp only [Reply.err.injEq] at hok
       first
         | exact absurd hok h1
         | exact absurd hok (by decide))

/-- C6 (counterexample): the record with id 5 and remote inode 255 carries
`sys.eos.nlink = 1` and no `sys.eos.mdino`.  Unlinking it succeeds, no `mds.remove` is
issued and its `nlink` becomes 1, but it is renamed: `mds.mv` is called with the shadow
name `...eos.ino...ff`. -/
theorem unlink_two_links_renames :
    Option.map (fun r => (r.reply, r.trace, (r.store 1).nlink, (r.store 1).attr))
      (unlink { mds_lookup := fun _ _ => 1 }
        (fun h => if h = 1 then
            { id := 5, md_ino := 255, mode := S_IFREG, size := 100,
              attr := [("sys.eos.nlink", "1")] }
          else { id := 1, mode := S_IFDIR })
        1 "f") =
      some (Reply.err 0,
        [Event.monitor 1 true false, Event.caps_acquire 1 (S_IFDIR ||| X_OK ||| 0),
         Event.mds_lookup 1 "f", Event.mds_get 1 "", Event.datas_unlink 5,
         Event.mds_mv 0 0 1 "...eos.ino...ff" "" "",
         Event.caps_free_volume {} 0, Event.caps_free_inode {}],
        1, [("sys.eos.nlink", "0")]) := by
  decide

/-- The calls of a successful `unlink` of a hard-link target with positive remaining
link count, and what it writes to the record. -/
theorem unlink_target (env : Env) (st : Store) (parent : Nat) (name : String) (r : Result)
    (s : String) (v : Int)
    (hres : unlink env st parent name = some r) (hok : r.reply = Reply.err 0)
    (hmdino : attrCount (st (env.mds_lookup parent name)).attr k_mdino = 0)
    (hattr : List.lookup k_nlink (st (env.mds_lookup parent name)).attr = some s)
    (hs : stol s = some v) (hpos : 0 < toI32 v) :
    mvCalls r.trace =
      [Event.mds_mv
        (env.mds_get parent (env.caps_acquire parent (S_IFDIR ||| X_OK ||| env.D_OK)).authid)
        (env.mds_get parent (env.caps_acquire parent (S_IFDIR ||| X_OK ||| env.D_OK)).authid)
        (env.mds_lookup parent name)
        (shadowName (st (env.mds_lookup parent name)).md_ino)
        (env.caps_acquire parent (S_IFDIR ||| X_OK ||| env.D_OK)).authid
        (env.caps_acquire parent (S_IFDIR ||| X_OK ||| env.D_OK)).authid] ∧
    (∀ p h a u, Event.mds_remove p h a u ∉ r.trace) ∧
    r.store (env.mds_lookup parent name) =
      { st (env.mds_lookup parent name) with
        attr := attrSet (st (env.mds_lookup parent name)).attr k_nlink
          (to_string (toI32 v - 1)),
        nlink := toI32 v } := by
  have hbody := unlink_success env st parent name r hres hok
  obtain ⟨r2, hr2, -, htr, hst, -⟩ :=
    unlinkBody_target env st parent (env.caps_acquire parent (S_IFDIR ||| X_OK ||| env.D_OK))
      (env.mds_lookup parent name)
      ([Event.monitor parent true false,
        Event.caps_acquire parent (S_IFDIR ||| X_OK ||| env.D_OK)] ++
        [Event.mds_lookup parent name] ++
        (if env.isRecursiveRm = true ∧ env.options.rm_rf_protect_levels ≠ 0 then
          [Event.mds_calculateDepth (env.mds_lookup parent name)] else []))
      s v hmdino hattr hs hpos
  rw [hbody] at hr2
  simp only [Option.some.injEq] at hr2
  subst hr2
  refine ⟨?_, ?_, hst⟩
  · rw [htr]
    unfold mvCalls
    split_ifs <;> simp [List.filter]
  · intro p h a u
    rw [htr]
    split_ifs <;> simp

/-- C6 (amended): when `unlink` succeeds on a record that is itself a hard-link target
with link count 2 (the code reads 1 from its `sys.eos.nlink` attribute, and it has no
`sys.eos.mdino` attribute), the record is not removed (`mds.remove` is never called),
its `nlink` becomes 1 and its `sys.eos.nlink` attribute 0, and it is renamed within
its parent to the shadow name: `mds.mv` is called exactly once, with `shadowName` of
the remote inode. -/
theorem unlink_two_links (env : Env) (st : Store) (parent : Nat) (name : String)
    (r : Result) (s : String) (v : Int)
    (hres : unlink env st parent name = some r) (hok : r.reply = Reply.err 0)
    (hmdino : attrCount (st (env.mds_lookup parent name)).attr k_mdino = 0)
    (hattr : List.lookup k_nlink (st (env.mds_lookup parent name)).attr = some s)
    (hs : stol s = some v) (hone : toI32 v = 1) :
    (∀ p h a u, Event.mds_remove p h a u ∉ r.trace) ∧
    (r.store (env.mds_lookup parent name)).nlink = 1 ∧
    List.lookup k_nlink (r.store (env.mds_lookup parent name)).attr = some "0" ∧
    mvCalls r.trace =
      [Event.mds_mv
        (env.mds_get parent (env.caps_acquire parent (S_IFDIR ||| X_OK ||| env.D_OK)).authid)
        (env.mds_get parent (env.caps_acquire parent (S_IFDIR ||| X_OK ||| env.D_OK)).authid)
        (env.mds_lookup parent name)
        (shadowName (st (env.mds_lookup parent name)).md_ino)
        (env.caps_acquire parent (S_IFDIR ||| X_OK ||| env.D_OK)).authid
        (env.caps_acquire parent (S_IFDIR ||| X_OK ||| env.D_OK)).authid] := by
  obtain ⟨hmv, hrm, hst⟩ :=
    unlink_target env st parent name r s v hres hok hmdino hattr hs (by omega)
  refine ⟨hrm, ?_, ?_, hmv⟩
  · rw [hst]
    exact hone
  · rw [hst, hone]
    exact lookup_attrSet _ _ _

/-- C6 (witness): the record of the counterexample; the theorem applies to its
unlink, which leaves `nlink = 1` and `sys.eos.nlink = 0`. -/
theorem unlink_two_links_witness :
    Option.map (fun r => ((r.store 1).nlink, List.lookup k_nlink (r.store 1).attr))
      (unlink { mds_lookup := fun _ _ => 1 }
        (fun h => if h = 1 then
            { id := 5, md_ino := 255, mode := S_IFREG, size := 100,
              attr := [("sys.eos.nlink", "1")] }
          else { id := 1, mode := S_IFDIR })
        1 "f") = some (1, some "0") := by
  have hsome : (unlink { mds_lookup := fun _ _ => 1 }
        (fun h => if h = 1 then
            { id := 5, md_ino := 255, mode := S_IFREG, size := 100,
              attr := [("sys.eos.nlink", "1")] }
          else { id := 1, mode := S_IFDIR })
        1 "f").isSome = true := by decide
  obtain ⟨r, hr⟩ := Option.isSome_iff_exists.mp hsome
  have hreply : Option.map (fun x => x.reply) (unlink { mds_lookup := fun _ _ => 1 }
        (fun h => if h = 1 then
            { id := 5, md_ino := 255, mode := S_IFREG, size := 100,
              attr := [("sys.eos.nlink", "1")] }
          else { id := 1, mode := S_IFDIR })
        1 "f") = some (Reply.err 0) := by decide
  rw [hr] at hreply
  have hok : r.reply = Reply.err 0 := by simpa using hreply
  have h := unlink_two_links { mds_lookup := fun _ _ => 1 }
    (fun h => if h = 1 then
        { id := 5, md_ino := 255, mode := S_IFREG, size := 100,
          attr := [("sys.eos.nlink", "1")] }
      else { id := 1, mode := S_IFDIR })
    1 "f" r "1" 1 hr hok (by decide) (by decide) (by decide) (by decide)
  rw [hr]
  exact congrArg some (Prod.ext h.2.1 h.2.2.1)

/-- C7 (counterexample): the record with id 5 carries `sys.eos.nlink = 4294967296`, a
positive number, and no `sys.eos.mdino`.  The code reads the attribute into an `int`,
which gives 0: the unlink succeeds, but the record is removed with `mds.remove`,
`mds.mv` is not called and the attribute is left as it was. -/
theorem unlink_target_shadow_narrows :
    stol "4294967296" = some 4294967296 ∧
    Option.map (fun r => (r.reply, removeCalls r.trace, mvCalls r.trace,
        List.lookup k_nlink (r.store 1).attr))
      (unlink { mds_lookup := fun _ _ => 1 }
        (fun h => if h = 1 then
            { id := 5, md_ino := 255, mode := S_IFREG, size := 100,
              attr := [("sys.eos.nlink", "4294967296")] }
          else { id := 1, mode := S_IFDIR })
        1 "f") =
      some (Reply.err 0, [Event.mds_remove 0 1 "" none], [], some "4294967296") :=
  ⟨by decide, by decide⟩

/-- C7 (amended): for every successful `unlink` of a record that is a hard-link target
with positive remaining link count below `2^31` (its `sys.eos.nlink` attribute denotes
`n` with `0 < n < 2^31`, and it has no `sys.eos.mdino` attribute): `mds.remove` is never
called; `mds.mv` is called exactly once and renames the record within the same parent
to its shadow name; and the `sys.eos.nlink` attribute becomes `n - 1`. -/
theorem unlink_target_shadow (env : Env) (st : Store) (parent : Nat) (name : String)
    (r : Result) (s : String) (n : Int)
    (hres : unlink env st parent name = some r) (hok : r.reply = Reply.err 0)
    (hmdino : attrCount (st (env.mds_lookup parent name)).attr k_mdino = 0)
    (hattr : List.lookup k_nlink (st (env.mds_lookup parent name)).attr = some s)
    (hs : stol s = some n) (hpos : 0 < n) (hfit : n < 2 ^ 31) :
    (∀ p h a u, Event.mds_remove p h a u ∉ r.trace) ∧
    mvCalls r.trace =
      [Event.mds_mv
        (env.mds_get parent (env.caps_acquire parent (S_IFDIR ||| X_OK ||| env.D_OK)).authid)
        (env.mds_get parent (env.caps_acquire parent (S_IFDIR ||| X_OK ||| env.D_OK)).authid)
        (env.mds_lookup parent name)
        (shadowName (st (env.mds_lookup parent name)).md_ino)
        (env.caps_acquire parent (S_IFDIR ||| X_OK ||| env.D_OK)).authid
        (env.caps_acquire parent (S_IFDIR ||| X_OK ||| env.D_OK)).authid] ∧
    List.lookup k_nlink (r.store (env.mds_lookup parent name)).attr =
      some (to_string (n - 1)) := by
  have hn : toI32 n = n := by
    unfold toI32
    omega
  obtain ⟨hmv, hrm, hst⟩ :=
    unlink_target env st parent name r s n hres hok hmdino hattr hs (by omega)
  refine ⟨hrm, hmv, ?_⟩
  rw [hst, hn]
  exact lookup_attrSet _ _ _

/-- C7 (witness): a hard-link target with `sys.eos.nlink = 3`; the theorem applies to
its unlink, which calls `mds.mv` once and leaves the attribute at 2. -/
theorem unlink_target_shadow_witness :
    Option.map (fun r => (mvCalls r.trace, List.lookup k_nlink (r.store 1).attr))
      (unlink { mds_lookup := fun _ _ => 1 }
        (fun h => if h = 1 then
            { id := 5, md_ino := 255, mode := S_IFREG, size := 100,
              attr := [("sys.eos.nlink", "3")] }
          else { id := 1, mode := S_IFDIR })
        1 "f") =
      some ([Event.mds_mv 0 0 1 "...eos.ino...ff" "" ""], some "2") := by
  have hsome : (unlink { mds_lookup := fun _ _ => 1 }
        (fun h => if h = 1 then
            { id := 5, md_ino := 255, mode := S_IFREG, size := 100,
              attr := [("sys.eos.nlink", "3")] }
          else { id := 1, mode := S_IFDIR })
        1 "f").isSome = true := by decide
  obtain ⟨r, hr⟩ := Option.isSome_iff_exists.mp hsome
  have hreply : Option.map (fun x => x.reply) (unlink { mds_lookup := fun _ _ => 1 }
        (fun h => if h = 1 then
            { id := 5, md_ino := 255, mode := S_IFREG, size := 100,
              attr := [("sys.eos.nlink", "3")] }
          else { id := 1, mode := S_IFDIR })
        1 "f") = some (Reply.err 0) := by decide
  rw [hr] at hreply
  have hok : r.reply = Reply.err 0 := by simpa using hreply
  have h := unlink_target_shadow { mds_lookup := fun _ _ => 1 }
    (fun h => if h = 1 then
        { id := 5, md_ino := 255, mode := S_IFREG, size := 100,
          attr := [("sys.eos.nlink", "3")] }
      else { id := 1, mode := S_IFDIR })
    1 "f" r "3" 3 hr hok (by decide) (by decide) (by decide) (by decide) (by decide)
  rw [hr]
  exact congrArg some (Prod.ext h.2.1 h.2.2)

/-! ## `rename`, `rmdir`: the order of the tracker monitors -/

/-- The first two calls of `rename` are the monitors on the smaller and on the larger
of the two parents. -/
theorem rename_trace_head (env : Env) (st : Store) (parent : Nat) (name : String)
    (newparent : Nat) (newname : String) :
    ∃ rest, (rename env st parent name newparent newname).trace =
      Event.monitor (min parent newparent) true false ::
      Event.monitor (max parent newparent) true (min parent newparent == max parent newparent) ::
      rest := by
  simp only [rename]
  split_ifs <;> exact ⟨_, rfl⟩

/-- C8: for all inode ids `a` and `b`, `rename` requests its first monitor on
`min a b` and its second on `max a b`, both exclusive; hence a rename with parents
`(a, b)` and a rename with parents `(b, a)` request the two parent monitors in the
same order, the first id is at most the second, and the second monitor carries the
same-inode flag exactly when `a = b`. -/
theorem rename_monitor_order (env env2 : Env) (st st2 : Store) (a b : Nat)
    (name newname name2 newname2 : String) :
    (rename env st a name b newname).trace.take 2 =
      [Event.monitor (min a b) true false, Event.monitor (max a b) true (decide (a = b))] ∧
    (rename env st a name b newname).trace.take 2 =
      (rename env2 st2 b name2 a newname2).trace.take 2 ∧
    min a b ≤ max a b := by
  have hflag : ∀ x y : Nat, (min x y == max x y) = decide (x = y) := by
    intro x y
    rcases Nat.lt_trichotomy x y with h | h | h
    · have h1 : min x y = x := by omega
      have h2 : max x y = y := by omega
      have h3 : x ≠ y := by omega
      simp [h1, h2, h3]
    · subst h
      simp
    · have h1 : min x y = y := by omega
      have h2 : max x y = x := by omega
      have h3 : x ≠ y := by omega
      have h4 : y ≠ x := by omega
      simp [h1, h2, h3, h4]
  obtain ⟨rest, h⟩ := rename_trace_head env st a name b newname
  obtain ⟨rest2, h2⟩ := rename_trace_head env2 st2 b name2 a newname2
  have hab : decide (b = a) = decide (a = b) := by
    by_cases hc : a = b
    · subst hc; rfl
    · have hc2 : ¬ b = a := fun e => hc e.symm
      simp [hc, hc2]
  refine ⟨?_, ?_, by omega⟩
  · rw [h, hflag]
    rfl
  · rw [h, h2, hflag, hflag, Nat.min_comm b a, Nat.max_comm b a, hab]
    rfl

/-- C9 (counterexample): `rename` from parent 5 to parent 7 of an entry with id 3
takes its monitors on 5, 7, 3, and `rmdir` in parent 5 of a directory with id 3 takes
them on 5, 3: neither sequence is sorted ascending. -/
theorem monitors_not_sorted :
    monitored (rename { mds_lookup := fun _ _ => 1 }
      (fun h => if h = 1 then { id := 3, mode := S_IFDIR } else {}) 5 "a" 7 "b").trace =
      [5, 7, 3] ∧
    ¬ List.Sorted (fun x y : Nat => x ≤ y) (monitored (rename { mds_lookup := fun _ _ => 1 }
      (fun h => if h = 1 then { id := 3, mode := S_IFDIR } else {}) 5 "a" 7 "b").trace) ∧
    monitored (rmdir { mds_lookup := fun _ _ => 1 }
      (fun h => if h = 1 then { id := 3, mode := S_IFDIR } else {}) 5 "a").trace = [5, 3] ∧
    ¬ List.Sorted (fun x y : Nat => x ≤ y) (monitored (rmdir { mds_lookup := fun _ _ => 1 }
      (fun h => if h = 1 then { id := 3, mode := S_IFDIR } else {}) 5 "a").trace) := by
  decide

/-- C9 (amended): `rename` constructs the monitors of its two parents in
non-decreasing inode-id order and after them, when it gets that far, the monitor of
the renamed entry; `rmdir` constructs the monitor of the parent and after it, when it
gets as far as the lookup, the monitor of the record the name resolves to.  The
monitor of the entry follows those of the parents whatever its id. -/
theorem monitor_sequence (env : Env) (st : Store) (parent : Nat) (name : String)
    (newparent : Nat) (newname : String) :
    (∃ tail, monitored (rename env st parent name newparent newname).trace =
        [min parent newparent, max parent newparent] ++ tail ∧
      (tail = [] ∨ tail = [(st (env.mds_lookup parent name)).id])) ∧
    min parent newparent ≤ max parent newparent ∧
    (monitored (rmdir env st parent name).trace = [parent] ∨
      monitored (rmdir env st parent name).trace =
        [parent, (st (env.mds_lookup parent name)).id]) := by
  refine ⟨?_, by omega, ?_⟩
  · simp only [rename]
    split_ifs <;> simp_all [monitored, ENOENT]
  · simp only [rmdir]
    split_ifs <;> simp [monitored]

/-! ## `setattr` -/

/-- C11 (the code at the failing input): a truncate (`FUSE_SET_ATTR_SIZE`, requested
size 0) of the live regular file with id 5 and size 7 under a valid capability, where
the truncate of the data object returns -1 with `errno = EIO`.  The truncate step ends
with `EIO`, yet `setattr` replies the attributes, that is success, and pushes the
record with `mds.update`.  The same happens for the live directory with id 5, where the
truncate step ends with `EISDIR`. -/
theorem setattr_truncate_error_is_dropped :
    truncateRc { data_truncate := fun _ => -1, errno := EIO }
      (fun _ => { id := 5, mode := S_IFREG ||| 0o644, size := 7 })
      { st_size := 0 } none 0 = EIO ∧
    Option.map (fun r => (r.reply, r.trace, (r.store 0).size))
      (setattr { data_truncate := fun _ => -1, errno := EIO }
        (fun _ => { id := 5, mode := S_IFREG ||| 0o644, size := 7 }) 5
        { st_size := 0 } FUSE_SET_ATTR_SIZE none) =
      some (Reply.attr { ino := 5 },
        [Event.mds_get_ino 5, Event.caps_acquire 0 W_OK, Event.datas_get 5 0,
         Event.ioctx_attach "" 1, Event.ioctx_truncate 0, Event.ioctx_inline_file_size 0,
         Event.ioctx_flush, Event.ioctx_detach "" true, Event.datas_release 5,
         Event.mds_update 0 ""], 7) ∧
    truncateRc {} (fun _ => { id := 5, mode := S_IFDIR ||| 0o755, size := 7 })
      { st_size := 0 } none 0 = EISDIR ∧
    Option.map (fun r => (r.reply, r.trace, (r.store 0).size))
      (setattr {} (fun _ => { id := 5, mode := S_IFDIR ||| 0o755, size := 7 }) 5
        { st_size := 0 } FUSE_SET_ATTR_SIZE none) =
      some (Reply.attr { ino := 5 },
        [Event.mds_get_ino 5, Event.caps_acquire 5 W_OK, Event.mds_update 0 ""], 7) := by
  decide

/-! ## `setattr`: the size change -/

/-- C12 (counterexample): a truncate to 0 of a live regular file whose recorded size is
`2^63 + 1`, with truncate and flush succeeding.  The requested size is not larger than
the old one, but the conversion of the old size to `int64_t` is negative, the
difference is positive, and `book_volume` is called with `2^63 - 1`; `free_volume` is
not called. -/
theorem setattr_size_wraps :
    truncateRc {} (fun _ => { id := 5, mode := S_IFREG ||| 0o644, size := 2 ^ 63 + 1 })
      { st_size := 0 } none 0 = 0 ∧
    Option.map (fun r => (bookCalls r.trace, freeCalls r.trace, (r.store 0).size))
      (setattr {} (fun _ => { id := 5, mode := S_IFREG ||| 0o644, size := 2 ^ 63 + 1 }) 5
        { st_size := 0 } FUSE_SET_ATTR_SIZE none) =
      some ([Event.caps_book_volume {} (2 ^ 63 - 1)], [], 0) := by
  decide

/-- A value in the range of `int64_t` is unchanged by the conversion. -/
theorem toI64_of_fits (x : Int) (h0 : -2 ^ 63 ≤ x) (h1 : x < 2 ^ 63) : toI64 x = x := by
  unfold toI64
  rw [Int.emod_eq_of_lt (by omega) (by omega)]
  omega

/-- A conditional write that keeps the size of the record written keeps the size found
under every pointer. -/
theorem setIf_size (st : Store) (c : Bool) (h k : Handle) (f : Md → Md)
    (hf : ∀ m, (f m).size = m.size) : (st.setIf c h f k).size = (st k).size := by
  unfold Store.setIf Store.set
  by_cases hc : c = true
  · rw [if_pos hc]
    by_cases hk : k = h
    · simp only [if_pos hk]
      rw [hf, hk]
    · simp only [if_neg hk]
  · rw [if_neg hc]

/-- The chmod, chown and utimes blocks do not write the size. -/
theorem setattrMeta_size (env : Env) (st : Store) (attr : Stat) (op : Nat) (md : Handle) :
    (setattrMeta env st attr op md md).size = (st md).size := by
  unfold setattrMeta
  rw [setIf_size, setIf_size, setIf_size, setIf_size, setIf_size, setIf_size, setIf_size]
  all_goals intro m; rfl

/-- What `setattr` calls before the size change is booked is neither `book_volume` nor
`free_volume`. -/
theorem setattr_prefix_no_volume (env : Env) (st st2 : Store) (ino : Nat) (attr : Stat)
    (op : Nat) (fi : Option FileInfo) (md : Handle) :
    bookCalls ([Event.mds_get_ino ino] ++ setattrCapEvents env st ino op md ++
      setattrMetaEvents env st2 op md ++ truncateEvents env st2 attr fi md) = [] ∧
    freeCalls ([Event.mds_get_ino ino] ++ setattrCapEvents env st ino op md ++
      setattrMetaEvents env st2 op md ++ truncateEvents env st2 attr fi md) = [] := by
  have h1 : bookCalls (setattrCapEvents env st ino op md) = [] ∧
      freeCalls (setattrCapEvents env st ino op md) = [] := by
    unfold setattrCapEvents
    split_ifs <;> exact ⟨rfl, rfl⟩
  have h2 : bookCalls (setattrMetaEvents env st2 op md) = [] ∧
      freeCalls (setattrMetaEvents env st2 op md) = [] := by
    unfold setattrMetaEvents
    split_ifs <;> exact ⟨rfl, rfl⟩
  have h3 : bookCalls (truncateEvents env st2 attr fi md) = [] ∧
      freeCalls (truncateEvents env st2 attr fi md) = [] := by
    unfold truncateEvents
    split_ifs
    · exact ⟨rfl, rfl⟩
    · exact ⟨rfl, rfl⟩
    · cases fi.bind (fun f => f.fh) <;> exact ⟨rfl, rfl⟩
  unfold bookCalls freeCalls at *
  simp only [List.filter_append, h1.1, h1.2, h2.1, h2.2, h3.1, h3.2]
  exact ⟨rfl, rfl⟩

/-- C12 (amended): a `setattr` with `FUSE_SET_ATTR_SIZE` on a record that is not gone,
under a capability without error, with old size `s < 2^63` and requested size `t`,
`0 ≤ t < 2^63`, returns.  When the truncate step ends with 0 (which needs a record
without the `S_IFDIR` bit whose truncate and flush succeed) the size of the record
becomes `t`; for `t > s` there is exactly one call of `book_volume`, with `t - s`, and
none of `free_volume`; for `t ≤ s` there is exactly one call of `free_volume`, with
`t - s`, and none of `book_volume`.  When the truncate step fails neither is called
and the size is unchanged. -/
theorem setattr_size_volume (env : Env) (st : Store) (ino : Nat) (attr : Stat) (op : Nat)
    (fi : Option FileInfo) (pcap : Cap)
    (hop : op &&& FUSE_SET_ATTR_SIZE ≠ 0)
    (hlive : gone env (st (env.mds_get_ino ino)) = false)
    (hcap : setattrCap env st ino op (env.mds_get_ino ino) = some pcap)
    (herrc : pcap.errc = 0)
    (ht0 : 0 ≤ attr.st_size) (ht1 : attr.st_size < 2 ^ 63)
    (hs : (st (env.mds_get_ino ino)).size < 2 ^ 63) :
    ∃ r, setattr env st ino attr op fi = some r ∧
      (truncateRc env (setattrMeta env st attr op (env.mds_get_ino ino)) attr fi
          (env.mds_get_ino ino) = 0 →
        ((r.store (env.mds_get_ino ino)).size : Int) = attr.st_size ∧
        (attr.st_size > (st (env.mds_get_ino ino)).size →
          bookCalls r.trace = [Event.caps_book_volume pcap
            (attr.st_size - (st (env.mds_get_ino ino)).size)] ∧
          freeCalls r.trace = []) ∧
        (attr.st_size ≤ (st (env.mds_get_ino ino)).size →
          bookCalls r.trace = [] ∧
          freeCalls r.trace = [Event.caps_free_volume pcap
            (attr.st_size - (st (env.mds_get_ino ino)).size)])) ∧
      (truncateRc env (setattrMeta env st attr op (env.mds_get_ino ino)) attr fi
          (env.mds_get_ino ino) ≠ 0 →
        bookCalls r.trace = [] ∧ freeCalls r.trace = [] ∧
        (r.store (env.mds_get_ino ino)).size = (st (env.mds_get_ino ino)).size) := by
  have hop0 : op ≠ 0 := by
    rintro rfl
    exact hop (Nat.zero_and _)
  have hshape : setattr env st ino attr op fi =
      some (setattrApply env st attr op fi (env.mds_get_ino ino) pcap
        ([Event.mds_get_ino ino] ++ setattrCapEvents env st ino op (env.mds_get_ino ino))) := by
    unfold setattr
    rw [if_neg hop0, hlive, hcap]
    simp only [herrc, ne_eq, not_true_eq_false, if_false, Bool.false_eq_true]
  obtain ⟨hb, hf⟩ := setattr_prefix_no_volume env st
    (setattrMeta env st attr op (env.mds_get_ino ino)) ino attr op fi (env.mds_get_ino ino)
  have hd : toI64 (toI64 attr.st_size -
      toI64 (setattrMeta env st attr op (env.mds_get_ino ino) (env.mds_get_ino ino)).size) =
      attr.st_size - (st (env.mds_get_ino ino)).size := by
    rw [setattrMeta_size, toI64_of_fits attr.st_size (by omega) ht1,
      toI64_of_fits ((st (env.mds_get_ino ino)).size : Int) (by omega) (by exact_mod_cast hs),
      toI64_of_fits _ (by omega) (by omega)]
  refine ⟨_, hshape, ?_, ?_⟩
  · intro hrc
    unfold setattrApply
    rw [if_pos hop, if_pos hrc, hd]
    unfold setattrReply
    refine ⟨?_, ?_, ?_⟩
    · simp only [Store.set, if_true]
      exact toU64_of_fits _ ht0 (by omega)
    · intro hgt
      have hpos : attr.st_size - ((st (env.mds_get_ino ino)).size : Int) > 0 := by omega
      rw [if_pos hpos]
      unfold bookCalls freeCalls at *
      simp only [List.filter_append, hb, hf]
      exact ⟨rfl, rfl⟩
    · intro hle
      have hneg : ¬ attr.st_size - ((st (env.mds_get_ino ino)).size : Int) > 0 := by omega
      rw [if_neg hneg]
      unfold bookCalls freeCalls at *
      simp only [List.filter_append, hb, hf]
      exact ⟨rfl, rfl⟩
  · intro hrc
    unfold setattrApply
    rw [if_pos hop, if_neg hrc]
    unfold setattrReply
    refine ⟨?_, ?_, setattrMeta_size env st attr op (env.mds_get_ino ino)⟩
    · unfold bookCalls at *
      simp only [List.filter_append, hb]
      rfl
    · unfold freeCalls at *
      simp only [List.filter_append, hf]
      rfl

/-- C12 (witness): a truncate of a regular file of size 7 to the size 10 books 3
bytes, frees nothing and leaves the size 10. -/
theorem setattr_size_volume_witness :
    Option.map (fun r => (bookCalls r.trace, freeCalls r.trace, (r.store 0).size))
      (setattr {} (fun _ => { id := 5, mode := S_IFREG ||| 0o644, size := 7 }) 5
        { st_size := 10 } FUSE_SET_ATTR_SIZE none) =
      some ([Event.caps_book_volume {} 3], [], 10) := by
  obtain ⟨r, hr, hok, _⟩ := setattr_size_volume {}
    (fun _ => { id := 5, mode := S_IFREG ||| 0o644, size := 7 }) 5 { st_size := 10 }
    FUSE_SET_ATTR_SIZE none {} (by decide) (by decide) (by decide) rfl (by decide)
    (by decide) (by decide)
  obtain ⟨hsz, hgt, _⟩ := hok (by decide)
  obtain ⟨hb, hf⟩ := hgt (by decide)
  have hsz1 : ((r.store 0).size : Int) = 10 := hsz
  have hsz2 : (r.store 0).size = 10 := by exact_mod_cast hsz1
  rw [hr, Option.map_some', hb, hf, hsz2]
  rfl

/-! ## `create`: the new id -/

/-- A write through a pointer that keeps the id of the record written keeps the id
found under every pointer. -/
theorem set_keeps_id (st : Store) (h k : Handle) (m : Md) (v : Nat)
    (hst : (st k).id = v) (hm : m.id = (st h).id) : (st.set h m k).id = v := by
  unfold Store.set
  split_ifs with hk
  · rw [hm, ← hk]
    exact hst
  · exact hst

/-- The branch `createNew` calls `mds.insert` once, gives the record the id that call
returns, replies on success the conversion of a record with that id, and waits for the
flush of a deleted record right before the insert. -/
theorem createNew_insert (env : Env) (st : Store) (name : String) (mode : Nat)
    (fi : Option FileInfo) (pcap : Cap) (md pmd : Handle) (tr : List Event)
    (htr : insertCalls tr = []) :
    insertCalls (createNew env st name mode fi pcap md pmd tr).trace =
      [Event.mds_insert md pcap.authid] ∧
    ((createNew env st name mode fi pcap md pmd tr).store md).id =
      env.mds_insert md pcap.authid ∧
    (∀ e, (createNew env st name mode fi pcap md pmd tr).reply = Reply.create e ∨
        (createNew env st name mode fi pcap md pmd tr).reply = Reply.entry e →
      ∃ m : Md, m.id = env.mds_insert md pcap.authid ∧ e = env.convert m) ∧
    ((st md).deleted = true →
      ∃ a b, (createNew env st name mode fi pcap md pmd tr).trace =
        a ++ [Event.mds_wait_flush md, Event.mds_insert md pcap.authid] ++ b) := by
  unfold createNew
  lift_lets
  intro wait ts m0 st1 m1 st2 m2 st3 sync rc m3 st4 add tr1 e m4 st5 cookie
  have h1 : (st1 md).id = env.mds_insert md pcap.authid := by
    simp only [st1, Store.set, if_true]
  have h2 : (st2 md).id = env.mds_insert md pcap.authid := set_keeps_id st1 pmd md _ _ h1 rfl
  have h3 : (st3 md).id = env.mds_insert md pcap.authid := by
    simp only [st3]
    split_ifs
    · exact set_keeps_id st2 md md _ _ h2 rfl
    · exact h2
  have h4 : (st4 md).id = env.mds_insert md pcap.authid := by
    simp only [st4]
    split_ifs
    · exact set_keeps_id st3 md md _ _ h3 rfl
    · exact h3
  have h5 : (st5 md).id = env.mds_insert md pcap.authid := set_keeps_id st4 md md _ _ h4 rfl
  have hwait : insertCalls wait = [] := by
    simp only [wait]
    split_ifs <;> rfl
  have hadd : insertCalls add = [] := by
    simp only [add]
    split_ifs <;> rfl
  have htr1 : insertCalls tr1 = [Event.mds_insert md pcap.authid] := by
    simp only [tr1, insertCalls, List.filter_append] at *
    rw [htr, hwait, hadd]
    rfl
  have hwf : (st md).deleted = true →
      tr1 = tr ++ [Event.mds_wait_flush md, Event.mds_insert md pcap.authid] ++ add := by
    intro hdel
    simp only [tr1, wait, hdel, if_true, List.append_assoc, List.cons_append,
      List.nil_append]
  have he : ∃ m : Md, m.id = env.mds_insert md pcap.authid ∧ e = env.convert m :=
    ⟨st4 md, h4, rfl⟩
  clear_value wait ts m0 st1 m1 st2 m2 st3 sync rc m3 st4 add tr1 e m4 st5 cookie
  by_cases hrc : rc ≠ 0
  · simp only [if_pos hrc]
    refine ⟨htr1, h4, ?_, fun hdel => ⟨tr, add, hwf hdel⟩⟩
    intro e1 h
    rcases h with h | h <;> cases h
  · simp only [if_neg hrc]
    cases fi with
    | none =>
      refine ⟨?_, h5, ?_, fun hdel => ⟨tr, add ++ [Event.caps_book_inode pcap], ?_⟩⟩
      · show insertCalls (tr1 ++ [Event.caps_book_inode pcap]) = _
        unfold insertCalls at htr1 ⊢
        rw [List.filter_append, htr1]
        rfl
      · intro e1 h
        rcases h with h | h
        · cases h
        · cases h
          exact he
      · show tr1 ++ [Event.caps_book_inode pcap] = _
        rw [hwf hdel]
        simp only [List.append_assoc]
    | some f =>
      refine ⟨?_, h5, ?_, fun hdel => ⟨tr, add ++ [Event.caps_book_inode pcap,
        Event.datas_get (st5 md).id md,
        Event.ioctx_set_remote (st5 md).name (st5 md).md_ino (st5 md).md_pino,
        Event.ioctx_attach cookie f.flags], ?_⟩⟩
      · show insertCalls (tr1 ++ _) = _
        unfold insertCalls at htr1 ⊢
        rw [List.filter_append, htr1]
        rfl
      · intro e1 h
        rcases h with h | h
        · cases h
          exact he
        · cases h
      · show tr1 ++ _ = _
        rw [hwf hdel]
        simp only [List.append_assoc]

/-- C13: when `create` gets past the existence check (the parent capability carries no
error, there is quota, and the looked-up record has id 0 or is marked deleted) it calls
`mds.insert` exactly once; the id of the record is afterwards the value that call
returned; the entry replied on success is the conversion (`md->convert`) of a record
with that id, so its inode is that id whenever the conversion copies the id into the
inode; and for a record marked deleted `mds.wait_flush` is called right before
`mds.insert`. -/
theorem create_inserts_once (env : Env) (st : Store) (parent : Nat) (name : String)
    (mode : Nat) (fi : Option FileInfo)
    (hcap : (env.caps_acquire parent (S_IFDIR ||| W_OK)).errc = 0)
    (hquota :
      env.caps_has_quota (env.caps_acquire parent (S_IFDIR ||| W_OK)) (1024 * 1024) = true)
    (hnew : (st (env.mds_lookup parent name)).id = 0 ∨
      (st (env.mds_lookup parent name)).deleted = true) :
    insertCalls (create env st parent name mode fi).trace =
      [Event.mds_insert (env.mds_lookup parent name)
        (env.caps_acquire parent (S_IFDIR ||| W_OK)).authid] ∧
    ((create env st parent name mode fi).store (env.mds_lookup parent name)).id =
      env.mds_insert (env.mds_lookup parent name)
        (env.caps_acquire parent (S_IFDIR ||| W_OK)).authid ∧
    (∀ e, (create env st parent name mode fi).reply = Reply.create e ∨
        (create env st parent name mode fi).reply = Reply.entry e →
      (∃ m : Md, m.id = env.mds_insert (env.mds_lookup parent name)
          (env.caps_acquire parent (S_IFDIR ||| W_OK)).authid ∧ e = env.convert m) ∧
      ((∀ m : Md, (env.convert m).ino = m.id) →
        e.ino = env.mds_insert (env.mds_lookup parent name)
          (env.caps_acquire parent (S_IFDIR ||| W_OK)).authid)) ∧
    ((st (env.mds_lookup parent name)).deleted = true →
      ∃ a b, (create env st parent name mode fi).trace =
        a ++ [Event.mds_wait_flush (env.mds_lookup parent name),
          Event.mds_insert (env.mds_lookup parent name)
            (env.caps_acquire parent (S_IFDIR ||| W_OK)).authid] ++ b) := by
  have hnot : ¬ ((st (env.mds_lookup parent name)).id ≠ 0 ∧
      (st (env.mds_lookup parent name)).deleted = false) := by
    rintro ⟨h1, h2⟩
    rcases hnew with h | h
    · exact h1 h
    · rw [h2] at h
      cases h
  have hshape : create env st parent name mode fi =
      createNew env st name mode fi (env.caps_acquire parent (S_IFDIR ||| W_OK))
        (env.mds_lookup parent name)
        (env.mds_get parent (env.caps_acquire parent (S_IFDIR ||| W_OK)).authid)
        ([Event.monitor parent true false,
            Event.caps_acquire parent (S_IFDIR ||| W_OK)] ++
          [Event.caps_has_quota (env.caps_acquire parent (S_IFDIR ||| W_OK)) (1024 * 1024),
           Event.mds_lookup parent name,
           Event.mds_get parent (env.caps_acquire parent (S_IFDIR ||| W_OK)).authid] ++
          waitDeleted st
            (env.mds_get parent (env.caps_acquire parent (S_IFDIR ||| W_OK)).authid) name) := by
    unfold create
    simp only [hcap, hquota, ne_eq, eq_self_iff_true, not_true_eq_false, if_false,
      Bool.not_true, Bool.false_eq_true]
    rw [if_neg hnot]
  have htr : insertCalls ([Event.monitor parent true false,
            Event.caps_acquire parent (S_IFDIR ||| W_OK)] ++
          [Event.caps_has_quota (env.caps_acquire parent (S_IFDIR ||| W_OK)) (1024 * 1024),
           Event.mds_lookup parent name,
           Event.mds_get parent (env.caps_acquire parent (S_IFDIR ||| W_OK)).authid] ++
          waitDeleted st
            (env.mds_get parent (env.caps_acquire parent (S_IFDIR ||| W_OK)).authid) name) =
      [] := by
    unfold insertCalls waitDeleted
    split_ifs <;> rfl
  rw [hshape]
  obtain ⟨h1, h2, h3, h4⟩ := createNew_insert env st name mode fi
    (env.caps_acquire parent (S_IFDIR ||| W_OK)) (env.mds_lookup parent name)
    (env.mds_get parent (env.caps_acquire parent (S_IFDIR ||| W_OK)).authid) _ htr
  refine ⟨h1, h2, fun e he => ?_, h4⟩
  obtain ⟨m, hm, hem⟩ := h3 e he
  exact ⟨⟨m, hm, hem⟩, fun hconv => by rw [hem, hconv m, hm]⟩

/-- C13 (witness): a create over the deleted record with id 5, where `mds.insert`
returns 9: the reply carries the inode 9, `mds.insert` is called once and the record
gets the id 9. -/
theorem create_inserts_once_witness :
    (create { mds_insert := fun _ _ => 9 } (fun _ => { id := 5, deleted := true }) 1 "f"
      0o644 none).reply = Reply.entry { ino := 9 } ∧
    insertCalls (create { mds_insert := fun _ _ => 9 }
      (fun _ => { id := 5, deleted := true }) 1 "f" 0o644 none).trace =
      [Event.mds_insert 0 ""] ∧
    ((create { mds_insert := fun _ _ => 9 } (fun _ => { id := 5, deleted := true }) 1 "f"
      0o644 none).store 0).id = 9 :=
  ⟨by decide,
   (create_inserts_once { mds_insert := fun _ _ => 9 }
      (fun _ => { id := 5, deleted := true }) 1 "f" 0o644 none rfl rfl (Or.inr rfl)).1,
   (create_inserts_once { mds_insert := fun _ _ => 9 }
      (fun _ => { id := 5, deleted := true }) 1 "f" 0o644 none rfl rfl (Or.inr rfl)).2.1⟩

/-! ## `create`, `mkdir`, `symlink`: a failing synchronous add -/

/-- C14 (the code at the failing input): with `symlink-is-sync` set and `add_sync`
returning 17, `symlink` replies 17 and leaves the lookup count of the record at 1
instead of 0; with `mkdir-is-sync` set, `mkdir` replies 17 and leaves the capability
count at 1 instead of 0.  `create` with `create-is-sync` replies 17 and changes
neither count and books no inode. -/
theorem add_sync_failure_leaves_counts :
    (symlink { options := { symlink_is_sync := true }, mds_add_sync := fun _ _ _ => 17,
               mds_lookup := fun _ _ => 1 } (fun _ => {}) "t" 1 "x").reply = Reply.err 17 ∧
    ((symlink { options := { symlink_is_sync := true }, mds_add_sync := fun _ _ _ => 17,
                mds_lookup := fun _ _ => 1 } (fun _ => {}) "t" 1 "x").store 1).lookup_cnt = 1 ∧
    (mkdir { options := { mkdir_is_sync := true }, mds_add_sync := fun _ _ _ => 17,
             mds_lookup := fun _ _ => 1 } (fun _ => {}) 1 "x" 0o755).reply = Reply.err 17 ∧
    ((mkdir { options := { mkdir_is_sync := true }, mds_add_sync := fun _ _ _ => 17,
              mds_lookup := fun _ _ => 1 } (fun _ => {}) 1 "x" 0o755).store 1).cap_cnt = 1 ∧
    (create { options := { create_is_sync := true }, mds_add_sync := fun _ _ _ => 17,
              mds_lookup := fun _ _ => 1 } (fun _ => {}) 1 "x" 0o644 none).reply =
      Reply.err 17 ∧
    ((create { options := { create_is_sync := true }, mds_add_sync := fun _ _ _ => 17,
               mds_lookup := fun _ _ => 1 } (fun _ => {}) 1 "x" 0o644 none).store 1).lookup_cnt
      = 0 ∧
    ((create { options := { create_is_sync := true }, mds_add_sync := fun _ _ _ => 17,
               mds_lookup := fun _ _ => 1 } (fun _ => {}) 1 "x" 0o644 none).store 1).cap_cnt
      = 0 ∧
    (∀ c, Event.caps_book_inode c ∉
      (create { options := { create_is_sync := true }, mds_add_sync := fun _ _ _ => 17,
                mds_lookup := fun _ _ => 1 } (fun _ => {}) 1 "x" 0o644 none).trace) := by
  refine ⟨by decide, by decide, by decide, by decide, by decide, by decide, by decide, ?_⟩
  intro c
  simp [create, createNew, waitDeleted, todeleteIno]

/-! ## `write`: failures -/

/-- C15: a write request on an open handle that passes the size check and the quota
check and whose `pwrite` returns -1 is answered with `errno`, or with `EIO` when
`errno` is 0; no record is written, so the size of the record is unchanged, and the
handle is left as it was, so its update flag is not set.  And every write that replies
an error, on whatever path, leaves the store, and so the size of every record,
unchanged. -/
theorem write_error_keeps_size (env : Env) (st : Store) (ino size : Nat) (off : Int)
    (fi : FileInfo) :
    (∀ io, fi.fh = some io → ¬ toU64 (off + (size : Int)) > io.maxfilesize →
      env.caps_has_quota io.cap size = true → env.ioctx_pwrite io size off = -1 →
      (write env st ino size off fi).reply =
        Reply.err (if env.errno ≠ 0 then env.errno else EIO) ∧
      ((write env st ino size off fi).store io.md).size = (st io.md).size ∧
      (write env st ino size off fi).fi = some fi) ∧
    (∀ rc, (write env st ino size off fi).reply = Reply.err rc →
      (write env st ino size off fi).store = st ∧
      ∀ h, ((write env st ino size off fi).store h).size = (st h).size) := by
  constructor
  · intro io hfh hsize hquota hw
    simp [write, hfh, hsize, hquota, hw]
  · intro rc hrc
    have hst : (write env st ino size off fi).store = st := by
      revert hrc
      unfold write
      cases fi.fh with
      | none => intro _; rfl
      | some io =>
        simp only []
        split_ifs
        all_goals (intro h; first | rfl | cases h)
    exact ⟨hst, fun h => by rw [hst]⟩

/-- C15 (witness): a request of 10 bytes whose `pwrite` fails with `errno = 28`. -/
theorem write_error_keeps_size_witness :
    (write { ioctx_pwrite := fun _ _ _ => -1, errno := 28 } (fun _ => { size := 3 }) 7 10 0
      { fh := some { md := 0, maxfilesize := 50 } }).reply = Reply.err 28 ∧
    ((write { ioctx_pwrite := fun _ _ _ => -1, errno := 28 } (fun _ => { size := 3 }) 7 10 0
      { fh := some { md := 0, maxfilesize := 50 } }).store 0).size = 3 :=
  ⟨((write_error_keeps_size { ioctx_pwrite := fun _ _ _ => -1, errno := 28 }
      (fun _ => { size := 3 }) 7 10 0 { fh := some { md := 0, maxfilesize := 50 } }).1
      { md := 0, maxfilesize := 50 } rfl (by decide) rfl rfl).1,
   ((write_error_keeps_size { ioctx_pwrite := fun _ _ _ => -1, errno := 28 }
      (fun _ => { size := 3 }) 7 10 0 { fh := some { md := 0, maxfilesize := 50 } }).2
      28 (by decide)).2 0⟩

/-! ## `setlk`: the back-off -/

/-- The wait after the failed call number `k`: `w_ms` starts at 10 and the update
`w_ms *= 2; if (w_ms > 1000) w_ms = 1000` keeps it at `min (10 * 2^k) 1000`. -/
theorem backoff_step (k : Nat) :
    (if min (10 * 2 ^ k) 1000 * 2 > 1000 then 1000 else min (10 * 2 ^ k) 1000 * 2) =
      min (10 * 2 ^ (k + 1)) 1000 := by
  have hp : 2 ^ (k + 1) = 2 * 2 ^ k := by rw [pow_succ]; ring
  rw [hp]
  generalize 2 ^ k = p
  simp only [Nat.min_def]
  split_ifs <;> omega

/-- The list of waits does not see calls of `mds.setlk`. -/
theorem sleeps_append (a b : List Event) : sleeps (a ++ b) = sleeps a ++ sleeps b := by
  induction a with
  | nil => rfl
  | cons e rest ih =>
    cases e <;> simp [sleeps, ih]

/-- The polling loop, entered at call number `k` with the wait `min (10 * 2^k) 1000`,
when the calls `k, …, k + m - 1` fail, the call `k + m` succeeds and the request is
blocking: it ends with reply 0 after `m` more waits, the wait after call `j` being
`min (10 * 2^j) 1000`, and `m + 1` more calls. -/
theorem setlkLoop_blocking (env : Env) (st : Store) (fi : FileInfo) (md : Handle)
    (sleep : Int) (hsleep : sleep ≠ 0) (m : Nat) :
    ∀ (fuel k : Nat) (tr : List Event), m < fuel →
      (∀ j, k ≤ j → j < k + m → env.mds_setlk_sleep j ≠ 0) →
      env.mds_setlk_sleep (k + m) = 0 →
      ∃ r, setlkLoop env st fi md sleep fuel k (min (10 * 2 ^ k) 1000) tr = some r ∧
        r.reply = Reply.err 0 ∧
        sleeps r.trace =
          sleeps tr ++ (List.range' k m).map (fun j => min (10 * 2 ^ j) 1000) ∧
        setlkCalls r.trace =
          setlkCalls tr ++ List.replicate (m + 1) (Event.mds_setlk_sleep md sleep) := by
  induction m with
  | zero =>
    intro fuel k tr hfuel _ hsucc
    obtain ⟨f, rfl⟩ : ∃ f, fuel = f + 1 := ⟨fuel - 1, by omega⟩
    simp only [Nat.add_zero] at hsucc
    refine ⟨{ reply := Reply.err (env.mds_setlk_sleep k),
              trace := tr ++ [Event.mds_setlk_sleep md sleep],
              store := st, fi := some fi }, ?_, ?_, ?_, ?_⟩
    · unfold setlkLoop
      rw [if_neg (by simp [hsucc])]
    · simp [hsucc]
    · simp [sleeps_append, sleeps]
    · simp [setlkCalls, List.filter_append]
  | succ m ih =>
    intro fuel k tr hfuel hfail hsucc
    obtain ⟨f, rfl⟩ : ∃ f, fuel = f + 1 := ⟨fuel - 1, by omega⟩
    have hk : env.mds_setlk_sleep k ≠ 0 := hfail k (le_refl k) (by omega)
    obtain ⟨r, hr, hreply, hsl, hcalls⟩ := ih f (k + 1)
      (tr ++ [Event.mds_setlk_sleep md sleep, Event.sleep_for (min (10 * 2 ^ k) 1000)])
      (by omega) (fun j h1 h2 => hfail j (by omega) (by omega))
      (by rw [show k + 1 + m = k + (m + 1) by omega]; exact hsucc)
    refine ⟨r, ?_, hreply, ?_, ?_⟩
    · unfold setlkLoop
      rw [if_pos ⟨hk, hsleep⟩, backoff_step]
      exact hr
    · rw [hsl]
      simp [sleeps_append, sleeps, List.range'_succ]
    · rw [hcalls]
      simp [setlkCalls, List.filter_append, List.replicate_succ]

/-- C16: with global locking enabled and an open handle.  A blocking `setlk` (`sleep`
non-zero) whose first `n` calls of `mds.setlk` fail and whose call number `n` succeeds
returns, after `n + 1` calls, with reply 0, and the waits it made are, in order,
`min (10 * 2^k) 1000` milliseconds for `k = 0, …, n - 1`; none exceeds 1000.  A
non-blocking `setlk` (`sleep = 0`) calls `mds.setlk` exactly once, makes no wait and
replies the result of that call. -/
theorem setlk_backoff (env : Env) (st : Store) (ino : Nat) (fi : FileInfo) (io : DataFh)
    (sleep : Int) (fuel : Nat)
    (hglobal : env.options.global_locking = true) (hfh : fi.fh = some io) :
    (sleep ≠ 0 → ∀ n, n < fuel → (∀ j, j < n → env.mds_setlk_sleep j ≠ 0) →
      env.mds_setlk_sleep n = 0 →
      ∃ r, setlk env st ino fi sleep fuel = some r ∧ r.reply = Reply.err 0 ∧
        sleeps r.trace = (List.range n).map (fun k => min (10 * 2 ^ k) 1000) ∧
        (∀ w ∈ sleeps r.trace, w ≤ 1000) ∧
        setlkCalls r.trace = List.replicate (n + 1) (Event.mds_setlk_sleep io.md sleep)) ∧
    (sleep = 0 → 0 < fuel →
      ∃ r, setlk env st ino fi sleep fuel = some r ∧
        r.reply = Reply.err (env.mds_setlk_sleep 0) ∧
        sleeps r.trace = [] ∧
        setlkCalls r.trace = [Event.mds_setlk_sleep io.md sleep]) := by
  constructor
  · intro hsleep n hn hfail hsucc
    obtain ⟨r, hr, hreply, hsl, hcalls⟩ :=
      setlkLoop_blocking env st fi io.md sleep hsleep n fuel 0
        [Event.monitor ino true false] hn
        (fun j _ h2 => hfail j (by omega)) (by rw [Nat.zero_add]; exact hsucc)
    have hsl2 : sleeps r.trace = (List.range n).map (fun k => min (10 * 2 ^ k) 1000) := by
      rw [hsl, List.range_eq_range']
      simp [sleeps]
    refine ⟨r, ?_, hreply, hsl2, ?_, ?_⟩
    · unfold setlk
      rw [hfh]
      simp only [hglobal, Bool.true_eq_false, if_false]
      exact hr
    · intro w hw
      rw [hsl2] at hw
      obtain ⟨k, _, rfl⟩ := List.mem_map.1 hw
      exact Nat.min_le_right _ _
    · rw [hcalls]
      simp [setlkCalls]
  · intro hsleep hfuel
    obtain ⟨f, rfl⟩ : ∃ f, fuel = f + 1 := ⟨fuel - 1, by omega⟩
    refine ⟨{ reply := Reply.err (env.mds_setlk_sleep 0),
              trace := [Event.monitor ino true false] ++ [Event.mds_setlk_sleep io.md sleep],
              store := st, fi := some fi }, ?_, rfl, ?_, ?_⟩
    · unfold setlk
      rw [hfh]
      simp only [hglobal, Bool.true_eq_false, if_false]
      unfold setlkLoop
      rw [if_neg (by simp [hsleep])]
    · simp [sleeps]
    · simp [setlkCalls]

/-- C16 (witness): a blocking request whose first eight calls fail with 11 (`EAGAIN`)
waits 10, 20, 40, 80, 160, 320, 640 and 1000 ms; the same request, non-blocking,
replies 11 at once. -/
theorem setlk_backoff_witness :
    Option.map (fun r => (r.reply, sleeps r.trace))
      (setlk { options := { global_locking := true },
               mds_setlk_sleep := fun k => if k < 8 then 11 else 0 }
        (fun _ => {}) 7 { fh := some { md := 3 } } 1 9) =
      some (Reply.err 0, [10, 20, 40, 80, 160, 320, 640, 1000]) ∧
    Option.map (fun r => (r.reply, sleeps r.trace))
      (setlk { options := { global_locking := true },
               mds_setlk_sleep := fun k => if k < 8 then 11 else 0 }
        (fun _ => {}) 7 { fh := some { md := 3 } } 0 1) =
      some (Reply.err 11, []) := by
  constructor
  · obtain ⟨r, hr, hreply, hsl, _⟩ :=
      (setlk_backoff { options := { global_locking := true },
                       mds_setlk_sleep := fun k => if k < 8 then 11 else 0 }
        (fun _ => {}) 7 { fh := some { md := 3 } } { md := 3 } 1 9 rfl rfl).1
        (by decide) 8 (by decide) (by decide) (by decide)
    rw [hr, Option.map_some', hreply, hsl]
    rfl
  · obtain ⟨r, hr, hreply, hsl, _⟩ :=
      (setlk_backoff { options := { global_locking := true },
                       mds_setlk_sleep := fun k => if k < 8 then 11 else 0 }
        (fun _ => {}) 7 { fh := some { md := 3 } } { md := 3 } 0 1 rfl rfl).2
        rfl (by decide)
    rw [hr, Option.map_some', hreply, hsl]
    rfl

/-! ## `lookup`: the negative entry -/

/-- C17: when the name resolves to a record that is not live (id 0 or deleted) and
carries no error code: with a non-zero negative-cache timeout `lookup` replies an entry
with inode 0 whose attribute and entry timeouts are both that timeout; with a zero
timeout and a deleted record it replies `ENOENT`. -/
theorem lookup_negative (env : Env) (st : Store) (parent : Nat) (name : String)
    (hdead : (st (env.mds_lookup parent name)).id = 0 ∨
      (st (env.mds_lookup parent name)).deleted = true)
    (herr : (st (env.mds_lookup parent name)).err = 0) :
    (env.options.md_kernelcache_enoent_timeout.nonzero = true →
      (lookup env st parent name).reply =
        Reply.entry { ino := 0,
                      attr_timeout := env.options.md_kernelcache_enoent_timeout,
                      entry_timeout := env.options.md_kernelcache_enoent_timeout }) ∧
    (env.options.md_kernelcache_enoent_timeout.nonzero = false →
      (st (env.mds_lookup parent name)).deleted = true →
      (lookup env st parent name).reply = Reply.err ENOENT) := by
  have hnot : ¬ ((st (env.mds_lookup parent name)).id ≠ 0 ∧
      (st (env.mds_lookup parent name)).deleted = false) := by
    rintro ⟨h1, h2⟩
    rcases hdead with h | h
    · exact h1 h
    · rw [h2] at h
      cases h
  constructor
  · intro ht
    unfold lookup
    rw [if_neg hnot]
    simp only [herr, ne_eq, not_true_eq_false, if_false, ht, if_true]
  · intro ht hdel
    unfold lookup
    rw [if_neg hnot]
    simp only [herr, ne_eq, not_true_eq_false, if_false, ht, hdel, if_true,
      Bool.false_eq_true]

/-- C17 (witness): a deleted record, once with a timeout of one second (the `double`
1.0) and once with the timeout 0. -/
theorem lookup_negative_witness :
    (lookup { options := { md_kernelcache_enoent_timeout := ⟨4607182418800017408⟩ } }
      (fun _ => { id := 5, deleted := true }) 1 "f").reply =
      Reply.entry { ino := 0, attr_timeout := ⟨4607182418800017408⟩,
                    entry_timeout := ⟨4607182418800017408⟩ } ∧
    (lookup {} (fun _ => { id := 5, deleted := true }) 1 "f").reply = Reply.err ENOENT :=
  ⟨(lookup_negative { options := { md_kernelcache_enoent_timeout := ⟨4607182418800017408⟩ } }
      (fun _ => { id := 5, deleted := true }) 1 "f" (Or.inr rfl) rfl).1 (by decide),
   (lookup_negative {} (fun _ => { id := 5, deleted := true }) 1 "f" (Or.inr rfl) rfl).2
      (by decide) rfl⟩

/-! ## `lookup`, `readlink` -/

/-- C18 (the code at the failing input): the name resolves to the live record with id
5 that carries the error code 13.  `lookup` replies the error 13 and has raised the
lookup count of the record from 0 to 1. -/
theorem lookup_error_after_increment :
    (lookup {} (fun _ => { id := 5, err := 13 }) 1 "f").reply = Reply.err 13 ∧
    ((lookup {} (fun _ => { id := 5, err := 13 }) 1 "f").store 0).lookup_cnt = 1 := by
  decide

/-- C19 (the code at the failing input): `readlink` on the live regular file with mode
`S_IFREG | 0644` replies success with the (empty) target field of the record, because
`S_IFREG & S_IFLNK` is non-zero; on the live directory with mode `S_IFDIR | 0755` the
code sets `rc = EINVAL` but replies `errno`, here 0. -/
theorem readlink_of_regular_file :
    S_IFREG &&& S_IFLNK ≠ 0 ∧
    (readlink {} (fun _ => { id := 5, mode := S_IFREG ||| 0o644 }) 5).reply =
      Reply.readlink "" ∧
    (readlink {} (fun _ => { id := 5, mode := S_IFDIR ||| 0o755 }) 5).reply =
      Reply.err 0 := by
  decide

/-! ## `rmdir` -/

/-- C20 (the code at the failing input): the name resolves to the live record with id 5
whose mode is `S_IFSOCK | 0755` (a socket, no children).  Its file type is not
directory, but the `S_IFDIR` bit of the mode is set, so `rmdir` does not reply
`ENOTDIR`: it calls `mds.remove` and replies 0. -/
theorem rmdir_of_socket :
    S_ISDIR 0o140755 = false ∧
    (rmdir {} (fun _ => { id := 5, mode := 0o140755 }) 1 "d").reply = Reply.err 0 ∧
    removeCalls (rmdir {} (fun _ => { id := 5, mode := 0o140755 }) 1 "d").trace =
      [Event.mds_remove 0 0 "" none] := by
  decide

/-- The checks of `rmdir` as the code makes them.  Under a parent capability without
error and for a name other than "." of at most 1024 bytes, `rmdir` replies `ENOENT`
when the name does not resolve to a live record, otherwise `ENOTDIR` when the `S_IFDIR`
bit of the mode is clear, otherwise `ENOTEMPTY` when the record has a local child or a
non-zero child count, and makes no call of `mds.remove` in these three cases; otherwise
it calls `mds.remove` exactly once and replies 0. -/
theorem rmdir_checks (env : Env) (st : Store) (parent : Nat) (name : String)
    (hcap : (env.caps_acquire parent (S_IFDIR ||| X_OK ||| env.D_OK)).errc = 0)
    (hdot : name ≠ ".") (hlen : name.utf8ByteSize ≤ 1024) :
    (((st (env.mds_lookup parent name)).id = 0 ∨
        (st (env.mds_lookup parent name)).deleted = true) →
      (rmdir env st parent name).reply = Reply.err ENOENT ∧
      removeCalls (rmdir env st parent name).trace = []) ∧
    (¬ ((st (env.mds_lookup parent name)).id = 0 ∨
        (st (env.mds_lookup parent name)).deleted = true) →
      ((st (env.mds_lookup parent name)).mode &&& S_IFDIR = 0 →
        (rmdir env st parent name).reply = Reply.err ENOTDIR ∧
        removeCalls (rmdir env st parent name).trace = []) ∧
      ((st (env.mds_lookup parent name)).mode &&& S_IFDIR ≠ 0 →
        (((st (env.mds_lookup parent name)).local_children ≠ 0 ∨
            (st (env.mds_lookup parent name)).nchildren ≠ 0) →
          (rmdir env st parent name).reply = Reply.err ENOTEMPTY ∧
          removeCalls (rmdir env st parent name).trace = []) ∧
        (¬ ((st (env.mds_lookup parent name)).local_children ≠ 0 ∨
            (st (env.mds_lookup parent name)).nchildren ≠ 0) →
          (rmdir env st parent name).reply = Reply.err 0 ∧
          removeCalls (rmdir env st parent name).trace =
            [Event.mds_remove
              (env.mds_get parent
                (env.caps_acquire parent (S_IFDIR ||| X_OK ||| env.D_OK)).authid)
              (env.mds_lookup parent name)
              (env.caps_acquire parent (S_IFDIR ||| X_OK ||| env.D_OK)).authid none]))) := by
  have hlen2 : ¬ name.utf8ByteSize > 1024 := by omega
  refine ⟨fun hdead => ?_, fun hlive => ⟨fun hnd => ?_, fun hd => ⟨fun hch => ?_, fun hnc => ?_⟩⟩⟩
  · simp [rmdir, hcap, hdot, hlen2, hdead, removeCalls]
  · simp [rmdir, hcap, hdot, hlen2, hlive, hnd, removeCalls]
  · simp [rmdir, hcap, hdot, hlen2, hlive, hd, hch, removeCalls]
  · simp only [rmdir, hcap, hdot, hlen2, hlive, hd, hnc, if_false, ne_eq, not_true_eq_false,
      not_false_eq_true, if_true, removeCalls, true_and]
    split_ifs <;> simp

/-- An instance of `rmdir_checks`: the regular file with mode `S_IFREG | 0644` is
refused with `ENOTDIR`; the empty directory with mode `S_IFDIR | 0755` is removed with
one call of `mds.remove`. -/
theorem rmdir_checks_witness :
    (rmdir {} (fun _ => { id := 5, mode := S_IFREG ||| 0o644 }) 1 "f").reply =
      Reply.err ENOTDIR ∧
    removeCalls (rmdir {} (fun _ => { id := 5, mode := S_IFDIR ||| 0o755 }) 1 "d").trace =
      [Event.mds_remove 0 0 "" none] :=
  ⟨(((rmdir_checks {} (fun _ => { id := 5, mode := S_IFREG ||| 0o644 }) 1 "f" rfl
      (by decide) (by decide)).2 (by decide)).1 (by decide)).1,
   ((((rmdir_checks {} (fun _ => { id := 5, mode := S_IFDIR ||| 0o755 }) 1 "d" rfl
      (by decide) (by decide)).2 (by decide)).2 (by decide)).2 (by decide)).2⟩

/-! ## Decimal digits -/

/-- The digits produced so far are carried along untouched. -/
theorem toDigitsCore_acc (b : Nat) : ∀ (fuel n : Nat) (ds : List Char),
    Nat.toDigitsCore b fuel n ds = Nat.toDigitsCore b fuel n [] ++ ds := by
  intro fuel
  induction fuel with
  | zero => intro n ds; simp [Nat.toDigitsCore]
  | succ f ih =>
    intro n ds
    simp only [Nat.toDigitsCore]
    split_ifs
    · simp
    · rw [ih (n / b) (Nat.digitChar (n % b) :: ds), ih (n / b) [Nat.digitChar (n % b)]]
      simp

/-- Fuel beyond the number itself does not change the digits. -/
theorem toDigitsCore_fuel (b : Nat) (hb : 2 ≤ b) : ∀ (fuel n : Nat), n < fuel →
    Nat.toDigitsCore b fuel n [] = Nat.toDigitsCore b (n + 1) n [] := by
  intro fuel
  induction fuel using Nat.strong_induction_on with
  | _ fuel ih =>
    intro n h
    cases fuel with
    | zero => omega
    | succ f =>
      rw [Nat.toDigitsCore, Nat.toDigitsCore]
      by_cases h0 : n / b = 0
      · simp only [h0, if_true]
      · have hpos : 0 < n := by
          rcases Nat.eq_zero_or_pos n with h1 | h1
          · subst h1
            simp at h0
          · exact h1
        have hlt : n / b < n := Nat.div_lt_self hpos hb
        simp only [h0, if_false]
        rw [toDigitsCore_acc b f, toDigitsCore_acc b n, ih f (by omega) (n / b) (by omega),
          ih n (by omega) (n / b) hlt]

/-- The digits of a number below the base. -/
theorem toDigits_small (b n : Nat) (h : n < b) : Nat.toDigits b n = [Nat.digitChar n] := by
  unfold Nat.toDigits
  have h0 : n / b = 0 := Nat.div_eq_of_lt h
  simp [Nat.toDigitsCore, h0, Nat.mod_eq_of_lt h]

/-- The digits of a number that is at least the base: those of the quotient, then the
last digit. -/
theorem toDigits_step (b n : Nat) (hb : 2 ≤ b) (h : b ≤ n) :
    Nat.toDigits b n = Nat.toDigits b (n / b) ++ [Nat.digitChar (n % b)] := by
  unfold Nat.toDigits
  have h0 : n / b ≠ 0 := by
    have : 0 < n / b := Nat.div_pos h (by omega)
    omega
  have hlt : n / b < n := Nat.div_lt_self (by omega) hb
  rw [Nat.toDigitsCore]
  simp only [h0, if_false]
  rw [toDigitsCore_acc b n, toDigitsCore_fuel b hb n (n / b) hlt]

/-- The character of a decimal digit. -/
theorem digitChar_toNat (d : Nat) (h : d < 10) : (Nat.digitChar d).toNat = 48 + d := by
  interval_cases d <;> rfl

/-- The character of a decimal digit is a digit. -/
theorem digitChar_isDigit (d : Nat) (h : d < 10) : (Nat.digitChar d).isDigit = true := by
  interval_cases d <;> rfl

/-- A digit is the character of its value. -/
theorem digitChar_of_isDigit (c : Char) (h : c.isDigit = true) :
    Nat.digitChar (c.toNat - 48) = c := by
  have hc : c = Char.ofNat c.toNat := (Char.ofNat_toNat c).symm
  simp only [Char.isDigit, Bool.and_eq_true, decide_eq_true_eq] at h
  have h1 : 48 ≤ c.toNat := h.1
  have h2 : c.toNat ≤ 57 := h.2
  generalize c.toNat = k at hc h1 h2
  subst hc
  interval_cases k <;> rfl

/-- Reading one more digit. -/
theorem digitsValue_append (l : List Char) (c : Char) :
    digitsValue (l ++ [c]) = 10 * digitsValue l + (c.toNat - 48) := by
  simp [digitsValue, List.foldl_append]

/-- Reading the decimal digits of a number gives the number back. -/
theorem digitsValue_toDigits (n : Nat) : digitsValue (Nat.toDigits 10 n) = n := by
  induction n using Nat.strong_induction_on with
  | _ n ih =>
    by_cases h : n < 10
    · rw [toDigits_small 10 n h]
      simp [digitsValue, digitChar_toNat n h]
    · rw [toDigits_step 10 n (by decide) (by omega), digitsValue_append,
        ih (n / 10) (by omega), digitChar_toNat (n % 10) (by omega)]
      omega

/-- The decimal digits of a number are digits. -/
theorem toDigits_isDigit (n : Nat) : ∀ c ∈ Nat.toDigits 10 n, c.isDigit = true := by
  induction n using Nat.strong_induction_on with
  | _ n ih =>
    intro c hc
    by_cases h : n < 10
    · rw [toDigits_small 10 n h] at hc
      simp only [List.mem_singleton] at hc
      subst hc
      exact digitChar_isDigit n h
    · rw [toDigits_step 10 n (by decide) (by omega)] at hc
      rcases List.mem_append.1 hc with h1 | h1
      · exact ih (n / 10) (by omega) c h1
      · simp only [List.mem_singleton] at h1
        subst h1
        exact digitChar_isDigit _ (by omega)

/-- A number has at least one decimal digit. -/
theorem toDigits_ne_nil (n : Nat) : Nat.toDigits 10 n ≠ [] := by
  by_cases h : n < 10
  · rw [toDigits_small 10 n h]
    simp
  · rw [toDigits_step 10 n (by decide) (by omega)]
    simp

/-- The decimal digits of a positive number do not start with a zero. -/
theorem toDigits_head (n : Nat) (hn : 0 < n) : (Nat.toDigits 10 n).head? ≠ some '0' := by
  induction n using Nat.strong_induction_on with
  | _ n ih =>
    by_cases h : n < 10
    · rw [toDigits_small 10 n h]
      interval_cases n <;> decide
    · rw [toDigits_step 10 n (by decide) (by omega)]
      have hq := ih (n / 10) (by omega) (by omega)
      cases hd : Nat.toDigits 10 (n / 10) with
      | nil => exact absurd hd (toDigits_ne_nil _)
      | cons a rest =>
        rw [hd] at hq
        simpa using hq

/-- A run of digits without a leading zero (other than "0" itself) is the decimal
representation of its value. -/
theorem toDigits_digitsValue (ds : List Char) (hne : ds ≠ [])
    (hd : ∀ c ∈ ds, c.isDigit = true) (hz : ds.head? = some '0' → ds = ['0']) :
    Nat.toDigits 10 (digitsValue ds) = ds := by
  induction ds using List.reverseRecOn with
  | nil => exact absurd rfl hne
  | append_singleton init c ih =>
    have hc : c.isDigit = true := hd c (by simp)
    have hcv : c.toNat - 48 < 10 := by
      simp only [Char.isDigit, Bool.and_eq_true, decide_eq_true_eq] at hc
      have h2 : c.toNat ≤ 57 := hc.2
      omega
    rw [digitsValue_append]
    by_cases hi : init = []
    · subst hi
      simp only [digitsValue, List.foldl_nil, Nat.mul_zero, Nat.zero_add, List.nil_append]
      rw [toDigits_small 10 _ hcv, digitChar_of_isDigit c hc]
    · have hinit : Nat.toDigits 10 (digitsValue init) = init := by
        apply ih hi (fun x hx => hd x (by simp [hx]))
        intro h0
        have : (init ++ [c]).head? = some '0' := by
          cases init with
          | nil => exact absurd rfl hi
          | cons a rest => simpa using h0
        have h1 := hz this
        cases init with
        | nil => exact absurd rfl hi
        | cons a rest =>
          cases rest <;> simp at h1
      have hpos : 0 < digitsValue init := by
        rcases Nat.eq_zero_or_pos (digitsValue init) with h0 | h0
        · rw [h0, toDigits_small 10 0 (by decide)] at hinit
          have : (init ++ [c]).head? = some '0' := by
            rw [← hinit]
            rfl
          have h1 := hz this
          rw [← hinit] at h1
          simp at h1
        · exact h0
      rw [toDigits_step 10 _ (by decide) (by omega)]
      have hq : (10 * digitsValue init + (c.toNat - 48)) / 10 = digitsValue init := by omega
      have hr : (10 * digitsValue init + (c.toNat - 48)) % 10 = c.toNat - 48 := by omega
      rw [hq, hr, hinit, digitChar_of_isDigit c hc]

/-! ## `unlink`: the quota calls -/

/-- A write that keeps the size of the record written keeps the size found under every
pointer. -/
theorem set_keeps_size (st : Store) (h k : Handle) (m : Md) (hm : m.size = (st h).size) :
    (st.set h m k).size = (st k).size := by
  unfold Store.set
  by_cases hk : k = h
  · rw [if_pos hk, hm, hk]
  · rw [if_neg hk]

/-- The two writes of the link counting on the record `t` keep every size. -/
theorem count_writes_size (st : Store) (t : Handle) (c : Prop) [Decidable c] (a : AttrMap)
    (n : Int) (k : Handle) :
    (((if c then st.set t { st t with attr := a } else st).set t
      { (if c then st.set t { st t with attr := a } else st) t with nlink := n }) k).size =
      (st k).size := by
  refine (set_keeps_size _ t k _ ?_).trans ?_
  · rfl
  · by_cases hc : c
    · rw [if_pos hc]
      exact set_keeps_size st t k _ rfl
    · rw [if_neg hc]

/-- The link counting returns the link count read from the counted record and does not
write the size of any record. -/
theorem unlinkCount_read (st : Store) (md : Handle) (tmd0 : Option Handle) (n : Int)
    (tmd : Option Handle) (st1 : Store) (h : unlinkCount st md tmd0 = some (n, tmd, st1)) :
    nlinkRead st (tmd0.getD md) = some n ∧ ∀ k, (st1 k).size = (st k).size := by
  unfold unlinkCount at h
  unfold nlinkRead
  cases tmd0 with
  | some t =>
    simp only [Option.getD_some] at h ⊢
    by_cases hc : attrCount (st t).attr k_nlink ≠ 0
    · rw [if_pos hc] at h ⊢
      cases hs : stol (attrGet (st t).attr k_nlink) with
      | none => rw [hs] at h; cases h
      | some v =>
        rw [hs] at h
        simp only [Option.some.injEq, Prod.mk.injEq] at h
        obtain ⟨h1, _, h3⟩ := h
        refine ⟨congrArg some h1, fun k => ?_⟩
        rw [← h3]
        exact count_writes_size st t _ _ _ k
    · rw [if_neg hc] at h ⊢
      simp only [Option.some.injEq, Prod.mk.injEq] at h
      obtain ⟨h1, _, h3⟩ := h
      exact ⟨congrArg some h1, fun k => by rw [h3]⟩
  | none =>
    simp only [Option.getD_none] at h ⊢
    by_cases hc : attrCount (st md).attr k_nlink ≠ 0
    · rw [if_pos hc] at h ⊢
      cases hs : stol (attrGet (st md).attr k_nlink) with
      | none => rw [hs] at h; cases h
      | some v =>
        rw [hs] at h
        simp only [Option.some.injEq, Prod.mk.injEq] at h
        obtain ⟨h1, _, h3⟩ := h
        refine ⟨congrArg some h1, fun k => ?_⟩
        rw [← h3]
        by_cases hz : toI32 v ≠ 0
        · rw [if_pos hz]
          exact count_writes_size st md _ _ _ k
        · rw [if_neg hz]
          have hz2 : ¬ toI32 v > 0 := by
            have : toI32 v = 0 := by simpa using hz
            omega
          rw [if_neg hz2]
    · rw [if_neg hc] at h ⊢
      simp only [Option.some.injEq, Prod.mk.injEq] at h
      obtain ⟨h1, _, h3⟩ := h
      exact ⟨congrArg some h1, fun k => by rw [h3]⟩

/-- The removal step makes no quota call. -/
theorem unlinkRemove_quota (st : Store) (pcap : Cap) (md pmd : Handle) (tmd : Option Handle) :
    freeCalls (unlinkRemove st pcap md pmd tmd) = [] ∧
    freeInodeCalls (unlinkRemove st pcap md pmd tmd) = [] := by
  unfold unlinkRemove
  split_ifs
  · cases tmd with
    | none => exact ⟨rfl, rfl⟩
    | some t =>
      simp only []
      split_ifs <;> exact ⟨rfl, rfl⟩
  · exact ⟨rfl, rfl⟩

/-- The quota calls of the body of `unlink`: after the calls of the trace so far,
one `free_volume` with the size of the entry when the link count read is not positive
and with 0 otherwise, and one `free_inode`. -/
theorem unlinkBody_quota (env : Env) (st : Store) (parent : Nat) (pcap : Cap) (md : Handle)
    (tr : List Event) (r : Result) (h : unlinkBody env st parent pcap md tr = some r) :
    ∃ t n, unlinkCounted env st pcap md = some t ∧ nlinkRead st t = some n ∧
      freeCalls r.trace = freeCalls tr ++
        [Event.caps_free_volume pcap (if n ≤ 0 then ((st md).size : Int) else 0)] ∧
      freeInodeCalls r.trace = freeInodeCalls tr ++ [Event.caps_free_inode pcap] := by
  simp only [unlinkBody] at h
  unfold unlinkCounted
  by_cases hmd : attrCount (st md).attr k_mdino ≠ 0
  · rw [if_pos hmd] at h ⊢
    cases hs : stoll (attrGet (st md).attr k_mdino) with
    | none =>
      rw [hs] at h
      cases h
    | some v =>
      rw [hs] at h
      simp only [] at h
      cases hcnt : unlinkCount st md (some (env.mds_get (env.vmaps_forward (toU64 v)) pcap.authid)) with
      | none =>
        rw [hcnt] at h
        cases h
      | some res =>
        obtain ⟨n, tmd, st1⟩ := res
        rw [hcnt] at h
        simp only [Option.some.injEq] at h
        obtain ⟨hn, hsize⟩ := unlinkCount_read st md _ n tmd st1 hcnt
        refine ⟨_, n, rfl, hn, ?_, ?_⟩
        · rw [← h]
          have := (unlinkRemove_quota st1 pcap md (env.mds_get parent pcap.authid) tmd).1
          unfold freeCalls at this ⊢
          simp only [List.filter_append, this, hsize md]
          split_ifs <;> simp
        · rw [← h]
          have := (unlinkRemove_quota st1 pcap md (env.mds_get parent pcap.authid) tmd).2
          unfold freeInodeCalls at this ⊢
          simp only [List.filter_append, this]
          split_ifs <;> simp
  · rw [if_neg hmd] at h ⊢
    simp only [] at h
    cases hcnt : unlinkCount st md none with
    | none =>
      rw [hcnt] at h
      cases h
    | some res =>
      obtain ⟨n, tmd, st1⟩ := res
      rw [hcnt] at h
      simp only [Option.some.injEq] at h
      obtain ⟨hn, hsize⟩ := unlinkCount_read st md _ n tmd st1 hcnt
      refine ⟨_, n, rfl, hn, ?_, ?_⟩
      · rw [← h]
        have := (unlinkRemove_quota st1 pcap md (env.mds_get parent pcap.authid) tmd).1
        unfold freeCalls at this ⊢
        simp only [List.filter_append, this, hsize md]
        split_ifs <;> simp
      · rw [← h]
        have := (unlinkRemove_quota st1 pcap md (env.mds_get parent pcap.authid) tmd).2
        unfold freeInodeCalls at this ⊢
        simp only [List.filter_append, this]
        split_ifs <;> simp

/-- The body of `unlink` replies 0 when it returns. -/
theorem unlinkBody_reply (env : Env) (st : Store) (parent : Nat) (pcap : Cap) (md : Handle)
    (tr : List Event) (r : Result) (h : unlinkBody env st parent pcap md tr = some r) :
    r.reply = Reply.err 0 := by
  simp only [unlinkBody] at h
  split at h
  · cases h
  · split at h
    · cases h
    · simp only [Option.some.injEq] at h
      rw [← h]

/-- C22: for every `unlink` that returns with reply 0 the trace holds exactly one
`free_inode` on the parent capability and exactly one `free_volume`, whose byte count
is the size of the unlinked record when the link count read from `sys.eos.nlink` (of the
hard-link target when the entry carries `sys.eos.mdino`, else of the entry itself; 0
when the attribute is absent; read as the `int` the code stores it in) is not positive,
and 0 otherwise.  When `unlink` replies an error, neither call is made. -/
theorem unlink_frees (env : Env) (st : Store) (parent : Nat) (name : String) (r : Result)
    (hres : unlink env st parent name = some r) :
    (r.reply = Reply.err 0 →
      ∃ t n,
        unlinkCounted env st (env.caps_acquire parent (S_IFDIR ||| X_OK ||| env.D_OK))
          (env.mds_lookup parent name) = some t ∧
        nlinkRead st t = some n ∧
        freeCalls r.trace =
          [Event.caps_free_volume (env.caps_acquire parent (S_IFDIR ||| X_OK ||| env.D_OK))
            (if n ≤ 0 then ((st (env.mds_lookup parent name)).size : Int) else 0)] ∧
        freeInodeCalls r.trace =
          [Event.caps_free_inode (env.caps_acquire parent (S_IFDIR ||| X_OK ||| env.D_OK))]) ∧
    (r.reply ≠ Reply.err 0 → freeCalls r.trace = [] ∧ freeInodeCalls r.trace = []) := by
  constructor
  · intro hok
    obtain ⟨t, n, ht, hn, hf, hi⟩ := unlinkBody_quota env st parent _ _ _ r
      (unlink_success env st parent name r hres hok)
    refine ⟨t, n, ht, hn, ?_, ?_⟩
    · rw [hf]
      unfold freeCalls
      split_ifs <;> rfl
    · rw [hi]
      unfold freeInodeCalls
      split_ifs <;> rfl
  · intro hne
    simp only [unlink] at hres
    split_ifs at hres with h1 h2 h3 h4 h5 h6 h7 h8
    all_goals first
      | exact absurd (unlinkBody_reply _ _ _ _ _ _ _ hres) hne
      | (simp only [Option.some.injEq] at hres
         subst hres
         exact ⟨rfl, rfl⟩)

/-- C22 (witness): the unlink of a plain file of 100 bytes (no `sys.eos.nlink`) frees
100 bytes and one inode. -/
theorem unlink_frees_witness :
    Option.map (fun r => (freeCalls r.trace, freeInodeCalls r.trace))
      (unlink { mds_lookup := fun _ _ => 1 }
        (fun h => if h = 1 then { id := 5, md_ino := 255, mode := S_IFREG, size := 100 }
          else { id := 1, mode := S_IFDIR })
        1 "f") =
      some ([Event.caps_free_volume {} 100], [Event.caps_free_inode {}]) := by
  have hsome : (unlink { mds_lookup := fun _ _ => 1 }
        (fun h => if h = 1 then { id := 5, md_ino := 255, mode := S_IFREG, size := 100 }
          else { id := 1, mode := S_IFDIR })
        1 "f").isSome = true := by decide
  obtain ⟨r, hr⟩ := Option.isSome_iff_exists.mp hsome
  have hreply : Option.map (fun x => x.reply) (unlink { mds_lookup := fun _ _ => 1 }
        (fun h => if h = 1 then { id := 5, md_ino := 255, mode := S_IFREG, size := 100 }
          else { id := 1, mode := S_IFDIR })
        1 "f") = some (Reply.err 0) := by decide
  rw [hr] at hreply
  have hok : r.reply = Reply.err 0 := by simpa using hreply
  obtain ⟨t, n, ht, hn, hf, hi⟩ := (unlink_frees { mds_lookup := fun _ _ => 1 }
    (fun h => if h = 1 then { id := 5, md_ino := 255, mode := S_IFREG, size := 100 }
      else { id := 1, mode := S_IFDIR })
    1 "f" r hr).1 hok
  have ht1 : t = 1 := by
    have h1 : unlinkCounted { mds_lookup := fun _ _ => 1 }
        (fun h => if h = 1 then { id := 5, md_ino := 255, mode := S_IFREG, size := 100 }
          else { id := 1, mode := S_IFDIR }) {} 1 = some 1 := by decide
    exact (Option.some.inj (h1.symm.trans ht)).symm
  subst ht1
  have hn0 : n = 0 := by
    have h2 : nlinkRead
        (fun h => if h = 1 then { id := 5, md_ino := 255, mode := S_IFREG, size := 100 }
          else { id := 1, mode := S_IFDIR }) 1 = some 0 := by decide
    exact (Option.some.inj (h2.symm.trans hn)).symm
  subst hn0
  rw [hr, Option.map_some', hf, hi]
  rfl

/-! ## `link` -/

/-- C21 (the code at the failing input): a hard link "g" to the file with id 7 (its
`nlink` field 1, no `sys.eos.nlink` attribute) in its parent directory, where the
synchronous add returns 17.  `link` replies 17, but the target is left with the `nlink`
field 2 and `sys.eos.nlink = 1`, as after a successful add: there the reply is the entry
of the target and the `nlink` field goes from 1 to 2 as well. -/
theorem link_failure_raises_count :
    Option.map (fun r => (r.reply, (r.store 2).nlink, (r.store 2).attr))
      (link { mds_lookup := fun _ _ => 1, mds_get := fun i _ => if i = 7 then 2 else 3,
              mds_add_sync := fun _ _ _ => 17, mds_insert := fun _ _ => 9 }
        (fun h => if h = 2 then { id := 7, pid := 1, md_ino := 255, mode := S_IFREG, nlink := 1 }
          else if h = 3 then { id := 1, mode := S_IFDIR } else {})
        7 1 "g") = some (Reply.err 17, 2, [("sys.eos.nlink", "1")]) ∧
    Option.map (fun r => (r.reply, (r.store 2).nlink, (r.store 2).attr))
      (link { mds_lookup := fun _ _ => 1, mds_get := fun i _ => if i = 7 then 2 else 3,
              mds_insert := fun _ _ => 9 }
        (fun h => if h = 2 then { id := 7, pid := 1, md_ino := 255, mode := S_IFREG, nlink := 1 }
          else if h = 3 then { id := 1, mode := S_IFDIR } else {})
        7 1 "g") = some (Reply.entry { ino := 7 }, 2, [("sys.eos.nlink", "1")]) ∧
    Option.map (fun r => ((r.store 1).attr, (r.store 1).id, (r.store 1).target, r.trace))
      (link { mds_lookup := fun _ _ => 1, mds_get := fun i _ => if i = 7 then 2 else 3,
              mds_add_sync := fun _ _ _ => 17, mds_insert := fun _ _ => 9 }
        (fun h => if h = 2 then { id := 7, pid := 1, md_ino := 255, mode := S_IFREG, nlink := 1 }
          else if h = 3 then { id := 1, mode := S_IFDIR } else {})
        7 1 "g") =
      some ([("sys.eos.mdino", "255")], 9, "",
        [Event.monitor 1 false false, Event.caps_acquire 1 (S_IFDIR ||| W_OK),
         Event.mds_lookup 1 "g", Event.mds_get 1 "", Event.mds_get 7 "",
         Event.mds_insert 1 "", Event.mds_add_sync 3 1 ""]) :=
  ⟨by decide, by decide, by decide⟩

/-! ## `listxattr` -/

/-- C24 (the code at the failing input): the live file with id 5 carries the attributes
`user.a` and `sys.b`, whose names with their NULs take 13 bytes.  With a buffer of 100
bytes `listxattr` replies these 13 bytes and with a buffer of 5 bytes `ERANGE`, but the
size probe (`size = 0`) replies the length 0. -/
theorem listxattr_probe_replies_zero :
    (listxattr {} (fun _ => { id := 5, mode := S_IFREG, attr := [("user.a", "1"), ("sys.b", "2")] })
      5 0).reply = Reply.xattr 0 ∧
    attrlistsizeInner [("user.a", "1"), ("sys.b", "2")] = 13 ∧
    (attrlist [("user.a", "1"), ("sys.b", "2")]).utf8ByteSize = 13 ∧
    (listxattr {} (fun _ => { id := 5, mode := S_IFREG, attr := [("user.a", "1"), ("sys.b", "2")] })
      5 100).reply = Reply.buf (attrlist [("user.a", "1"), ("sys.b", "2")]) ∧
    (listxattr {} (fun _ => { id := 5, mode := S_IFREG, attr := [("user.a", "1"), ("sys.b", "2")] })
      5 5).reply = Reply.err ERANGE :=
  ⟨by decide, by decide, by decide, by decide, by decide⟩

/-! ## Shadow names and `readdir` -/

/-- The characters of a hexadecimal number take one byte each. -/
theorem hex_ascii (n : Nat) : ∀ c ∈ Nat.toDigits 16 n, c.utf8Size = 1 := by
  have hd : ∀ d, d < 16 → (Nat.digitChar d).utf8Size = 1 := by
    intro d hd
    interval_cases d <;> rfl
  induction n using Nat.strong_induction_on with
  | _ n ih =>
    intro c hc
    by_cases h : n < 16
    · rw [toDigits_small 16 n h] at hc
      simp only [List.mem_singleton] at hc
      rw [hc]
      exact hd n h
    · rw [toDigits_step 16 n (by decide) (by omega)] at hc
      rcases List.mem_append.1 hc with h1 | h1
      · exact ih (n / 16) (by omega) c h1
      · simp only [List.mem_singleton] at h1
        rw [h1]
        exact hd _ (by omega)

/-- A text of one-byte characters has as many bytes as characters. -/
theorem utf8Len_ascii (l : List Char) (h : ∀ c ∈ l, c.utf8Size = 1) :
    String.utf8Len l = l.length := by
  induction l with
  | nil => rfl
  | cons a rest ih =>
    rw [String.utf8Len_cons, ih (fun c hc => h c (by simp [hc])), h a (by simp)]
    rfl

/-- A 64-bit number has at most 16 hexadecimal digits. -/
theorem hex_length (n : Nat) (h : n < 2 ^ 64) : (Nat.toDigits 16 n).length ≤ 16 :=
  Nat.toDigitsCore_length 16 (by decide) (n + 1) n 16 (by omega) (by decide)

/-- The shadow name of a 64-bit remote inode is the prefix followed by the hexadecimal
digits, not cut by the buffer: it has at most 29 bytes.  Every shadow name starts with
the 13 characters that `readdir` tests for. -/
theorem shadowName_prefix (md_ino : Nat) :
    strncmp13 (shadowName md_ino) = true ∧
    (md_ino < 2 ^ 64 →
      shadowName md_ino = "...eos.ino..." ++ hex md_ino ∧
      (shadowName md_ino).utf8ByteSize ≤ 29) := by
  have hl : ("...eos.ino..." ++ hex md_ino).toList =
      "...eos.ino...".toList ++ Nat.toDigits 16 md_ino := rfl
  constructor
  · unfold strncmp13 shadowName snprintf256
    rw [hl]
    simp only [String.toList]
    rw [List.take_take, List.take_append_of_le_length (by decide)]
    decide
  · intro h
    have hlen := hex_length md_ino h
    have hname : shadowName md_ino = "...eos.ino..." ++ hex md_ino := by
      unfold shadowName snprintf256
      rw [hl, List.take_of_length_le]
      · rfl
      · rw [List.length_append]
        have : "...eos.ino...".toList.length = 13 := by decide
        omega
    refine ⟨hname, ?_⟩
    rw [hname]
    show String.utf8Len ("...eos.ino..." ++ hex md_ino).toList ≤ 29
    rw [hl, String.utf8Len_append, utf8Len_ascii _ (hex_ascii md_ino)]
    have : String.utf8Len "...eos.ino...".toList = 13 := by decide
    omega

/-- The entries of the reply that ends `readdir`. -/
theorem dirents_readdirReply (entries : List Dirent) (b_size : Nat) (items : List String)
    (tr : List Event) : dirents (readdirReply entries b_size items tr) = entries := rfl

/-- The loop over the children emits, besides the entries it starts with, only children
whose name does not start with the prefix of the shadow names and whose record is not
marked deleted. -/
theorem readdirChildren_listed (env : Env) (st : Store) (size : Nat)
    (all : List (String × Nat)) :
    ∀ (rest : List (String × Nat)) (off i_offset : Int) (b_size : Nat) (items : List String)
      (entries : List Dirent) (tr : List Event) (r : DirResult),
      (∀ x ∈ rest, x ∈ all) → (∀ e ∈ entries, listed env st all e) →
      readdirChildren env st size rest off i_offset b_size items entries tr = some r →
      ∀ e ∈ dirents r, listed env st all e := by
  intro rest
  induction rest with
  | nil =>
    intro off i_offset b_size items entries tr r _ hent h
    rw [readdirChildren] at h
    simp only [Option.some.injEq] at h
    rw [← h, dirents_readdirReply]
    exact hent
  | cons x rest ih =>
    obtain ⟨bname, cino⟩ := x
    intro off i_offset b_size items entries tr r hsub hent h
    have hrest : ∀ x ∈ rest, x ∈ all := fun x hx => hsub x (List.mem_cons_of_mem _ hx)
    have hmem : (bname, cino) ∈ all := hsub _ (List.mem_cons_self _ _)
    rw [readdirChildren] at h
    by_cases h1 : off > i_offset
    · rw [if_pos h1] at h
      exact ih _ _ _ _ _ _ r hrest hent h
    · rw [if_neg h1] at h
      by_cases h2 : items.contains bname = true
      · rw [if_pos h2] at h
        exact ih _ _ _ _ _ _ r hrest hent h
      · rw [if_neg h2] at h
        by_cases h3 : strncmp13 bname = true
        · rw [if_pos h3] at h
          exact ih _ _ _ _ _ _ r hrest hent h
        · rw [if_neg h3] at h
          by_cases h4 : (st (env.mds_get cino "")).deleted = true
          · rw [if_pos h4] at h
            exact ih _ _ _ _ _ _ r hrest hent h
          · rw [if_neg h4] at h
            have hgood : ∀ (ino mode : Nat) (o : Int),
                ∀ e ∈ entries ++ [{ name := bname, st_ino := ino, st_mode := mode, off := o }],
                  listed env st all e := by
              intro ino mode o e he
              rcases List.mem_append.1 he with he1 | he1
              · exact hent e he1
              · simp only [List.mem_singleton] at he1
                rw [he1]
                refine ⟨by simpa using h3, Or.inr (Or.inr ⟨cino, hmem, by simpa using h4⟩)⟩
            by_cases h5 : attrCount (st (env.mds_get cino "")).attr k_mdino ≠ 0
            · rw [if_pos h5] at h
              cases hs : stoll (attrGet (st (env.mds_get cino "")).attr k_mdino) with
              | none =>
                rw [hs] at h
                cases h
              | some v =>
                rw [hs] at h
                simp only [] at h
                by_cases h6 : env.direntry_size bname > size - b_size
                · rw [if_pos h6] at h
                  simp only [Option.some.injEq] at h
                  rw [← h, dirents_readdirReply]
                  exact hent
                · rw [if_neg h6] at h
                  exact ih _ _ _ _ _ _ r hrest (hgood _ _ _) h
            · rw [if_neg h5] at h
              by_cases h6 : env.direntry_size bname > size - b_size
              · rw [if_pos h6] at h
                simp only [Option.some.injEq] at h
                rw [← h, dirents_readdirReply]
                exact hent
              · rw [if_neg h6] at h
                exact ih _ _ _ _ _ _ r hrest (hgood _ _ _) h

/-- The entries "." and ".." do not start with the prefix of the shadow names. -/
theorem listed_dots (env : Env) (st : Store) (all : List (String × Nat)) (ino mode : Nat)
    (o : Int) :
    listed env st all { name := ".", st_ino := ino, st_mode := mode, off := o } ∧
    listed env st all { name := "..", st_ino := ino, st_mode := mode, off := o } :=
  ⟨⟨show strncmp13 "." = false by decide, Or.inl rfl⟩,
    ⟨show strncmp13 ".." = false by decide, Or.inr (Or.inl rfl)⟩⟩

/-- The part of `readdir` after the refresh emits only "." and ".." and children that
are not hidden. -/
theorem readdirList_listed (env : Env) (st : Store) (size : Nat) (off : Int) (dir : OpenDir)
    (pmd : Handle) (tr : List Event) (r : DirResult)
    (h : readdirList env st size off dir pmd tr = some r) :
    ∀ e ∈ dirents r, listed env st (st pmd).local_children_map e := by
  unfold readdirList at h
  split_ifs at h
  · exact readdirChildren_listed env st size _ _ _ _ _ _ _ _ r (fun x hx => hx)
      (by
        intro e he
        simp only [List.mem_cons, List.mem_singleton, List.not_mem_nil, or_false] at he
        rcases he with he | he <;> rw [he]
        · exact (listed_dots env st _ _ _ _).1
        · exact (listed_dots env st _ _ _ _).2) h
  · exact readdirChildren_listed env st size _ _ _ _ _ _ _ _ r (fun x hx => hx)
      (by
        intro e he
        simp only [List.mem_singleton] at he
        rw [he]
        exact (listed_dots env st _ _ _ _).1) h
  · exact readdirChildren_listed env st size _ _ _ _ _ _ _ _ r (fun x hx => hx)
      (by intro e he; cases he) h

/-- The refresh loop ends in `readdirList` for the record it started with or for the one
that `listdir` fetched. -/
theorem readdirRefresh_listed (env : Env) (st : Store) (ino size : Nat) (off : Int)
    (dir : OpenDir) : ∀ (fuel : Nat) (pmd : Handle) (tr : List Event) (r : DirResult),
    readdirRefresh env st ino size off dir fuel pmd tr = some r →
    ∃ p, (p = pmd ∨
        p = env.mds_get ino (env.caps_acquire ino (S_IFDIR ||| X_OK ||| R_OK)).authid) ∧
      ∀ e ∈ dirents r, listed env st (st p).local_children_map e := by
  intro fuel
  induction fuel with
  | zero =>
    intro pmd tr r h
    rw [readdirRefresh] at h
    cases h
  | succ f ih =>
    intro pmd tr r h
    rw [readdirRefresh] at h
    split_ifs at h
    · exact ⟨pmd, Or.inl rfl, readdirList_listed env st size off dir pmd _ r h⟩
    · exact ⟨pmd, Or.inl rfl, readdirList_listed env st size off dir pmd _ r h⟩
    · obtain ⟨p, hp, hl⟩ := ih _ _ r h
      exact ⟨p, Or.inr (hp.elim id id), hl⟩

/-- C25: the shadow name that `unlink` generates for a 64-bit remote inode is the prefix
"...eos.ino..." followed by the hexadecimal inode, fits the buffer of 256 bytes, and
starts with the 13 characters that `readdir` tests for; and every entry that `readdir`
emits has a name without that prefix (so no shadow name), and is ".", ".." or a child
of the listed record whose own record is not marked deleted. -/
theorem shadow_names_hidden (env : Env) (st : Store) (ino size : Nat) (off : Int)
    (fh : Option OpenDir) (fuel : Nat) (md_ino : Nat) (r : DirResult)
    (h64 : md_ino < 2 ^ 64)
    (h : readdir env st ino size off fh fuel = some r) :
    shadowName md_ino = "...eos.ino..." ++ hex md_ino ∧
    (shadowName md_ino).utf8ByteSize < 256 ∧
    strncmp13 (shadowName md_ino) = true ∧
    ∀ e ∈ dirents r, strncmp13 e.name = false ∧ e.name ≠ shadowName md_ino ∧
      (e.name = "." ∨ e.name = ".." ∨
        ∃ p cino, (fh.map (fun d => d.md) = some p ∨
            p = env.mds_get ino (env.caps_acquire ino (S_IFDIR ||| X_OK ||| R_OK)).authid) ∧
          (e.name, cino) ∈ (st p).local_children_map ∧
          (st (env.mds_get cino "")).deleted = false) := by
  obtain ⟨hpre, hfit⟩ := shadowName_prefix md_ino
  obtain ⟨hname, hlen⟩ := hfit h64
  refine ⟨hname, by omega, hpre, ?_⟩
  intro e he
  cases fh with
  | none =>
    simp only [readdir, Option.some.injEq] at h
    rw [← h] at he
    cases he
  | some dir =>
    simp only [readdir] at h
    obtain ⟨p, hp, hl⟩ := readdirRefresh_listed env st ino size off dir fuel dir.md [] r h
    obtain ⟨h1, h2⟩ := hl e he
    refine ⟨h1, ?_, ?_⟩
    · intro heq
      rw [heq, hpre] at h1
      cases h1
    · rcases h2 with h2 | h2 | ⟨cino, hc, hd⟩
      · exact Or.inl h2
      · exact Or.inr (Or.inl h2)
      · refine Or.inr (Or.inr ⟨p, cino, ?_, hc, hd⟩)
        rcases hp with hp | hp
        · exact Or.inl (by rw [hp]; rfl)
        · exact Or.inr hp

/-- C25 (witness): a directory that holds a shadow name, the file "a" and the deleted
file "b" is listed as "." and "a"; the shadow name of inode 255 is "...eos.ino...ff". -/
theorem shadow_names_hidden_witness :
    Option.map (fun r => (dirents r).map (fun e => e.name))
      (readdir { mds_get := fun i _ => i }
        (fun h => if h = 2 then { id := 2, pid := 1, mode := S_IFDIR, type := MdType.MDLS,
                                  local_children_map :=
                                    [("...eos.ino...ff", 9), ("a", 5), ("b", 6)] }
          else if h = 6 then { id := 6, deleted := true } else {})
        2 4096 0 (some { md := 2 }) 1) = some [".", "a"] ∧
    shadowName 255 = "...eos.ino...ff" ∧
    Option.map (fun r => (dirents r).all
        (fun e => !strncmp13 e.name && decide (e.name ≠ shadowName 255)))
      (readdir { mds_get := fun i _ => i }
        (fun h => if h = 2 then { id := 2, pid := 1, mode := S_IFDIR, type := MdType.MDLS,
                                  local_children_map :=
                                    [("...eos.ino...ff", 9), ("a", 5), ("b", 6)] }
          else if h = 6 then { id := 6, deleted := true } else {})
        2 4096 0 (some { md := 2 }) 1) = some true := by
  have hsome : (readdir { mds_get := fun i _ => i }
        (fun h => if h = 2 then { id := 2, pid := 1, mode := S_IFDIR, type := MdType.MDLS,
                                  local_children_map :=
                                    [("...eos.ino...ff", 9), ("a", 5), ("b", 6)] }
          else if h = 6 then { id := 6, deleted := true } else {})
        2 4096 0 (some { md := 2 }) 1).isSome = true := by decide
  obtain ⟨r, hr⟩ := Option.isSome_iff_exists.mp hsome
  obtain ⟨hname, _, _, hall⟩ := shadow_names_hidden { mds_get := fun i _ => i }
    (fun h => if h = 2 then { id := 2, pid := 1, mode := S_IFDIR, type := MdType.MDLS,
                              local_children_map :=
                                [("...eos.ino...ff", 9), ("a", 5), ("b", 6)] }
      else if h = 6 then { id := 6, deleted := true } else {})
    2 4096 0 (some { md := 2 }) 1 255 r (by decide) hr
  refine ⟨by decide, by decide, ?_⟩
  rw [hr, Option.map_some', Option.some.injEq, List.all_eq_true]
  intro e he
  obtain ⟨h1, h2, _⟩ := hall e he
  rw [h1]
  simpa using h2

end EosFuse

namespace StringTokenizer

open EosFuse

/-- Membership in "0123456789". -/
theorem contains_digits (c : Char) :
    "0123456789".toList.contains c = c.isDigit := by
  by_cases h : c.isDigit = true
  · rw [h]
    have hc : c = Char.ofNat c.toNat := (Char.ofNat_toNat c).symm
    simp only [Char.isDigit, Bool.and_eq_true, decide_eq_true_eq] at h
    have h1 : 48 ≤ c.toNat := h.1
    have h2 : c.toNat ≤ 57 := h.2
    generalize c.toNat = k at hc h1 h2
    subst hc
    interval_cases k <;> decide
  · have hf : c.isDigit = false := by simpa using h
    rw [hf]
    by_contra hcon
    have hb : "0123456789".toList.contains c = true := by
      cases hx : "0123456789".toList.contains c
      · exact absurd hx hcon
      · rfl
    have hm : c ∈ "0123456789".toList := List.mem_of_elem_eq_true hb
    apply h
    simp only [String.toList, List.mem_cons, List.mem_singleton] at hm
    rcases hm with h | h | h | h | h | h | h | h | h | h | h <;> first | (subst h; rfl) | simp at h

/-- No character outside "0123456789" exactly when every character is a digit. -/
theorem find_first_not_of_digits (str : String) :
    find_first_not_of str "0123456789" = none ↔ ∀ c ∈ str.toList, c.isDigit = true := by
  unfold find_first_not_of
  rw [List.findIdx?_eq_none_iff]
  constructor
  · intro h c hc
    have := h c hc
    rw [contains_digits] at this
    simpa using this
  · intro h c hc
    rw [contains_digits, h c hc]
    rfl

end StringTokenizer
namespace StringTokenizer

open EosFuse

/-- A digit is a character between '0' and '9'. -/
theorem isDigit_iff (c : Char) : c.isDigit = true ↔ '0' ≤ c ∧ c ≤ '9' := by
  simp only [Char.isDigit, Bool.and_eq_true, decide_eq_true_eq]
  exact Iff.rfl

/-- A run of digits takes one byte per character. -/
theorem utf8Len_digits (l : List Char) (h : ∀ c ∈ l, c.isDigit = true) :
    String.utf8Len l = l.length := by
  induction l with
  | nil => rfl
  | cons a rest ih =>
    have ha : a.isDigit = true := h a (by simp)
    have hsz : a.utf8Size = 1 := by
      simp only [Char.isDigit, Bool.and_eq_true, decide_eq_true_eq] at ha
      have h2 : a.val ≤ 57 := ha.2
      have h3 : a.val ≤ 127 := Nat.le_trans (show a.val.toNat ≤ 57 from h2) (by decide)
      simp [Char.utf8Size, h3]
    rw [String.utf8Len_cons, ih (fun c hc => h c (by simp [hc])), hsz]
    rfl

/-- The decimal representation of a natural number, as a list of characters. -/
theorem toString_toList (n : Nat) : (toString n).toList = Nat.toDigits 10 n := rfl

/-- What `IsUnsignedNumber` tests, in terms of the characters of the string. -/
theorem IsUnsignedNumber_chars (str : String) :
    IsUnsignedNumber str = true ↔
      str.toList ≠ [] ∧ (∀ c ∈ str.toList, c.isDigit = true) ∧
      (str.toList.head? = some '0' → str.toList = ['0']) := by
  obtain ⟨l⟩ := str
  simp only [IsUnsignedNumber, Bool.and_eq_true, Bool.not_eq_true', beq_eq_false_iff_ne,
    ne_eq, beq_iff_eq, Bool.or_eq_true, bne_iff_ne, find_first_not_of_digits,
    String.utf8ByteSize_mk, String.utf8Len_eq_zero, String.toList]
  constructor
  · rintro ⟨⟨hne, hd⟩, hz⟩
    refine ⟨hne, hd, fun h0 => ?_⟩
    rcases hz with hz | hz
    · exact absurd h0 hz
    · rw [utf8Len_digits l hd] at hz
      match l, hz, h0 with
      | [a], _, h0 =>
        simp only [List.head?_cons, Option.some.injEq] at h0
        rw [h0]
  · rintro ⟨hne, hd, hz⟩
    refine ⟨⟨hne, hd⟩, ?_⟩
    by_cases h0 : l.head? = some '0'
    · right
      rw [hz h0]
      rfl
    · left
      exact h0

end StringTokenizer
namespace StringTokenizer

open EosFuse

/-- The conditions "non-empty, characters '0' to '9' only, no leading zero unless the
string is "0"", in terms of the list of characters. -/
theorem canonical_chars (str : String) :
    (str ≠ "" ∧ (∀ c ∈ str.toList, '0' ≤ c ∧ c ≤ '9') ∧
        (str.toList.head? = some '0' → str = "0")) ↔
      (str.toList ≠ [] ∧ (∀ c ∈ str.toList, c.isDigit = true) ∧
        (str.toList.head? = some '0' → str.toList = ['0'])) := by
  have hnil : str ≠ "" ↔ str.toList ≠ [] := by
    obtain ⟨l⟩ := str
    simp [String.toList, String.ext_iff]
  have hzero : str = "0" ↔ str.toList = ['0'] := by
    obtain ⟨l⟩ := str
    simp [String.toList, String.ext_iff]
  rw [hnil, hzero]
  simp only [isDigit_iff]

/-- A string meets these conditions exactly when it is the decimal representation of a
natural number, which is then the number its digits denote. -/
theorem canonical_toString (str : String) :
    ((str.toList ≠ [] ∧ (∀ c ∈ str.toList, c.isDigit = true) ∧
        (str.toList.head? = some '0' → str.toList = ['0'])) ↔ ∃ n : Nat, str = toString n) ∧
    (∀ n : Nat, str = toString n → digitsValue str.toList = n) := by
  constructor
  · constructor
    · rintro ⟨hne, hd, hz⟩
      refine ⟨digitsValue str.toList, ?_⟩
      apply String.ext
      show str.toList = Nat.toDigits 10 (digitsValue str.toList)
      exact (toDigits_digitsValue str.toList hne hd hz).symm
    · rintro ⟨n, rfl⟩
      rw [toString_toList]
      refine ⟨toDigits_ne_nil n, toDigits_isDigit n, fun h0 => ?_⟩
      rcases Nat.eq_zero_or_pos n with hn | hn
      · subst hn
        rfl
      · exact absurd h0 (toDigits_head n hn)
  · rintro n rfl
    rw [toString_toList, digitsValue_toDigits]

/-- C30: `IsUnsignedNumber(str)` is true exactly when `str` is non-empty, consists of
the characters '0' to '9' only and has no leading zero unless it is "0"; that is,
exactly when `str` is the decimal representation of a natural number. -/
theorem IsUnsignedNumber_iff (str : String) :
    (IsUnsignedNumber str = true ↔
      str ≠ "" ∧ (∀ c ∈ str.toList, '0' ≤ c ∧ c ≤ '9') ∧
        (str.toList.head? = some '0' → str = "0")) ∧
    (IsUnsignedNumber str = true ↔ ∃ n : Nat, str = toString n) := by
  constructor
  · rw [IsUnsignedNumber_chars, canonical_chars]
  · rw [IsUnsignedNumber_chars, (canonical_toString str).1]

end StringTokenizer
namespace Mapping

open EosFuse

/-- A digit is no white space. -/
theorem isspace_of_isDigit (c : Char) (h : c.isDigit = true) : isspace c = false := by
  simp only [Char.isDigit, Bool.and_eq_true, decide_eq_true_eq] at h
  have h1 : 48 ≤ c.toNat := h.1
  simp only [isspace, Bool.or_eq_false_iff, beq_eq_false_iff_ne, ne_eq, Bool.and_eq_false_iff,
    decide_eq_false_iff_not, not_le]
  omega

/-- A digit is no sign. -/
theorem sign_of_isDigit (c : Char) (h : c.isDigit = true) : c ≠ '-' ∧ c ≠ '+' := by
  constructor <;> rintro rfl <;> exact absurd h (by decide)

/-- In a run of digits `strtoull` reads all of them. -/
theorem strtoull_digits (l : List Char) (hne : l ≠ []) (hd : ∀ c ∈ l, c.isDigit = true)
    (hv : digitsValue l < 2 ^ 64) : strtoull ⟨l⟩ = digitsValue l := by
  cases l with
  | nil => exact absurd rfl hne
  | cons a rest =>
    have ha : a.isDigit = true := hd a (by simp)
    have hsp : isspace a = false := isspace_of_isDigit a ha
    obtain ⟨hm, hp⟩ := sign_of_isDigit a ha
    have htw : List.takeWhile Char.isDigit (a :: rest) = a :: rest := by
      rw [List.takeWhile_eq_self_iff]
      exact hd
    have hnot : ¬ digitsValue (a :: rest) ≥ 2 ^ 64 := by omega
    have hneg : (some a == some '-') = false := by simp [hm]
    have hplus : (some a == some '+') = false := by simp [hp]
    simp only [strtoull, String.toList, List.dropWhile_cons, hsp, Bool.false_eq_true, if_false,
      List.head?_cons, hneg, hplus, Bool.or_self, htw, hnot]

/-- The function `strtoul` reads the decimal representation of a number back. -/
theorem strtoul_toString (n : Nat) (h : n < 2 ^ 64) : strtoul (toString n) = n := by
  have hl : (toString n : String) = ⟨Nat.toDigits 10 n⟩ := rfl
  unfold strtoul
  rw [hl, strtoull_digits _ (toDigits_ne_nil n) (toDigits_isDigit n)
    (by rw [digitsValue_toDigits]; exact h), digitsValue_toDigits]

end Mapping
namespace Mapping

open EosFuse

/-- What `IsUid` returns for the decimal representation of a number below `2^32`, and
only for such a string. -/
theorem IsUid_toString (s : String) (n : Nat) :
    IsUid s = (true, n) ↔ n < 2 ^ 32 ∧ s = toString n := by
  unfold IsUid
  simp only [Prod.mk.injEq, beq_iff_eq]
  constructor
  · rintro ⟨hs, hn⟩
    rw [hn] at hs
    exact ⟨by rw [← hn]; exact Nat.mod_lt _ (by norm_num), hs⟩
  · rintro ⟨hn, rfl⟩
    have h64 : n < 2 ^ 64 := lt_trans hn (by norm_num)
    rw [strtoul_toString n h64, Nat.mod_eq_of_lt hn]
    exact ⟨rfl, rfl⟩

/-- C26: `IsUid(s, id)` returns true with `id = n` exactly when `s` is the decimal
representation of a number `n < 2^32`; it returns true exactly when `s` is non-empty,
consists of the characters '0' to '9' only, has no leading zero unless it is "0", and
denotes a number below `2^32`; and `IsGid` computes the same. -/
theorem IsUid_iff (s : String) :
    (∀ n : Nat, IsUid s = (true, n) ↔ n < 2 ^ 32 ∧ s = toString n) ∧
    ((IsUid s).1 = true ↔
      (s ≠ "" ∧ (∀ c ∈ s.toList, '0' ≤ c ∧ c ≤ '9') ∧
        (s.toList.head? = some '0' → s = "0")) ∧ digitsValue s.toList < 2 ^ 32) ∧
    IsGid s = IsUid s := by
  refine ⟨IsUid_toString s, ?_, rfl⟩
  rw [StringTokenizer.canonical_chars, (StringTokenizer.canonical_toString s).1]
  constructor
  · intro h
    have h2 : IsUid s = (true, (IsUid s).2) := by
      rw [← h]
    obtain ⟨hn, hs⟩ := (IsUid_toString s _).1 h2
    refine ⟨⟨_, hs⟩, ?_⟩
    rw [(StringTokenizer.canonical_toString s).2 _ hs]
    exact hn
  · rintro ⟨⟨n, hs⟩, hv⟩
    rw [(StringTokenizer.canonical_toString s).2 n hs] at hv
    rw [((IsUid_toString s n).2 ⟨hv, hs⟩)]

end Mapping
namespace Mapping

open EosFuse

/-- The linear search of `HasUid` is membership in the list. -/
theorem HasUid_iff (uid : Nat) (l : List Nat) : HasUid uid l = true ↔ uid ∈ l := by
  induction l with
  | nil => simp [HasUid]
  | cons x rest ih =>
    unfold HasUid
    by_cases h : x = uid
    · simp [h]
    · have h2 : ¬ uid = x := fun e => h e.symm
      simp [h, h2, ih]

/-- The linear search of `HasGid` is membership in the list. -/
theorem HasGid_iff (gid : Nat) (l : List Nat) : HasGid gid l = true ↔ gid ∈ l := by
  induction l with
  | nil => simp [HasGid]
  | cons x rest ih =>
    unfold HasGid
    by_cases h : x = gid
    · simp [h]
    · have h2 : ¬ gid = x := fun e => h e.symm
      simp [h, h2, ih]

/-- The decimal representation of a number is not the empty string. -/
theorem utf8ByteSize_toString_ne (n : Nat) : (toString n).utf8ByteSize ≠ 0 := by
  have hl : (toString n : String) = ⟨Nat.toDigits 10 n⟩ := rfl
  rw [hl, String.utf8ByteSize_mk]
  intro h
  exact toDigits_ne_nil n (String.utf8Len_eq_zero.1 h)

/-- C23: when the identity is no sudoer after the sudoer flag is evaluated, the role
selection of `IdMap` leaves it no sudoer and leaves the id lists as they are; the
resulting uid is the selected uid if that is in `uid_list` and 99 otherwise, the
resulting gid the selected gid if that is in `gid_list` and 99 otherwise, so that each is
in its list or is 99.  The selected uid is the mapped uid when `eos.ruid` is empty and
the number `eos.ruid` denotes when that is a decimal number below `2^32`; likewise for
the gid. -/
theorem IdMapRoles_non_sudoer (m : Maps) (ruid rgid : String) (vid : VirtualIdentity)
    (hns : (vid.sudoer || (m.gSudoerMap.lookup vid.uid).isSome) = false) :
    (IdMapRoles m ruid rgid vid).sudoer = false ∧
    (IdMapRoles m ruid rgid vid).uid_list = vid.uid_list ∧
    (IdMapRoles m ruid rgid vid).gid_list = vid.gid_list ∧
    (IdMapRoles m ruid rgid vid).uid =
      (if sel_uid m ruid vid ∈ vid.uid_list then sel_uid m ruid vid else 99) ∧
    (IdMapRoles m ruid rgid vid).gid =
      (if sel_gid m rgid vid ∈ vid.gid_list then sel_gid m rgid vid else 99) ∧
    ((IdMapRoles m ruid rgid vid).uid ∈ (IdMapRoles m ruid rgid vid).uid_list ∨
      (IdMapRoles m ruid rgid vid).uid = 99) ∧
    ((IdMapRoles m ruid rgid vid).gid ∈ (IdMapRoles m ruid rgid vid).gid_list ∨
      (IdMapRoles m ruid rgid vid).gid = 99) ∧
    (ruid = "" → sel_uid m ruid vid = vid.uid) ∧
    (rgid = "" → sel_gid m rgid vid = vid.gid) ∧
    (∀ n : Nat, n < 2 ^ 32 → ruid = toString n → sel_uid m ruid vid = n) ∧
    (∀ n : Nat, n < 2 ^ 32 → rgid = toString n → sel_gid m rgid vid = n) := by
  have hsud : vid.sudoer = false := by
    cases hv : vid.sudoer
    · rfl
    · rw [hv] at hns
      simp at hns
  have hshape : IdMapRoles m ruid rgid vid =
      { vid with
        uid := (if HasUid (sel_uid m ruid vid) vid.uid_list then sel_uid m ruid vid else 99),
        gid := (if HasGid (sel_gid m rgid vid) vid.gid_list then sel_gid m rgid vid
          else 99) } := by
    unfold IdMapRoles
    rw [if_pos hns]
  have huid : (IdMapRoles m ruid rgid vid).uid =
      (if sel_uid m ruid vid ∈ vid.uid_list then sel_uid m ruid vid else 99) := by
    rw [hshape]
    by_cases h : sel_uid m ruid vid ∈ vid.uid_list
    · simp [h, (HasUid_iff _ _).2 h]
    · have h2 : HasUid (sel_uid m ruid vid) vid.uid_list = false := by
        cases hx : HasUid (sel_uid m ruid vid) vid.uid_list
        · rfl
        · exact absurd ((HasUid_iff _ _).1 hx) h
      simp [h, h2]
  have hgid : (IdMapRoles m ruid rgid vid).gid =
      (if sel_gid m rgid vid ∈ vid.gid_list then sel_gid m rgid vid else 99) := by
    rw [hshape]
    by_cases h : sel_gid m rgid vid ∈ vid.gid_list
    · simp [h, (HasGid_iff _ _).2 h]
    · have h2 : HasGid (sel_gid m rgid vid) vid.gid_list = false := by
        cases hx : HasGid (sel_gid m rgid vid) vid.gid_list
        · rfl
        · exact absurd ((HasGid_iff _ _).1 hx) h
      simp [h, h2]
  have hul : (IdMapRoles m ruid rgid vid).uid_list = vid.uid_list := by rw [hshape]
  have hgl : (IdMapRoles m ruid rgid vid).gid_list = vid.gid_list := by rw [hshape]
  refine ⟨by rw [hshape]; exact hsud, hul, hgl, huid, hgid, ?_, ?_, ?_, ?_, ?_, ?_⟩
  · rw [huid, hul]
    by_cases h : sel_uid m ruid vid ∈ vid.uid_list
    · left
      rw [if_pos h]
      exact h
    · right
      rw [if_neg h]
  · rw [hgid, hgl]
    by_cases h : sel_gid m rgid vid ∈ vid.gid_list
    · left
      rw [if_pos h]
      exact h
    · right
      rw [if_neg h]
  · rintro rfl
    rfl
  · rintro rfl
    rfl
  · intro n hn hr
    unfold sel_uid
    rw [if_pos (by rw [hr]; exact utf8ByteSize_toString_ne n), (IsUid_toString ruid n).2 ⟨hn, hr⟩]
    rfl
  · intro n hn hr
    unfold sel_gid
    have hg : IsGid rgid = (true, n) := (IsUid_toString rgid n).2 ⟨hn, hr⟩
    rw [if_pos (by rw [hr]; exact utf8ByteSize_toString_ne n), hg]
    rfl

/-- C23 (witness): a user mapped to uid 1000 with the roles 1000 and 2000 and the
group 100: asking for uid 2000 is granted, asking for uid 0 and gid 0 gives 99. -/
theorem IdMapRoles_non_sudoer_witness :
    (IdMapRoles {} "2000" ""
      { uid := 1000, gid := 100, uid_list := [1000, 2000], gid_list := [100] }).uid = 2000 ∧
    (IdMapRoles {} "0" "0"
      { uid := 1000, gid := 100, uid_list := [1000, 2000], gid_list := [100] }).uid = 99 ∧
    (IdMapRoles {} "0" "0"
      { uid := 1000, gid := 100, uid_list := [1000, 2000], gid_list := [100] }).gid = 99 :=
  ⟨(IdMapRoles_non_sudoer {} "2000" ""
      { uid := 1000, gid := 100, uid_list := [1000, 2000], gid_list := [100] }
      rfl).2.2.2.1.trans (by decide),
   (IdMapRoles_non_sudoer {} "0" "0"
      { uid := 1000, gid := 100, uid_list := [1000, 2000], gid_list := [100] }
      rfl).2.2.2.1.trans (by decide),
   (IdMapRoles_non_sudoer {} "0" "0"
      { uid := 1000, gid := 100, uid_list := [1000, 2000], gid_list := [100] }
      rfl).2.2.2.2.1.trans (by decide)⟩

end Mapping
namespace Mapping

open EosFuse

/-- A key found in the first part of a list is found there. -/
theorem lookup_append_some (pre rest : List (String × String)) (k v : String)
    (h : pre.lookup k = some v) : (pre ++ rest).lookup k = some v := by
  induction pre with
  | nil => simp [List.lookup] at h
  | cons kv pre ih =>
    obtain ⟨a, b⟩ := kv
    by_cases hk : k = a
    · subst hk
      simpa [List.lookup] using h
    · have hb : (k == a) = false := by simpa using hk
      simp only [List.cons_append, List.lookup, hb] at h ⊢
      exact ih h

/-- A key absent from the first part is found in the entry that follows. -/
theorem lookup_append_none (pre : List (String × String)) (k v : String)
    (h : ∀ kv ∈ pre, kv.1 ≠ k) : (pre ++ [(k, v)]).lookup k = some v := by
  induction pre with
  | nil => simp [List.lookup]
  | cons kv pre ih =>
    obtain ⟨a, b⟩ := kv
    have hk : ¬ k = a := fun e => h (a, b) (by simp) e.symm
    have hb : (k == a) = false := by simpa using hk
    simp only [List.cons_append, List.lookup, hb]
    exact ih (fun kv hkv => h kv (by simp [hkv]))

/-- The value found for a key belongs to an entry of the list. -/
theorem mem_of_lookup (l : List (String × String)) (k v : String)
    (h : l.lookup k = some v) : (k, v) ∈ l := by
  induction l with
  | nil => simp [List.lookup] at h
  | cons kv l ih =>
    obtain ⟨a, b⟩ := kv
    by_cases hk : k = a
    · subst hk
      simp only [List.lookup, beq_self_eq_true, Option.some.injEq] at h
      subst h
      simp
    · have hb : (k == a) = false := by simpa using hk
      simp only [List.lookup, hb] at h
      exact List.mem_cons_of_mem _ (ih h)

/-- The loop over `gGeoMap` keeps `geoInv`, and without any match it leaves the
location as it was. -/
theorem geoLoop_spec (ip : String) : ∀ (rest pre : List (String × String))
    (best : Option String) (g : String), geoInv ip pre best g →
    ∃ best2, geoInv ip (pre ++ rest) best2 (geoLoop ip rest best g) ∧
      (best2 = none → geoLoop ip rest best g = g) := by
  intro rest
  induction rest with
  | nil =>
    intro pre best g h
    exact ⟨best, by simpa [geoLoop] using h, fun _ => rfl⟩
  | cons kv rest ih =>
    obtain ⟨key, value⟩ := kv
    intro pre best g h
    have hassoc : pre ++ (key, value) :: rest = (pre ++ [(key, value)]) ++ rest := by simp
    rw [hassoc]
    cases best with
    | none =>
      have hnone : ∀ kv ∈ pre, compare0 ip kv.1 = false := h
      by_cases hc : compare0 ip key = true
      · have hstep : geoLoop ip ((key, value) :: rest) none g =
            geoLoop ip rest (some key) value := by
          simp [geoLoop, hc]
        rw [hstep]
        have hinv : geoInv ip (pre ++ [(key, value)]) (some key) value := by
          refine ⟨hc, lookup_append_none pre key value ?_, ?_⟩
          · intro kv hkv e
            have := hnone kv hkv
            rw [e, hc] at this
            cases this
          · intro kv hkv hm
            rcases List.mem_append.1 hkv with h1 | h1
            · have := hnone kv h1
              rw [hm] at this
              cases this
            · simp only [List.mem_singleton] at h1
              rw [h1]
        obtain ⟨b2, hb2, hb3⟩ := ih (pre ++ [(key, value)]) (some key) value hinv
        refine ⟨b2, hb2, fun hn => ?_⟩
        exfalso
        subst hn
        have := hb2 (key, value) (by simp)
        rw [hc] at this
        cases this
      · have hcf : compare0 ip key = false := by simpa using hc
        have hstep : geoLoop ip ((key, value) :: rest) none g = geoLoop ip rest none g := by
          simp [geoLoop, hcf]
        rw [hstep]
        have hinv : geoInv ip (pre ++ [(key, value)]) none g := by
          intro kv hkv
          rcases List.mem_append.1 hkv with h1 | h1
          · exact hnone kv h1
          · simp only [List.mem_singleton] at h1
            rw [h1]
            exact hcf
        exact ih (pre ++ [(key, value)]) none g hinv
    | some k =>
      obtain ⟨hk, hlook, hmax⟩ := h
      by_cases hskip : key.utf8ByteSize ≤ k.utf8ByteSize
      · have hstep : geoLoop ip ((key, value) :: rest) (some k) g =
            geoLoop ip rest (some k) g := by
          simp [geoLoop, hskip]
        rw [hstep]
        have hinv : geoInv ip (pre ++ [(key, value)]) (some k) g := by
          refine ⟨hk, lookup_append_some pre _ k g hlook, ?_⟩
          intro kv hkv hm
          rcases List.mem_append.1 hkv with h1 | h1
          · exact hmax kv h1 hm
          · simp only [List.mem_singleton] at h1
            rw [h1]
            exact hskip
        exact ih (pre ++ [(key, value)]) (some k) g hinv
      · by_cases hc : compare0 ip key = true
        · have hstep : geoLoop ip ((key, value) :: rest) (some k) g =
              geoLoop ip rest (some key) value := by
            simp [geoLoop, hskip, hc]
          rw [hstep]
          have hinv : geoInv ip (pre ++ [(key, value)]) (some key) value := by
            refine ⟨hc, lookup_append_none pre key value ?_, ?_⟩
            · intro kv hkv e
              have := hmax kv hkv (by rw [e]; exact hc)
              rw [e] at this
              exact hskip this
            · intro kv hkv hm
              rcases List.mem_append.1 hkv with h1 | h1
              · have := hmax kv h1 hm
                omega
              · simp only [List.mem_singleton] at h1
                rw [h1]
          obtain ⟨b2, hb2, hb3⟩ := ih (pre ++ [(key, value)]) (some key) value hinv
          refine ⟨b2, hb2, fun hn => ?_⟩
          exfalso
          subst hn
          have := hb2 (key, value) (by simp)
          rw [hc] at this
          cases this
        · have hcf : compare0 ip key = false := by simpa using hc
          have hstep : geoLoop ip ((key, value) :: rest) (some k) g =
              geoLoop ip rest (some k) g := by
            simp [geoLoop, hskip, hcf]
          rw [hstep]
          have hinv : geoInv ip (pre ++ [(key, value)]) (some k) g := by
            refine ⟨hk, lookup_append_some pre _ k g hlook, ?_⟩
            intro kv hkv hm
            rcases List.mem_append.1 hkv with h1 | h1
            · exact hmax kv h1 hm
            · simp only [List.mem_singleton] at h1
              rw [h1, hcf] at hm
              cases hm
          obtain ⟨b2, hb2, hb3⟩ := ih (pre ++ [(key, value)]) (some k) g hinv
          refine ⟨b2, hb2, fun hn => ?_⟩
          exfalso
          subst hn
          have hmem := mem_of_lookup _ _ _ (lookup_append_some pre ([(key, value)] ++ rest) k g hlook)
          have := hb2 (k, g) (by simpa using hmem)
          rw [hk] at this
          cases this

end Mapping
namespace Mapping

open EosFuse

/-- C28: in the geo-location step of `IdMap`, for an identity without geolocation, a
non-empty geo map and a non-empty IP string: if some key of the map is a prefix of the
IP string, the geolocation becomes the value the map holds for a key that is such a
prefix and that no other such key exceeds in length; if no key is a prefix it becomes
the value of the key "default" when the map has one and stays empty when not. -/
theorem IdMapGeo_longest (gGeoMap : List (String × String)) (ipstring : String)
    (hmap : gGeoMap ≠ []) (hip : ipstring ≠ "") :
    (∀ key, compare0 ipstring key = true ↔ key.toList <+: ipstring.toList) ∧
    ((∃ kv ∈ gGeoMap, compare0 ipstring kv.1 = true) →
      ∃ k, compare0 ipstring k = true ∧
        gGeoMap.lookup k = some (IdMapGeo gGeoMap ipstring "") ∧
        (k, IdMapGeo gGeoMap ipstring "") ∈ gGeoMap ∧
        ∀ kv ∈ gGeoMap, compare0 ipstring kv.1 = true →
          kv.1.utf8ByteSize ≤ k.utf8ByteSize) ∧
    ((∀ kv ∈ gGeoMap, compare0 ipstring kv.1 = false) →
      IdMapGeo gGeoMap ipstring "" = (gGeoMap.lookup "default").getD "") := by
  have hlen : gGeoMap.length ≠ 0 := by
    intro h
    exact hmap (List.length_eq_zero.1 h)
  have hipb : ipstring.utf8ByteSize ≠ 0 := by
    obtain ⟨l⟩ := ipstring
    intro h
    apply hip
    rw [String.utf8ByteSize_mk, String.utf8Len_eq_zero] at h
    rw [h]
  have hdef : (if (gGeoMap.lookup "default").isSome then (gGeoMap.lookup "default").getD ""
      else "") = (gGeoMap.lookup "default").getD "" := by
    cases gGeoMap.lookup "default" <;> rfl
  have hshape : IdMapGeo gGeoMap ipstring "" =
      geoLoop ipstring gGeoMap none ((gGeoMap.lookup "default").getD "") := by
    unfold IdMapGeo
    rw [if_pos ⟨rfl, hlen⟩, if_pos hipb, hdef]
  obtain ⟨best, hinv, hnone⟩ := geoLoop_spec ipstring gGeoMap [] none
    ((gGeoMap.lookup "default").getD "") (by intro kv hkv; cases hkv)
  rw [List.nil_append, ← hshape] at hinv
  rw [← hshape] at hnone
  refine ⟨fun key => ?_, ?_, ?_⟩
  · unfold compare0
    exact List.isPrefixOf_iff_prefix
  · rintro ⟨kv, hkv, hm⟩
    cases best with
    | none =>
      have := hinv kv hkv
      rw [hm] at this
      cases this
    | some k =>
      obtain ⟨hk, hlook, hmax⟩ := hinv
      exact ⟨k, hk, hlook, mem_of_lookup _ _ _ hlook, hmax⟩
  · intro hno
    cases best with
    | none => exact hnone rfl
    | some k =>
      obtain ⟨hk, hlook, _⟩ := hinv
      have := hno _ (mem_of_lookup _ _ _ hlook)
      rw [hk] at this
      cases this

/-- C28 (witness): with the rules "10." and "10.1." and a default, the address
10.1.2.3 gets the location of the longer rule and 192.168.0.1 the default. -/
theorem IdMapGeo_longest_witness :
    IdMapGeo [("10.", "site::a"), ("10.1.", "site::b"), ("default", "site::d")]
      "10.1.2.3" "" = "site::b" ∧
    IdMapGeo [("10.", "site::a"), ("10.1.", "site::b"), ("default", "site::d")]
      "192.168.0.1" "" = "site::d" := by
  constructor
  · obtain ⟨k, hk, hlook, hmem, hmax⟩ :=
      (IdMapGeo_longest [("10.", "site::a"), ("10.1.", "site::b"), ("default", "site::d")]
        "10.1.2.3" (by decide) (by decide)).2.1 ⟨("10.1.", "site::b"), by decide, by decide⟩
    have h5 := hmax ("10.1.", "site::b") (by decide) (by decide)
    simp only [List.mem_cons, Prod.mk.injEq, List.mem_singleton, List.not_mem_nil, or_false]
      at hmem
    rcases hmem with ⟨h1, h2⟩ | ⟨h1, h2⟩ | ⟨h1, h2⟩
    · rw [h1] at h5
      exact absurd h5 (by decide)
    · exact h2
    · rw [h1] at hk
      exact absurd hk (by decide)
  · exact (IdMapGeo_longest [("10.", "site::a"), ("10.1.", "site::b"), ("default", "site::d")]
      "192.168.0.1" (by decide) (by decide)).2.2 (by decide)

end Mapping
namespace Mapping

open EosFuse

/-- A text without NUL is what its `c_str()` shows. -/
theorem c_str_of_no_nul (s : String) (h : Char.ofNat 0 ∉ s.toList) : c_str s = s := by
  obtain ⟨l⟩ := s
  unfold c_str
  have : List.takeWhile (fun c => c != Char.ofNat 0) l = l := by
    rw [List.takeWhile_eq_self_iff]
    intro c hc
    have hne : c ≠ Char.ofNat 0 := fun e => h (e ▸ hc)
    simpa using hne
  simp only [String.toList, this]

/-- What `c_str()` shows holds no NUL. -/
theorem c_str_no_nul (s : String) : Char.ofNat 0 ∉ (c_str s).toList := by
  unfold c_str
  intro h
  have := List.mem_takeWhile_imp h
  simp at this

/-- What `c_str()` shows holds no character that the text does not hold. -/
theorem c_str_subset (s : String) (c : Char) (h : c ∉ s.toList) : c ∉ (c_str s).toList := by
  unfold c_str
  intro hc
  exact h ((List.takeWhile_sublist _).subset hc)

/-- A decimal number holds neither ':' nor NUL. -/
theorem toString_plain (n : Nat) :
    ':' ∉ (toString n).toList ∧ Char.ofNat 0 ∉ (toString n).toList := by
  have hl : (toString n).toList = Nat.toDigits 10 n := rfl
  rw [hl]
  constructor <;> intro h <;> exact absurd (toDigits_isDigit n _ h) (by decide)

/-- The characters of `String.intercalate`. -/
theorem intercalate_go_toList (s : String) : ∀ (as : List String) (acc : String),
    (String.intercalate.go acc s as).toList =
      acc.toList ++ (as.map (fun a => s.toList ++ a.toList)).flatten := by
  intro as
  induction as with
  | nil => intro acc; simp [String.intercalate.go]
  | cons a as ih =>
    intro acc
    rw [String.intercalate.go, ih]
    simp [String.toList, String.append]

/-- A list of texts rebuilt from their characters. -/
theorem map_mk_toList (l : List String) : l.map (String.mk ∘ String.toList) = l := by
  induction l with
  | nil => rfl
  | cons a as ih => simp [ih]

/-- Cutting at ':' a text put together from pieces without ':' gives the pieces. -/
theorem splitOnP_pieces (p : Char → Bool) (sep : Char) (hsep : p sep = true) :
    ∀ (fs : List (List Char)) (f : List Char), (∀ x ∈ f, ¬ p x = true) →
      (∀ g ∈ fs, ∀ x ∈ g, ¬ p x = true) →
      (f ++ (fs.map (fun a => [sep] ++ a)).flatten).splitOnP p = f :: fs := by
  intro fs
  induction fs with
  | nil =>
    intro f hf _
    simp only [List.map_nil, List.flatten_nil, List.append_nil]
    exact List.splitOnP_eq_single p f hf
  | cons g gs ih =>
    intro f hf hfs
    have h1 : f ++ (List.map (fun a => [sep] ++ a) (g :: gs)).flatten =
        f ++ sep :: (g ++ (List.map (fun a => [sep] ++ a) gs).flatten) := by
      simp
    rw [h1, List.splitOnP_first p f hf sep hsep,
      ih g (hfs g (by simp)) (fun g2 hg2 => hfs g2 (by simp [hg2]))]

/-- The modelled tokenizer gives back the pieces of a text put together with ':'. -/
theorem EmptyTokenize_intercalate (fields : List String) (hne : fields ≠ [])
    (hcolon : ∀ f ∈ fields, ':' ∉ f.toList) :
    EmptyTokenize (String.intercalate ":" fields) ":" = fields := by
  cases fields with
  | nil => exact absurd rfl hne
  | cons f fs =>
    unfold EmptyTokenize
    rw [String.intercalate, intercalate_go_toList]
    have hp : ∀ c : Char, (":".toList.contains c) = true ↔ c = ':' := by
      intro c
      simp [String.toList]
    have hmap : List.map (fun a => ":".toList ++ a.toList) fs =
        List.map (fun a => [':'] ++ a) (fs.map String.toList) := by
      simp [String.toList]
    rw [hmap, splitOnP_pieces _ ':' (by decide) (fs.map String.toList) f.toList]
    · simp [String.toList, map_mk_toList]
    · intro x hx hpx
      rw [(hp x).1 hpx] at hx
      exact hcolon f (by simp) hx
    · intro g hg x hx hpx
      obtain ⟨a, ha, rfl⟩ := List.mem_map.1 hg
      rw [(hp x).1 hpx] at hx
      exact hcolon a (by simp [ha]) hx

end Mapping
namespace Mapping

open EosFuse

/-- C27 (the code at the failing input): the identity that `Mapping::Nobody` makes of a
fresh one has the name "nobody" and the trace identifier "nobody@unknown", and its
`prot` has never been assigned.  None of its texts holds a ':' and its rendering takes
36 bytes, but `VidToString` writes "(null)" for `prot`, and `VidFromString` returns true
with the `prot` "(null)" in place of the empty one. -/
theorem Vid_roundtrip_of_nobody :
    (Nobody {}).prot.str = none ∧
    (Nobody {}).name.str = some "nobody" ∧
    (Nobody {}).tident.str = some "nobody@unknown" ∧
    (formatVid (Nobody {})).utf8ByteSize = 36 ∧
    VidToString (Nobody {}) = "99:99:::nobody:(null):nobody@unknown" ∧
    EmptyTokenize "99:99:::nobody:(null):nobody@unknown" ":" =
      ["99", "99", "", "", "nobody", "(null)", "nobody@unknown"] ∧
    (VidFromString EmptyTokenize {} (VidToString (Nobody {}))).1 = true ∧
    (VidFromString EmptyTokenize {} (VidToString (Nobody {}))).2.prot.str = some "(null)" ∧
    (VidFromString EmptyTokenize {} (VidToString (Nobody {}))).2.name.str = some "nobody" ∧
    (VidFromString EmptyTokenize {} (VidToString (Nobody {}))).2.tident.str =
      some "nobody@unknown" :=
  ⟨by decide, by decide, by decide, by decide, by decide, by decide, by decide, by decide,
    by decide, by decide⟩

/-- A `std::string` with a NUL does not come back either: the identity whose
`uid_string` is "a", NUL, "b" has no ':' in any field, but `VidToString` writes only
the "a", and whatever the tokenizer does, `VidFromString` cannot return true with that
`uid_string`: the text it stores is cut at the first NUL. -/
theorem Vid_roundtrip_nul :
    ':' ∉ (String.mk ['a', Char.ofNat 0, 'b']).toList ∧
    VidToString { uid_string := String.mk ['a', Char.ofNat 0, 'b'],
                  name := XrdOucString.assign "n", prot := XrdOucString.assign "p",
                  tident := XrdOucString.assign "t" } = "99:99:a::n:p:t" ∧
    ∀ (tok : String → String → List String) (v : VirtualIdentity) (s : String),
      ¬ ((VidFromString tok v s).1 = true ∧
        (VidFromString tok v s).2.uid_string = String.mk ['a', Char.ofNat 0, 'b']) := by
  refine ⟨by decide, by decide, ?_⟩
  intro tok v s
  rintro ⟨htrue, hname⟩
  have hnul : Char.ofNat 0 ∈ (VidFromString tok v s).2.uid_string.toList := by
    rw [hname]
    decide
  revert hnul htrue
  unfold VidFromString
  split
  · intro _
    exact c_str_no_nul _
  · intro h
    cases h

/-- The round trip for identities whose `name`, `prot` and `tident` have been assigned:
when these and `uid_string`, `gid_string` hold neither ':' nor NUL and the rendering is
shorter than 4096 bytes, and the tokenizer gives back the pieces of a text put together
with ':', `VidFromString(v, VidToString(vid))` returns true and leaves in `v` the uid,
gid, `uid_string`, `gid_string`, `name`, `prot` and `tident` of `vid` (the uid and gid as
the 32-bit values they are).  And for every text that the tokenizer does not cut into
exactly 7 tokens `VidFromString` returns false and leaves the identity as it was. -/
theorem Vid_roundtrip (tok : String → String → List String) (vid v : VirtualIdentity)
    (nm pr td : String)
    (htok : ∀ fields : List String, fields ≠ [] → (∀ f ∈ fields, ':' ∉ f.toList) →
      tok (String.intercalate ":" fields) ":" = fields)
    (hname : vid.name.str = some nm) (hprot : vid.prot.str = some pr)
    (htident : vid.tident.str = some td)
    (hcolon : ':' ∉ vid.uid_string.toList ∧ ':' ∉ vid.gid_string.toList ∧
      ':' ∉ nm.toList ∧ ':' ∉ pr.toList ∧ ':' ∉ td.toList)
    (hnul : Char.ofNat 0 ∉ vid.uid_string.toList ∧ Char.ofNat 0 ∉ vid.gid_string.toList ∧
      Char.ofNat 0 ∉ nm.toList ∧ Char.ofNat 0 ∉ pr.toList ∧
      Char.ofNat 0 ∉ td.toList)
    (hlen : (formatVid vid).utf8ByteSize < 4096) :
    VidFromString tok v (VidToString vid) =
      (true, { v with
        uid := vid.uid % 2 ^ 32, gid := vid.gid % 2 ^ 32,
        uid_string := vid.uid_string, gid_string := vid.gid_string,
        name := vid.name, prot := vid.prot, tident := vid.tident }) ∧
    (∀ s : String, (tok s ":").length ≠ 7 → VidFromString tok v s = (false, v)) := by
  obtain ⟨hc1, hc2, hc3, hc4, hc5⟩ := hcolon
  obtain ⟨hn1, hn2, hn3, hn4, hn5⟩ := hnul
  have e3 : vid.name = XrdOucString.assign nm := by
    cases hx : vid.name
    rw [hx] at hname
    simp only at hname
    rw [hname]
    rfl
  have e4 : vid.prot = XrdOucString.assign pr := by
    cases hx : vid.prot
    rw [hx] at hprot
    simp only at hprot
    rw [hprot]
    rfl
  have e5 : vid.tident = XrdOucString.assign td := by
    cases hx : vid.tident
    rw [hx] at htident
    simp only at htident
    rw [htident]
    rfl
  constructor
  · have hfmt : VidToString vid = String.intercalate ":"
        [toString (vid.uid % 2 ^ 32), toString (vid.gid % 2 ^ 32), vid.uid_string,
         vid.gid_string, nm, pr, td] := by
      unfold VidToString snprintf4096
      rw [if_pos hlen]
      unfold formatVid percent_s
      rw [hname, hprot, htident]
      simp only []
      rw [c_str_of_no_nul _ hn1, c_str_of_no_nul _ hn2, c_str_of_no_nul _ hn3,
        c_str_of_no_nul _ hn4, c_str_of_no_nul _ hn5]
      rfl
    have htoks := htok
      [toString (vid.uid % 2 ^ 32), toString (vid.gid % 2 ^ 32), vid.uid_string,
       vid.gid_string, nm, pr, td] (by simp) (by
        intro f hf
        simp only [List.mem_cons, List.mem_singleton, List.not_mem_nil, or_false] at hf
        rcases hf with h | h | h | h | h | h | h <;> rw [h]
        · exact (toString_plain _).1
        · exact (toString_plain _).1
        · exact hc1
        · exact hc2
        · exact hc3
        · exact hc4
        · exact hc5)
    have hnum : ∀ n : Nat, strtoul (c_str (toString (n % 2 ^ 32))) % 2 ^ 32 = n % 2 ^ 32 := by
      intro n
      have hlt : n % 2 ^ 32 < 2 ^ 32 := Nat.mod_lt _ (by norm_num)
      rw [c_str_of_no_nul _ (toString_plain _).2,
        strtoul_toString _ (lt_trans hlt (by norm_num)), Nat.mod_eq_of_lt hlt]
    unfold VidFromString
    rw [hfmt, htoks]
    simp only [hnum, c_str_of_no_nul _ hn1, c_str_of_no_nul _ hn2, c_str_of_no_nul _ hn3,
      c_str_of_no_nul _ hn4, c_str_of_no_nul _ hn5, e3, e4, e5]
  · intro s hs
    unfold VidFromString
    split
    · rename_i heq
      rw [heq] at hs
      exact absurd rfl hs
    · rfl

/-- An instance of `Vid_roundtrip` with the modelled tokenizer: the identity of the
user "alice" comes back from its rendering, and a text of six tokens is refused. -/
theorem Vid_roundtrip_instance :
    VidFromString EmptyTokenize {}
      (VidToString { uid := 1000, gid := 100, uid_string := "alice", gid_string := "users",
                     name := XrdOucString.assign "alice", prot := XrdOucString.assign "krb5",
                     tident := XrdOucString.assign "alice.1@host" }) =
      (true, { uid := 1000, gid := 100, uid_string := "alice", gid_string := "users",
               name := XrdOucString.assign "alice", prot := XrdOucString.assign "krb5",
               tident := XrdOucString.assign "alice.1@host" }) ∧
    VidFromString EmptyTokenize {} "1000:100:alice:users:alice:krb5" = (false, {}) :=
  ⟨(Vid_roundtrip EmptyTokenize
      { uid := 1000, gid := 100, uid_string := "alice", gid_string := "users",
        name := XrdOucString.assign "alice", prot := XrdOucString.assign "krb5",
        tident := XrdOucString.assign "alice.1@host" } {} "alice" "krb5" "alice.1@host"
      EmptyTokenize_intercalate rfl rfl rfl (by decide) (by decide) (by decide)).1,
   (Vid_roundtrip EmptyTokenize
      { uid := 1000, gid := 100, uid_string := "alice", gid_string := "users",
        name := XrdOucString.assign "alice", prot := XrdOucString.assign "krb5",
        tident := XrdOucString.assign "alice.1@host" } {} "alice" "krb5" "alice.1@host"
      EmptyTokenize_intercalate rfl rfl rfl (by decide) (by decide) (by decide)).2
      "1000:100:alice:users:alice:krb5" (by decide)⟩

end Mapping
namespace TableCell

open EosFuse

/-- The digit-counting loop adds the number of decimal digits of a positive number. -/
theorem lengthLoopU_pos (n : Nat) : ∀ ret, 0 < n →
    lengthLoopU n ret = ret + (Nat.toDigits 10 n).length := by
  induction n using Nat.strong_induction_on with
  | _ n ih =>
    intro ret hn
    rw [lengthLoopU]
    have hne : n ≠ 0 := by omega
    simp only [hne, dite_false]
    by_cases h : n < 10
    · have h0 : n / 10 = 0 := Nat.div_eq_of_lt h
      rw [h0, lengthLoopU, toDigits_small 10 n h]
      simp
    · rw [ih (n / 10) (by omega) (ret + 1) (by omega), toDigits_step 10 n (by decide) (by omega)]
      simp
      omega

/-- The same loop on a signed number counts the digits of its absolute value. -/
theorem lengthLoopI_ne (z : Int) : ∀ ret, z ≠ 0 →
    lengthLoopI z ret = ret + (Nat.toDigits 10 z.natAbs).length := by
  generalize hk : z.natAbs = k
  induction k using Nat.strong_induction_on generalizing z with
  | _ k ih =>
    intro ret hz
    rw [lengthLoopI]
    simp only [hz, dite_false]
    have hpos : 0 < k := by
      rw [← hk]
      exact Int.natAbs_pos.2 hz
    have hq : (z.tdiv 10).natAbs = k / 10 := by
      rw [Int.natAbs_tdiv, hk]
      rfl
    by_cases h : k < 10
    · have h0 : z.tdiv 10 = 0 := by
        apply Int.natAbs_eq_zero.1
        rw [hq]
        exact Nat.div_eq_of_lt h
      rw [h0, lengthLoopI, toDigits_small 10 k h]
      simp
    · have hne : z.tdiv 10 ≠ 0 := by
        intro h0
        rw [h0] at hq
        simp at hq
        omega
      rw [ih (k / 10) (by omega) (z.tdiv 10) hq (ret + 1) hne,
        toDigits_step 10 k (by decide) (by omega)]
      simp
      omega

end TableCell
namespace TableCell

open EosFuse

/-- The decimal representation of a natural number has one byte per digit. -/
theorem utf8ByteSize_toString (n : Nat) :
    (toString n).utf8ByteSize = (Nat.toDigits 10 n).length ∧
    (toString n).length = (Nat.toDigits 10 n).length := by
  have hl : (toString n : String) = ⟨Nat.toDigits 10 n⟩ := rfl
  rw [hl, String.utf8ByteSize_mk, StringTokenizer.utf8Len_digits _ (toDigits_isDigit n)]
  exact ⟨rfl, rfl⟩

/-- The value length of a cell holding an unsigned integer is the length of its
decimal representation. -/
theorem valueLength_uint (n : Nat) :
    lengthLoopU n (if n = 0 then 1 else 0) = (toString n).utf8ByteSize := by
  rw [(utf8ByteSize_toString n).1]
  rcases Nat.eq_zero_or_pos n with h | h
  · subst h
    rw [lengthLoopU]
    rfl
  · have hne : n ≠ 0 := by omega
    rw [lengthLoopU_pos n _ h]
    simp [hne]

/-- The text written for a signed integer: the digits of the absolute value, after a
minus sign for a negative number. -/
theorem toString_int (z : Int) :
    toString z = if z < 0 then "-" ++ toString z.natAbs else toString z.natAbs := by
  cases z with
  | ofNat m =>
    have : ¬ (Int.ofNat m < 0) := Int.not_lt.2 (Int.ofNat_nonneg m)
    rw [if_neg this]
    rfl
  | negSucc m =>
    rw [if_pos (Int.negSucc_lt_zero m)]
    rfl

/-- The value length of a cell holding a signed integer is the length of the text
written for it. -/
theorem valueLength_int (z : Int) :
    lengthLoopI z (if z ≤ 0 then 1 else 0) = (toString z).utf8ByteSize ∧
    (toString z).utf8ByteSize = (toString z).length := by
  rw [toString_int]
  rcases lt_trichotomy z 0 with h | h | h
  · have hne : z ≠ 0 := by omega
    have hle : z ≤ 0 := by omega
    rw [lengthLoopI_ne z _ hne, if_pos h, if_pos hle]
    have hb : ("-" ++ toString z.natAbs).utf8ByteSize = 1 + (toString z.natAbs).utf8ByteSize := by
      simp only [String.utf8ByteSize, String.append, String.utf8ByteSize.go_eq,
        String.utf8Len_append]
      rfl
    have hc : ("-" ++ toString z.natAbs).length = 1 + (toString z.natAbs).length := by
      simp only [String.length_append]
      rfl
    rw [hb, hc, (utf8ByteSize_toString _).1, (utf8ByteSize_toString _).2]
    exact ⟨rfl, rfl⟩
  · subst h
    rw [lengthLoopI]
    exact ⟨rfl, rfl⟩
  · have hne : z ≠ 0 := by omega
    have hle : ¬ z ≤ 0 := by omega
    have hlt : ¬ z < 0 := by omega
    rw [lengthLoopI_ne z _ hne, if_neg hlt, if_neg hle, (utf8ByteSize_toString _).1,
      (utf8ByteSize_toString _).2]
    exact ⟨by omega, rfl⟩

/-- C29: the length that `Length()` computes is the length of the text of `Str()`,
plus 2 if the format contains the prefix "±", plus 1 if it contains ".", plus the length
of the unit and 1 if the unit is not empty.  For a cell holding an unsigned or a signed
integer (zero and negative numbers included) the text of `Str()` has one byte per
character, so that its length is its number of characters; for a string the length is
`std::string::length()`. -/
theorem Length_eq (fixed2 : EosFuse.Double → String) (c : TableCell) :
    Length fixed2 c =
      (Str fixed2 c).utf8ByteSize +
        (if find c.mFormat "±" then 2 else 0) +
        (if find c.mFormat "." then 1 else 0) +
        (if c.mUnit.utf8ByteSize ≠ 0 then c.mUnit.utf8ByteSize + 1 else 0) ∧
    (c.mSelectedValue = TypeContainingValue.UINT ∨
        c.mSelectedValue = TypeContainingValue.INT →
      (Str fixed2 c).utf8ByteSize = (Str fixed2 c).length) := by
  have hv : valueLength fixed2 c = (Str fixed2 c).utf8ByteSize := by
    unfold valueLength Str
    cases c.mSelectedValue with
    | UINT => exact valueLength_uint _
    | INT => exact (valueLength_int _).1
    | DOUBLE => rfl
    | STRING => rfl
  constructor
  · unfold Length
    rw [hv]
  · intro h
    unfold Str
    rcases h with h | h
    · rw [h]
      show (toString c.m_ullValue).utf8ByteSize = (toString c.m_ullValue).length
      rw [(utf8ByteSize_toString _).1, (utf8ByteSize_toString _).2]
    · rw [h]
      exact (valueLength_int _).2

end TableCell
